import Mathlib

/-!
# Exposure acquisition pipeline of the Dragonfly camera driver

A shallow embedding of `dcp/drivers/core` (`utils.cpp`, `utils.hpp`, `funcs.cpp`,
`dfcore.cpp`), of the vendor sample `dlapi-x86_64/sample/main.cpp` and of the slew
mode of `dcp/drivers/mount/position.c`.

Conventions of the embedding:

* the vendor library `dlapi.h` is not part of the sources; the camera and the sensor
  are a deterministic transition system `Device σ` over an arbitrary state type `σ`;
* every hardware call made by the driver is appended to a log, together with what the
  hardware answered, so that call counts and call orders are ordinary list properties;
* `float` quantities are rationals (no NaN, no rounding);
* `int` and `unsigned int` are `Int` and `Nat`, with the conversions the C++ code
  performs written out;
* the unbounded readiness loop of `expose` takes a fuel argument counting the status
  queries it may still issue;
* `remove` and the FITS library are a transition system `Storage φ` over the state of
  the file system; `save_image` is the list of its steps in source order, run by
  `exec`, and every storage call is recorded with the status it reported;
* a process ends by returning, by `exit(status)`, or by an exception nobody catches;
* the serial port of the mount is a transition system `Port π`; a read that delivers
  no byte leaves the input buffer as it was.
-/

namespace Sensors

/-! ## Types of `utils.hpp` -/

/-- The `struct SensorInfo` of `utils.hpp`. -/
structure SensorInfo where
  pixels_x : Nat
  pixels_y : Nat
  pixel_size_x : ℚ
  pixel_size_y : ℚ
  cooler_setpoint_min : ℚ
  cooler_setpoint_max : ℚ
  bin_x_max : Nat
  bin_y_max : Nat
  exposure_duration_min : ℚ
  exposure_precision : ℚ
deriving DecidableEq

/-- The `enum ReadoutMode` of `utils.hpp`. -/
inductive ReadoutMode
  | Low | Medium | High | LowStackPro | MediumStackPro | HighStackPro
deriving DecidableEq

/-- The `enum ImageType` of `utils.hpp`. -/
inductive ImageType
  | Light | Dark | Bias | Flat
deriving DecidableEq

/-- The `struct ExposureInfo` of `utils.hpp`. -/
structure ExposureInfo where
  duration : ℚ
  imagetype : ImageType
  readout_mode : ReadoutMode
  bin_x : Int
  bin_y : Int
  overscan : Int
deriving DecidableEq

/-- The `Result<T, E>` of `result.h`, as the driver uses it: `Ok(v)` or `Err(e)`. -/
inductive Result (T E : Type)
  | Ok (v : T)
  | Err (e : E)
deriving DecidableEq

/-! ## The part of `dlapi.h` the driver touches -/

/-- Modelled from the spec: `dl::IPromise::Status`, declared in the absent `dlapi.h`.
The sources name `Complete` and `Error`; every other value is `Other`. -/
inductive PromiseStatus
  | Complete
  | Error
  | Other (code : Nat)
deriving DecidableEq

/-- Modelled from the spec: `dl::ISensor::Status`, declared in the absent `dlapi.h`.
The sources name only `ReadyToDownload`; every other value is `Other`. -/
inductive SensorStatus
  | ReadyToDownload
  | Other (code : Nat)
deriving DecidableEq

/-- Modelled from the spec: the capability identifiers of `dl::ICamera` that `expose`
queries. -/
inductive Capability
  | eSupportsOnChipBinning
  | eSupportsOverscan
deriving DecidableEq

/-- Modelled from the spec: the setting identifiers of `dl::ISensor` that `expose`
sets. -/
inductive Setting
  | UseOnChipBinning
  | UseOverscan
deriving DecidableEq

/-- Modelled from the spec: `dl::TSubframe`, with the six fields `expose` assigns. The
field types are declared in the absent `dlapi.h`; a field holds the value assigned to
it, with no further conversion. -/
structure TSubframe where
  top : Int
  left : Int
  width : Int
  height : Int
  binX : Int
  binY : Int
deriving DecidableEq

/-- Modelled from the spec: `dl::TExposureOptions`, with the seven fields `expose`
assigns. -/
structure TExposureOptions where
  duration : ℚ
  binX : Int
  binY : Int
  readoutMode : Int
  isLightFrame : Bool
  useRBIPreflash : Bool
  useExtTrigger : Bool
deriving DecidableEq

/-- Modelled from the spec: the fields of `dl::TImageMetadata` that `save_image`
reads. -/
structure TImageMetadata where
  width : Nat
  height : Nat
  exposureDuration : ℚ
  eGain : ℚ
  binX : Nat
  binY : Nat
deriving DecidableEq

/-- Modelled from the spec: the object behind a non-null `dl::IImagePtr`: the sample
buffer, the length `getBufferLength` reports and the metadata. -/
structure Image where
  bufferData : List Nat
  bufferLength : Nat
  metadata : TImageMetadata
deriving DecidableEq

/-- Modelled from the spec: the two fields of the camera status that `image_is_ready`
reads. -/
structure TStatus where
  mainSensorState : SensorStatus
  extSensorState : SensorStatus
deriving DecidableEq

/-- The `struct CoolerInfo` of `utils.hpp` (the sensor state is left out: nothing in
the driver core reads it). -/
structure CoolerInfo where
  cooler_enabled : Bool
  cooler_power : ℚ
  cooler_setpoint : ℚ
  heatsink_temp : ℚ
  sensor_temp : ℚ
deriving DecidableEq

/-- The `struct ExposeResult` of `utils.hpp`. `coolerinfo` is `none` until `main`
assigns it: `expose` and `redownload` leave the field unset. -/
structure ExposeResult where
  buffer : List Nat
  bufferlen : Nat
  metadata : TImageMetadata
  expinfo : TExposureOptions
  coolerinfo : Option CoolerInfo
deriving DecidableEq

/-- What a promise-returning hardware command does when called: either the call raises
a C++ exception (`what` is its message), or it hands back a promise; `status` is what
the promise's `wait()` reports and `lastError` what its `getLastError` returns. -/
inductive CallResult
  | raised (what : String)
  | promise (status : PromiseStatus) (lastError : String)
deriving DecidableEq

/-- The camera and its sensor as a transition system over the hardware state `σ`.
Commands return what the call did and the next hardware state; getters only read.
`sensor_info` stands for `get_sensor_info(sensor)` (declared in `status.hpp`, its body
is not in the sources) and `sensorId` for `sensor->getSensorId()`. -/
structure Device (σ : Type) where
  sensor_info : SensorInfo
  sensorId : Nat
  queryCapability : σ → Capability → CallResult × σ
  getCapability : σ → Capability → Bool
  setSetting : σ → Setting → Int → CallResult × σ
  abortExposure : σ → CallResult × σ
  setSubframe : σ → TSubframe → CallResult × σ
  startExposure : σ → TExposureOptions → CallResult × σ
  queryStatus : σ → CallResult × σ
  getStatus : σ → TStatus
  startDownload : σ → CallResult × σ
  getImage : σ → Option Image × σ

/-- One hardware call as seen from outside, with what the hardware answered. -/
inductive Event
  | queryCapability (c : Capability) (r : CallResult)
  | getCapability (c : Capability) (v : Bool)
  | setSetting (s : Setting) (v : Int) (r : CallResult)
  | abortExposure (r : CallResult)
  | setSubframe (sf : TSubframe) (r : CallResult)
  | startExposure (o : TExposureOptions) (r : CallResult)
  | queryStatus (r : CallResult)
  | startDownload (r : CallResult)
  | getImage (isNull : Bool)
  | getBufferData
  | getBufferLength
  | getMetadata
deriving DecidableEq

/-- The hardware state together with the log of every call issued so far, oldest
first. -/
structure World (σ : Type) where
  dev : σ
  log : List Event

/-- How a call of a driver function ends: it returns a value, an exception leaves it
(`thrown`), it executes an integer division by zero (`undefined`), or the fuel of the
readiness loop runs out while it is still polling (`polling`). -/
inductive Run (α : Type)
  | returned (v : α)
  | thrown (what : String)
  | undefined
  | polling
deriving DecidableEq

/-! ## `utils.cpp` and the sample's `handlePromise` -/

/-- The `await` of `utils.cpp`: `promise->wait(); promise->release();`. The status
that `wait()` returns is dropped; the only way out other than a normal return is an
exception raised by the call that produced the promise. -/
def await (r : CallResult) : Except String Unit :=
  match r with
  | .raised what => .error what
  | .promise _ _ => .ok ()

/-- The `handlePromise` of `sample/main.cpp`: a `wait()` result other than `Complete`
is turned into an exception carrying `getLastError`. -/
def handlePromise (r : CallResult) : Except String Unit :=
  match r with
  | .raised what => .error what
  | .promise status lastError =>
    if status ≠ PromiseStatus.Complete then .error lastError else .ok ()

/-- The `std::max(a, b)` of the C++ library: `(a < b) ? b : a`. -/
def std_max (a b : ℚ) : ℚ := if a < b then b else a

/-- Conversion of an `int` to `unsigned int` (32 bits), as the usual arithmetic
conversions apply it to the right operand of `unsigned / int`. -/
def to_unsigned (i : Int) : Nat := (i % 4294967296).toNat

/-! ## Hardware calls, logged -/

variable {σ : Type}

/-- The world before any call: hardware state `s`, empty log. -/
def World.start (s : σ) : World σ := ⟨s, []⟩

/-- Append one event to the log and move the hardware to state `s`. -/
def World.emit (w : World σ) (s : σ) (e : Event) : World σ :=
  ⟨s, w.log ++ [e]⟩

/-- The call `camera->queryCapability(c)`. -/
def hw_queryCapability (d : Device σ) (c : Capability) (w : World σ) :
    CallResult × World σ :=
  ((d.queryCapability w.dev c).1,
    w.emit (d.queryCapability w.dev c).2 (Event.queryCapability c (d.queryCapability w.dev c).1))

/-- The call `camera->getCapability(c)`. -/
def hw_getCapability (d : Device σ) (c : Capability) (w : World σ) : Bool × World σ :=
  (d.getCapability w.dev c, w.emit w.dev (Event.getCapability c (d.getCapability w.dev c)))

/-- The call `sensor->setSetting(s, v)`. -/
def hw_setSetting (d : Device σ) (s : Setting) (v : Int) (w : World σ) :
    CallResult × World σ :=
  ((d.setSetting w.dev s v).1,
    w.emit (d.setSetting w.dev s v).2 (Event.setSetting s v (d.setSetting w.dev s v).1))

/-- The call `sensor->abortExposure()`. -/
def hw_abortExposure (d : Device σ) (w : World σ) : CallResult × World σ :=
  ((d.abortExposure w.dev).1,
    w.emit (d.abortExposure w.dev).2 (Event.abortExposure (d.abortExposure w.dev).1))

/-- The call `sensor->setSubframe(sf)`. -/
def hw_setSubframe (d : Device σ) (sf : TSubframe) (w : World σ) : CallResult × World σ :=
  ((d.setSubframe w.dev sf).1,
    w.emit (d.setSubframe w.dev sf).2 (Event.setSubframe sf (d.setSubframe w.dev sf).1))

/-- The call `sensor->startExposure(o)`. -/
def hw_startExposure (d : Device σ) (o : TExposureOptions) (w : World σ) :
    CallResult × World σ :=
  ((d.startExposure w.dev o).1,
    w.emit (d.startExposure w.dev o).2 (Event.startExposure o (d.startExposure w.dev o).1))

/-- The call `camera->queryStatus()`. -/
def hw_queryStatus (d : Device σ) (w : World σ) : CallResult × World σ :=
  ((d.queryStatus w.dev).1,
    w.emit (d.queryStatus w.dev).2 (Event.queryStatus (d.queryStatus w.dev).1))

/-- The call `sensor->startDownload()`. -/
def hw_startDownload (d : Device σ) (w : World σ) : CallResult × World σ :=
  ((d.startDownload w.dev).1,
    w.emit (d.startDownload w.dev).2 (Event.startDownload (d.startDownload w.dev).1))

/-- The call `sensor->getImage()`; the event records whether the pointer is null. -/
def hw_getImage (d : Device σ) (w : World σ) : Option Image × World σ :=
  ((d.getImage w.dev).1,
    w.emit (d.getImage w.dev).2 (Event.getImage (d.getImage w.dev).1.isNone))

/-- The three reads `getBufferData`, `getBufferLength`, `getMetadata` on a non-null
image, in the order `expose` performs them. -/
def World.readImage (w : World σ) : World σ :=
  ⟨w.dev, w.log ++ [Event.getBufferData, Event.getBufferLength, Event.getMetadata]⟩

/-! ## `funcs.cpp` -/

/-- The `image_is_ready` of `utils.cpp`: query the status, pick the field of the
sensor in use, compare with `ReadyToDownload`. An exception of the query leaves the
function (`Except.error`). -/
def image_is_ready (d : Device σ) (w : World σ) : Except String Bool × World σ :=
  match await (hw_queryStatus d w).1 with
  | .error what => (.error what, (hw_queryStatus d w).2)
  | .ok () =>
    let status := d.getStatus (hw_queryStatus d w).2.dev
    let sensor_status :=
      if d.sensorId ≠ 0 then status.extSensorState else status.mainSensorState
    (.ok (decide (sensor_status = SensorStatus.ReadyToDownload)), (hw_queryStatus d w).2)

/-- The message of `expose` when on-chip binning is requested but not supported. -/
def msg_no_binning : String :=
  "Binning requested, but camera does not support on-chip binning! Use " ++
  "--binx=1 and --biny=1, and perform binning yourself afterward."

/-- The message of `expose` when overscan is requested but not supported. -/
def msg_no_overscan : String :=
  "Camera does not support overscan! Use --disable_overscan."

/-- The message of `expose` when `getImage` returns a null pointer. -/
def msg_no_image : String :=
  "Image download from sensor failed! (getImage failed)"

/-- The message of `redownload` when `getImage` returns a null pointer. -/
def msg_no_image_redownload : String :=
  "Image download from sensor failed! (getImage failed and returned nullptr)"

/-- The subframe that `expose` and `redownload` build (funcs.cpp 51-57, 190-196).
`pixels_x / bin_x` divides an `unsigned int` by an `int`: the divisor is converted to
`unsigned int` and the quotient is the unsigned one. -/
def make_subframe (sensor_info : SensorInfo) (exp_info : ExposureInfo) : TSubframe :=
  { top := 0
    left := 0
    width := ((sensor_info.pixels_x / to_unsigned exp_info.bin_x : Nat) : Int)
    height := ((sensor_info.pixels_y / to_unsigned exp_info.bin_y : Nat) : Int)
    binX := exp_info.bin_x
    binY := exp_info.bin_y }

/-- The exposure options that `expose` and `redownload` build (funcs.cpp 59-67,
198-206). -/
def make_exposure_options (sensor_info : SensorInfo) (exp_info : ExposureInfo) :
    TExposureOptions :=
  { duration := std_max exp_info.duration sensor_info.exposure_duration_min
    binX := exp_info.bin_x
    binY := exp_info.bin_y
    readoutMode := 0
    isLightFrame := decide (exp_info.imagetype ≠ ImageType.Dark)
    useRBIPreflash := false
    useExtTrigger := false }

/-- The `ExposeResult` filled from a non-null image (funcs.cpp 142-146, 241-245).
`bufferlen` is an `unsigned int`. -/
def make_result (image : Image) (exposure_options : TExposureOptions) : ExposeResult :=
  { buffer := image.bufferData
    bufferlen := image.bufferLength % 4294967296
    metadata := image.metadata
    expinfo := exposure_options
    coolerinfo := none }

/-- Lines 100-148 of `expose`: start the download, fetch the image, fail on a null
pointer, otherwise read the image and return `Ok`. -/
def expose_download (d : Device σ) (w : World σ) (exposure_options : TExposureOptions) :
    Run (Result ExposeResult String) × World σ :=
  match await (hw_startDownload d w).1 with
  | .error what => (.returned (.Err what), (hw_startDownload d w).2)
  | .ok () =>
    match (hw_getImage d (hw_startDownload d w).2).1 with
    | none => (.returned (.Err msg_no_image), (hw_getImage d (hw_startDownload d w).2).2)
    | some image =>
      (.returned (.Ok (make_result image exposure_options)),
        (hw_getImage d (hw_startDownload d w).2).2.readImage)

/-- Lines 86-148 of `expose`: the readiness loop `do ... while (true)`, then the
download. Each round of the loop uses one unit of fuel. -/
def expose_poll (d : Device σ) (exposure_options : TExposureOptions) :
    Nat → World σ → Run (Result ExposeResult String) × World σ
  | 0, w => (.polling, w)
  | fuel + 1, w =>
    match (image_is_ready d w).1 with
    | .error what => (.returned (.Err what), (image_is_ready d w).2)
    | .ok true => expose_download d (image_is_ready d w).2 exposure_options
    | .ok false => expose_poll d exposure_options fuel (image_is_ready d w).2

/-- Lines 42-148 of `expose`: the ignored abort, the subframe and the exposure options,
`setSubframe`, `startExposure`, then the loop and the download. -/
def expose_acquire (fuel : Nat) (d : Device σ) (w : World σ) (exp_info : ExposureInfo) :
    Run (Result ExposeResult String) × World σ :=
  let w1 := (hw_abortExposure d w).2
  if to_unsigned exp_info.bin_x = 0 ∨ to_unsigned exp_info.bin_y = 0 then
    (.undefined, w1)
  else
    let subframe := make_subframe d.sensor_info exp_info
    let exposure_options := make_exposure_options d.sensor_info exp_info
    match await (hw_setSubframe d subframe w1).1 with
    | .error what => (.returned (.Err what), (hw_setSubframe d subframe w1).2)
    | .ok () =>
      let w2 := (hw_setSubframe d subframe w1).2
      match await (hw_startExposure d exposure_options w2).1 with
      | .error what => (.returned (.Err what), (hw_startExposure d exposure_options w2).2)
      | .ok () => expose_poll d exposure_options fuel (hw_startExposure d exposure_options w2).2

/-- Lines 29-148 of `expose`: the overscan gate, then the rest. The capability query is
awaited outside any `try`, so its exception leaves `expose`. -/
def expose_overscan (fuel : Nat) (d : Device σ) (w : World σ) (exp_info : ExposureInfo) :
    Run (Result ExposeResult String) × World σ :=
  if exp_info.overscan = 1 then
    let q := hw_queryCapability d Capability.eSupportsOverscan w
    match await q.1 with
    | .error what => (.thrown what, q.2)
    | .ok () =>
      let c := hw_getCapability d Capability.eSupportsOverscan q.2
      if c.1 = false then (.returned (.Err msg_no_overscan), c.2)
      else
        let s := hw_setSetting d Setting.UseOverscan 1 c.2
        match await s.1 with
        | .error what => (.returned (.Err what), s.2)
        | .ok () => expose_acquire fuel d s.2 exp_info
  else expose_acquire fuel d w exp_info

/-- The `expose` of `funcs.cpp`. `fuel` bounds the number of status queries of the
readiness loop; nothing else in the function loops. -/
def expose (fuel : Nat) (d : Device σ) (w : World σ) (exp_info : ExposureInfo) :
    Run (Result ExposeResult String) × World σ :=
  if exp_info.bin_x ≠ 1 ∨ exp_info.bin_y ≠ 1 then
    let q := hw_queryCapability d Capability.eSupportsOnChipBinning w
    match await q.1 with
    | .error what => (.thrown what, q.2)
    | .ok () =>
      let c := hw_getCapability d Capability.eSupportsOnChipBinning q.2
      if c.1 = false then (.returned (.Err msg_no_binning), c.2)
      else
        let s := hw_setSetting d Setting.UseOnChipBinning 1 c.2
        match await s.1 with
        | .error what => (.returned (.Err what), s.2)
        | .ok () => expose_overscan fuel d s.2 exp_info
  else expose_overscan fuel d w exp_info

/-- The `redownload` of `funcs.cpp`: subframe, download, fetch. It has no loop and no
call outside a `try`. -/
def redownload (d : Device σ) (w : World σ) (exp_info : ExposureInfo) :
    Run (Result ExposeResult String) × World σ :=
  if to_unsigned exp_info.bin_x = 0 ∨ to_unsigned exp_info.bin_y = 0 then
    (.undefined, w)
  else
    let subframe := make_subframe d.sensor_info exp_info
    let exposure_options := make_exposure_options d.sensor_info exp_info
    match await (hw_setSubframe d subframe w).1 with
    | .error what => (.returned (.Err what), (hw_setSubframe d subframe w).2)
    | .ok () =>
      let w1 := (hw_setSubframe d subframe w).2
      match await (hw_startDownload d w1).1 with
      | .error what => (.returned (.Err what), (hw_startDownload d w1).2)
      | .ok () =>
        match (hw_getImage d (hw_startDownload d w1).2).1 with
        | none =>
          (.returned (.Err msg_no_image_redownload), (hw_getImage d (hw_startDownload d w1).2).2)
        | some image =>
          (.returned (.Ok (make_result image exposure_options)),
            (hw_getImage d (hw_startDownload d w1).2).2.readImage)

/-! ## `dfcore.cpp` -/

/-- Lines 206-220 of `main` in `dfcore.cpp`: the request built from the command-line
values. `0.` replaces the duration when `--bias` is given. -/
def build_expinfo (bin_x bin_y : Int) (duration : ℚ) (dark flat bias disable_overscan : Bool) :
    ExposureInfo :=
  { bin_x := bin_x
    bin_y := bin_y
    duration := if bias then 0 else duration
    imagetype :=
      if dark then ImageType.Dark
      else if flat then ImageType.Flat
      else if bias then ImageType.Bias
      else ImageType.Light
    readout_mode := ReadoutMode.Medium
    overscan := if disable_overscan then 0 else 1 }

/-! ## Event classes and the shape of a run -/

/-- The events `expose` can issue before it starts the download, with the arguments it
gives them for the request `exp_info` on the device `d`. -/
def setup_event (d : Device σ) (exp_info : ExposureInfo) : Event → Prop
  | .queryCapability _ _ => True
  | .getCapability _ _ => True
  | .setSetting _ v _ => v = 1
  | .abortExposure _ => True
  | .setSubframe sf _ => sf = make_subframe d.sensor_info exp_info
  | .startExposure o _ => o = make_exposure_options d.sensor_info exp_info
  | .queryStatus _ => True
  | _ => False

/-- The events of the download phase: `startDownload`, `getImage` and the reads. -/
def download_event : Event → Prop
  | .startDownload _ => True
  | .getImage _ => True
  | .getBufferData => True
  | .getBufferLength => True
  | .getMetadata => True
  | _ => False

/-- The events `expose` can issue before a capability gate rejects the request: the
capability queries and reads, and the setting that turns on-chip binning on. -/
def gate_event : Event → Prop
  | .queryCapability _ _ => True
  | .getCapability _ _ => True
  | .setSetting .UseOnChipBinning v _ => v = 1
  | _ => False

/-- The reads of a fetched image. -/
def Event.isRead : Event → Bool
  | .getBufferData => true
  | .getBufferLength => true
  | .getMetadata => true
  | _ => false

/-- The start-exposure commands. -/
def Event.isStartExposure : Event → Bool
  | .startExposure _ _ => true
  | _ => false

/-- The commands that change the hardware: `setSetting`, `abortExposure`,
`setSubframe`, `startExposure`, `startDownload`. -/
def Event.isMutating : Event → Bool
  | .setSetting _ _ _ => true
  | .abortExposure _ => true
  | .setSubframe _ _ => true
  | .startExposure _ _ => true
  | .startDownload _ => true
  | _ => false

/-- How a run ends at a capability gate: an error is returned, or the capability
query itself raised an exception, which leaves `expose`. -/
def gate_outcome (d : Device σ) (out : Run (Result ExposeResult String)) : Prop :=
  (∃ msg, out = .returned (.Err msg)) ∨
    ∃ what c s, out = .thrown what ∧ (d.queryCapability s c).1 = .raised what

/-- The number of start-exposure commands in a log. -/
def startExposureCount (log : List Event) : Nat := log.countP Event.isStartExposure

/-- The result is not an `Ok`. -/
def Run.notOk : Run (Result ExposeResult String) → Prop
  | .returned (.Ok _) => False
  | _ => True

/-- A run from `w` with result `res` issues only events in `P` and then either stops
without an `Ok`, or is exactly the download phase of `expose` from the world reached. -/
def Reaches (P : Event → Prop) (d : Device σ) (opts : TExposureOptions) (w : World σ)
    (res : Run (Result ExposeResult String) × World σ) : Prop :=
  ∃ evs : List Event, (∀ e ∈ evs, P e) ∧
    ((res.2.log = w.log ++ evs ∧ res.1.notOk) ∨
      ∃ w1 : World σ, w1.log = w.log ++ evs ∧ res = expose_download d w1 opts)

/-! ## Mock hardware used to run the driver on concrete inputs -/

/-- A promise that completes. -/
def completed : CallResult := CallResult.promise PromiseStatus.Complete ""

/-- A mock camera over a counter of status queries: the capability flags, what
`setSubframe` and `startDownload` answer and the image that `getImage` hands out are
parameters; every other command completes; the sensor is ready from the second status
query on. -/
def mockDevice (info : SensorInfo) (binning overscan : Bool)
    (subframe download : CallResult) (image : Option Image) : Device Nat :=
  { sensor_info := info
    sensorId := 0
    queryCapability := fun s _ => (completed, s)
    getCapability := fun _ c =>
      match c with
      | .eSupportsOnChipBinning => binning
      | .eSupportsOverscan => overscan
    setSetting := fun s _ _ => (completed, s)
    abortExposure := fun s => (completed, s)
    setSubframe := fun s _ => (subframe, s)
    startExposure := fun s _ => (completed, s)
    queryStatus := fun s => (completed, s + 1)
    getStatus := fun s =>
      if 2 ≤ s then ⟨SensorStatus.ReadyToDownload, SensorStatus.Other 0⟩
      else ⟨SensorStatus.Other 0, SensorStatus.Other 0⟩
    startDownload := fun s => (download, s)
    getImage := fun s => (image, s) }

/-- A sensor of 100 x 100 pixels with a minimum exposure of 0.1 s. -/
def mockInfo : SensorInfo :=
  { pixels_x := 100
    pixels_y := 100
    pixel_size_x := 9
    pixel_size_y := 9
    cooler_setpoint_min := -40
    cooler_setpoint_max := 20
    bin_x_max := 4
    bin_y_max := 4
    exposure_duration_min := 1 / 10
    exposure_precision := 1 / 1000 }

/-- A 2 x 2 image with four samples. -/
def mockImage : Image :=
  { bufferData := [1, 2, 3, 4]
    bufferLength := 4
    metadata :=
      { width := 2, height := 2, exposureDuration := 5, eGain := 1, binX := 1, binY := 1 } }

/-- Five seconds, light frame, binning 3 x 1, overscan off. -/
def mockRequest : ExposureInfo :=
  { duration := 5, imagetype := ImageType.Light, readout_mode := ReadoutMode.Medium,
    bin_x := 3, bin_y := 1, overscan := 0 }

/-- A camera that supports on-chip binning, not overscan, and delivers `mockImage`. -/
def mockCamera : Device Nat :=
  mockDevice mockInfo true false completed completed (some mockImage)

/-- A camera that supports neither on-chip binning nor overscan. -/
def mockPlainCamera : Device Nat :=
  mockDevice mockInfo false false completed completed (some mockImage)

/-- Five seconds, light frame, binning 2 x 2, overscan on. -/
def mockBinnedOverscanRequest : ExposureInfo :=
  { duration := 5, imagetype := ImageType.Light, readout_mode := ReadoutMode.Medium,
    bin_x := 2, bin_y := 2, overscan := 1 }

/-- A camera whose download completes but whose `getImage` returns a null pointer. -/
def mockNullImageCamera : Device Nat :=
  mockDevice mockInfo true false completed completed none

/-- A non-null image with an empty buffer. -/
def mockEmptyImage : Image :=
  { bufferData := []
    bufferLength := 0
    metadata :=
      { width := 0, height := 0, exposureDuration := 5, eGain := 1, binX := 1, binY := 1 } }

/-- A camera whose download completes and whose `getImage` returns `mockEmptyImage`. -/
def mockEmptyImageCamera : Device Nat :=
  mockDevice mockInfo true false completed completed (some mockEmptyImage)

/-- A camera whose `startDownload` raises an exception; the message is a parameter. -/
def mockDownloadRaisesCamera (what : String) : Device Nat :=
  mockDevice mockInfo true false completed (CallResult.raised what) (some mockImage)

/-- A promise that finishes with the status `Error` and the diagnostic "device busy". -/
def failedPromise : CallResult := CallResult.promise PromiseStatus.Error "device busy"

/-- A camera on which every awaited command hands back a promise that finishes with
`Error`; the sensor still reports ready from the second status query on and an image
is there to fetch. -/
def mockErrorPromiseCamera : Device Nat :=
  { sensor_info := mockInfo
    sensorId := 0
    queryCapability := fun s _ => (failedPromise, s)
    getCapability := fun _ _ => true
    setSetting := fun s _ _ => (failedPromise, s)
    abortExposure := fun s => (failedPromise, s)
    setSubframe := fun s _ => (failedPromise, s)
    startExposure := fun s _ => (failedPromise, s)
    queryStatus := fun s => (failedPromise, s + 1)
    getStatus := fun s =>
      if 2 ≤ s then ⟨SensorStatus.ReadyToDownload, SensorStatus.Other 0⟩
      else ⟨SensorStatus.Other 0, SensorStatus.Other 0⟩
    startDownload := fun s => (failedPromise, s)
    getImage := fun s => (some mockImage, s) }

/-! ## Further event classes -/

/-- The message of the exception, when the event is a call of `setSetting`,
`setSubframe`, `startExposure`, `queryStatus` or `startDownload` that raised: the
commands `expose` awaits inside a `try` whose handler returns `Err(ex.what())`. -/
def Event.caughtRaise : Event → Option String
  | .setSetting _ _ (.raised what) => some what
  | .setSubframe _ (.raised what) => some what
  | .startExposure _ (.raised what) => some what
  | .queryStatus (.raised what) => some what
  | .startDownload (.raised what) => some what
  | _ => none

/-- A run from `w` with result `res` extends the log by events none of which is a
caught raise, except possibly the last one; when the last one is, the run returned
`Err` with the message of that exception. -/
def Shaped (w : World σ) (res : Run (Result ExposeResult String) × World σ) : Prop :=
  ∃ evs : List Event, res.2.log = w.log ++ evs ∧
    ((∀ e ∈ evs, e.caughtRaise = none) ∨
      ∃ pre e what, evs = pre ++ [e] ∧ (∀ x ∈ pre, x.caughtRaise = none) ∧
        e.caughtRaise = some what ∧ res.1 = .returned (.Err what))

/-- Lines 48-148 of `expose`: `expose_acquire` after the abort. -/
def expose_after_abort (fuel : Nat) (d : Device σ) (w1 : World σ) (exp_info : ExposureInfo) :
    Run (Result ExposeResult String) × World σ :=
  if to_unsigned exp_info.bin_x = 0 ∨ to_unsigned exp_info.bin_y = 0 then
    (.undefined, w1)
  else
    let subframe := make_subframe d.sensor_info exp_info
    let exposure_options := make_exposure_options d.sensor_info exp_info
    match await (hw_setSubframe d subframe w1).1 with
    | .error what => (.returned (.Err what), (hw_setSubframe d subframe w1).2)
    | .ok () =>
      let w2 := (hw_setSubframe d subframe w1).2
      match await (hw_startExposure d exposure_options w2).1 with
      | .error what => (.returned (.Err what), (hw_startExposure d exposure_options w2).2)
      | .ok () => expose_poll d exposure_options fuel (hw_startExposure d exposure_options w2).2

/-- The run `f` started in hardware state `s` does not look at the log it is given: it
computes the same result and final hardware state, and appends the same events. -/
def FramedAt (f : World σ → Run (Result ExposeResult String) × World σ) (s : σ) : Prop :=
  ∀ l : List Event,
    f ⟨s, l⟩ = ((f ⟨s, []⟩).1, ⟨(f ⟨s, []⟩).2.dev, l ++ (f ⟨s, []⟩).2.log⟩)

/-- The device `d` with another answer of `abortExposure`: in hardware state `s` the
call answers `answer s`, and leaves the hardware in the state in which `d` leaves it. -/
def with_abort_answer (d : Device σ) (answer : σ → CallResult) : Device σ :=
  { d with abortExposure := fun s => (answer s, (d.abortExposure s).2) }

/-- The event with the answer of an `abortExposure` blanked out. -/
def Event.maskAbort : Event → Event
  | .abortExposure _ => .abortExposure completed
  | e => e

/-- Two runs with the same result, the same final hardware state and the same calls,
up to what `abortExposure` answered. -/
def AbortEquiv (res1 res2 : Run (Result ExposeResult String) × World σ) : Prop :=
  res1.1 = res2.1 ∧ res1.2.dev = res2.2.dev ∧
    res1.2.log.map Event.maskAbort = res2.2.log.map Event.maskAbort

/-- The calls of `expose` that `redownload` leaves out: capability query and read,
`setSetting`, `abortExposure`, `startExposure`, status query. -/
def Event.isExposeOnly : Event → Bool
  | .queryCapability _ _ => true
  | .getCapability _ _ => true
  | .setSetting _ _ _ => true
  | .abortExposure _ => true
  | .startExposure _ _ => true
  | .queryStatus _ => true
  | _ => false

/-! ## The storage layer: `remove` and the FITS library -/

/-- A value written into a header field: `fits_update_key_dbl` (value and number of
decimals), `fits_update_key_str`, `fits_update_key_lng`, and the time stamp that
`fits_write_date` writes. -/
inductive HeaderValue
  | dbl (value : ℚ) (decimals : Nat)
  | str (value : String)
  | lng (value : Int)
  | timestamp
deriving DecidableEq

/-- One call of the storage layer, as `save_image` makes them: `remove`,
`fits_create_file`, `fits_create_img` (bitpix `USHORT_IMG`, two axes),
`fits_write_img` (type `TUSHORT`, first element 1), `fits_write_date`,
`fits_update_key_dbl/str/lng` (told apart by the value) and `fits_close_file`. -/
inductive FileCall
  | remove (path : String)
  | create_file (path : String)
  | create_img (width height : Nat)
  | write_img (nelements : Nat) (buffer : List Nat)
  | write_date
  | update_key (keyname : String) (value : HeaderValue) (comment : String)
  | close_file
deriving DecidableEq

/-- The storage layer as a transition system over the state `φ` of the file system:
`run` gives the status a call reports (0 is success) and the next state; `list` gives
the names of the entries of a directory, as `directory_iterator` enumerates them (the
directory is taken to exist). -/
structure Storage (φ : Type) where
  run : FileCall → φ → Int × φ
  list : φ → String → List String

/-- One executed storage call: the call, the status it reported, and the value of
the variable `status` of `save_image` right after the step. -/
structure CallRecord where
  call : FileCall
  reported : Int
  status : Int
deriving DecidableEq

/-- The file system together with the record of every storage call made so far, oldest
first. -/
structure Disk (φ : Type) where
  fs : φ
  calls : List CallRecord

/-- How a part of the program ends: it returns, `exit(status)` is called, an exception
is not caught (the process is terminated), a field that was never assigned is read
(`undefined`), or the fuel of a readiness loop runs out (`polling`). -/
inductive Ending
  | returned
  | exited (status : Int)
  | terminated (what : String)
  | undefined
  | polling
deriving DecidableEq

/-- The `print_fits_err` of `utils.cpp`: `some status` when it calls `exit(status)`,
`none` when it returns. -/
def print_fits_err (status : Int) : Option Int :=
  if status ≠ 0 then some status else none

/-- The steps of `save_image`. `call`: a storage call that stores what it reports in
`status`. `discard`: a storage call after which `status` has the value it had before
(`remove`, whose result is not looked at, and the `EGAIN` write, after which `catch`
assigns the saved `oldstatus`). `check`: `print_fits_err(status)`. `undefined`: a read
of a field that was never assigned. -/
inductive Instr
  | call (c : FileCall)
  | discard (c : FileCall)
  | check
  | undefined
deriving DecidableEq

variable {φ : Type}

/-- Execution of a list of steps from the value `status` and the disk `d`. -/
def exec (lib : Storage φ) : List Instr → Int → Disk φ → Ending × Disk φ
  | [], _, d => (.returned, d)
  | .call c :: rest, _, d =>
    exec lib rest (lib.run c d.fs).1
      ⟨(lib.run c d.fs).2, d.calls ++ [⟨c, (lib.run c d.fs).1, (lib.run c d.fs).1⟩]⟩
  | .discard c :: rest, status, d =>
    exec lib rest status ⟨(lib.run c d.fs).2, d.calls ++ [⟨c, (lib.run c d.fs).1, status⟩]⟩
  | .check :: rest, status, d =>
    match print_fits_err status with
    | some code => (.exited code, d)
    | none => exec lib rest status d
  | .undefined :: _, _, d => (.undefined, d)

/-- The `frametype` of `save_image` (funcs.cpp 262). -/
def frametype (expinfo : TExposureOptions) : String :=
  if expinfo.isLightFrame then "Light Frame" else "Dark Frame"

/-- The `EGAIN` write of `save_image` (funcs.cpp 283). -/
def egain_call (expres : ExposeResult) : FileCall :=
  .update_key "EGAIN" (.dbl expres.metadata.eGain 6) "Electronic gain in e-/ADU"

/-- The `IMAGETYP` write of `save_image` (funcs.cpp 298). -/
def imagetyp_call (expres : ExposeResult) : FileCall :=
  .update_key "IMAGETYP" (.str (frametype expres.expinfo)) "Type of image"

/-- The writes of the loop over `header_map` (funcs.cpp 318-321), each followed by its
check. The map is given as the list of its pairs in iteration order. -/
def extra_steps (header_map : List (String × String)) : List Instr :=
  header_map.flatMap (fun kv => [Instr.call (.update_key kv.1 (.str kv.2) ""), Instr.check])

/-- Lines 264-299 of `save_image`: from `remove` to the check after `IMAGETYP`. -/
def save_image_head (expres : ExposeResult) (filepath : String) : List Instr :=
  [ .discard (.remove filepath),
    .call (.create_file filepath), .check,
    .call (.create_img expres.metadata.width expres.metadata.height), .check,
    .call (.write_img expres.bufferlen expres.buffer), .check,
    .call .write_date, .check,
    .call (.update_key "EXPTIME" (.dbl expres.metadata.exposureDuration 6)
      "Total exposure time in seconds"),
    .check,
    .discard (egain_call expres),
    .check,
    .call (.update_key "XBINNING" (.dbl expres.metadata.binX 2) "Binning factor in width"),
    .check,
    .call (.update_key "YBINNING" (.dbl expres.metadata.binY 2) "Binning factor in height"),
    .check,
    .call (imagetyp_call expres), .check ]

/-- Lines 301-324 of `save_image`, with the cooler telemetry `ci` read from the
result. -/
def save_image_tail (ci : CoolerInfo) (serial : String) (focus_pos : Int)
    (header_map : List (String × String)) : List Instr :=
  [ .call (.update_key "CCD-TEMP" (.dbl ci.sensor_temp 6)
      "Sensor temperature at end of exposure in degrees C"),
    .check,
    .call (.update_key "HSINKT" (.dbl ci.heatsink_temp 6)
      "Heatsink temperature at end of exposure in degrees C"),
    .check,
    .call (.update_key "SERIALNO" (.str serial) "Camera serial number"), .check,
    .call (.update_key "FOCUSPOS" (.lng focus_pos)
      "Lens focus position (-1 means position not available)"),
    .check ] ++
  extra_steps header_map ++
  [ .call .close_file, .check ]

/-- The steps of `save_image` (funcs.cpp 250-325) in source order. When `coolerinfo`
was never assigned, the read at line 301 is undefined. -/
def save_image_program (expres : ExposeResult) (serial : String) (filepath : String)
    (focus_pos : Int) (header_map : List (String × String)) : List Instr :=
  save_image_head expres filepath ++
  match expres.coolerinfo with
  | none => [.undefined]
  | some ci => save_image_tail ci serial focus_pos header_map

/-- The `save_image` of `funcs.cpp`: `status` starts at 0. -/
def save_image (lib : Storage φ) (d : Disk φ) (expres : ExposeResult) (serial : String)
    (filepath : String) (focus_pos : Int) (header_map : List (String × String)) :
    Ending × Disk φ :=
  exec lib (save_image_program expres serial filepath focus_pos header_map) 0 d

/-- The storage calls of a list of steps, in order. -/
def prog_calls : List Instr → List FileCall
  | [] => []
  | .call c :: rest => c :: prog_calls rest
  | .discard c :: rest => c :: prog_calls rest
  | .check :: rest => prog_calls rest
  | .undefined :: rest => prog_calls rest

/-- The calls whose status a list of steps discards. -/
def prog_discards : List Instr → List FileCall
  | [] => []
  | .discard c :: rest => c :: prog_discards rest
  | _ :: rest => prog_discards rest

/-- Every `call` step is directly followed by a `check`. -/
def wellChecked : List Instr → Prop
  | [] => True
  | .call _ :: .check :: rest => wellChecked rest
  | .call _ :: _ => False
  | _ :: rest => wellChecked rest

/-- The record of a run in which every `call` is directly checked, started with
`status = 0`: a record with a non-zero `status` is the last one and the run ended with
`exit` of that status; a record of a call that is not discarded keeps the status the
call reported; the calls made are a prefix of the calls of the program. -/
def CheckedRun (lib : Storage φ) (prog : List Instr) (d : Disk φ) : Prop :=
  ∃ recs : List CallRecord, (exec lib prog 0 d).2.calls = d.calls ++ recs ∧
    (∀ r ∈ recs, r.status ≠ 0 →
      (exec lib prog 0 d).1 = .exited r.status ∧ ∃ pre, recs = pre ++ [r]) ∧
    (∀ r ∈ recs, r.call ∉ prog_discards prog → r.status = r.reported) ∧
    recs.map CallRecord.call <+: prog_calls prog

/-- The disk before any storage call: file system `fs`, no record. -/
def Disk.start (fs : φ) : Disk φ := ⟨fs, []⟩

/-- The storage calls of `save_image` on a result whose cooler telemetry is `ci`, in
source order. -/
def save_image_calls (expres : ExposeResult) (ci : CoolerInfo) (serial : String)
    (filepath : String) (focus_pos : Int) (header_map : List (String × String)) :
    List FileCall :=
  [ .remove filepath,
    .create_file filepath,
    .create_img expres.metadata.width expres.metadata.height,
    .write_img expres.bufferlen expres.buffer,
    .write_date,
    .update_key "EXPTIME" (.dbl expres.metadata.exposureDuration 6)
      "Total exposure time in seconds",
    egain_call expres,
    .update_key "XBINNING" (.dbl expres.metadata.binX 2) "Binning factor in width",
    .update_key "YBINNING" (.dbl expres.metadata.binY 2) "Binning factor in height",
    imagetyp_call expres,
    .update_key "CCD-TEMP" (.dbl ci.sensor_temp 6)
      "Sensor temperature at end of exposure in degrees C",
    .update_key "HSINKT" (.dbl ci.heatsink_temp 6)
      "Heatsink temperature at end of exposure in degrees C",
    .update_key "SERIALNO" (.str serial) "Camera serial number",
    .update_key "FOCUSPOS" (.lng focus_pos)
      "Lens focus position (-1 means position not available)" ] ++
  header_map.map (fun kv => FileCall.update_key kv.1 (.str kv.2) "") ++
  [ .close_file ]

/-- A storage layer without state: a call reports the status `status c`. -/
def mockStorage (status : FileCall → Int) : Storage Unit :=
  { run := fun c fs => (status c, fs)
    list := fun _ _ => [] }

/-- Cooler telemetry: cooler on at half power, sensor at -20 degrees. -/
def mockCooler : CoolerInfo :=
  { cooler_enabled := true, cooler_power := 50, cooler_setpoint := -20, heatsink_temp := 10,
    sensor_temp := -20 }

/-- The result of `expose` on `mockCamera` with `mockRequest`, with the cooler
telemetry assigned as `main` does. -/
def mockResult : ExposeResult :=
  { make_result mockImage (make_exposure_options mockInfo mockRequest) with
    coolerinfo := some mockCooler }

/-- A storage layer on which only the `EGAIN` write of `mockResult` fails. -/
def mockEgainFails : Storage Unit :=
  mockStorage (fun c => if c = egain_call mockResult then 412 else 0)

/-- A storage layer on which only the creation of a 2 x 2 image fails. -/
def mockCreateImgFails : Storage Unit :=
  mockStorage (fun c => if c = FileCall.create_img 2 2 then 211 else 0)

/-! ## A reference file system -/

/-- The header of a file: the fields in the order in which they were first written. -/
abbrev Header := List (String × HeaderValue)

/-- The effect of `fits_update_key` on a header: the value of a field that is already
there is replaced, a new field is appended. -/
def header_update (k : String) (v : HeaderValue) : Header → Header
  | [] => [(k, v)]
  | (k1, v1) :: rest =>
    if k1 = k then (k, v) :: rest else (k1, v1) :: header_update k v rest

/-- The value under which a header reports the key `k`, when read back. -/
def header_read (k : String) : Header → Option HeaderValue
  | [] => none
  | (k1, v1) :: rest => if k1 = k then some v1 else header_read k rest

/-- The state of the reference file system: the files with their headers, the file
created last first. -/
abbrev RefFs := List (String × Header)

/-- The header fields a storage call writes into the file being written. -/
def header_write : FileCall → Option (String × HeaderValue)
  | .write_date => some ("DATE", .timestamp)
  | .update_key k v _ => some (k, v)
  | _ => none

/-- The effect of a storage call on the reference file system. `remove` deletes the
file of that path; `create_file` starts a new file with an empty header in its place;
`write_date` and `update_key` write into the header of the file created last. -/
def ref_apply (c : FileCall) (fs : RefFs) : RefFs :=
  match c with
  | .remove path => fs.filter (fun f => f.1 ≠ path)
  | .create_file path => (path, []) :: fs.filter (fun f => f.1 ≠ path)
  | _ =>
    match header_write c, fs with
    | some kv, (path, h) :: rest => (path, header_update kv.1 kv.2 h) :: rest
    | _, _ => fs

/-- The name of the entry `path` of the directory `dir`: what follows `dir/`, when
`path` starts with `dir/`. -/
def strip_dir (dir path : String) : Option String :=
  if (dir ++ "/").data.isPrefixOf path.data then
    some (String.mk (path.data.drop (dir ++ "/").data.length))
  else none

/-- A reference storage layer on which no call fails. -/
def refStorage : Storage RefFs :=
  { run := fun c fs => (0, ref_apply c fs)
    list := fun fs dir => fs.filterMap (fun f => strip_dir dir f.1) }

/-- The header of the file `path` of the reference file system (empty when there is no
such file). -/
def ref_header (fs : RefFs) (path : String) : Header :=
  match fs.find? (fun f => f.1 = path) with
  | some f => f.2
  | none => []

/-- The value a sequence of header writes leaves under the key `k`, from the value
`init` it had before: that of the last write of `k`. -/
def last_write (k : String) (ws : List (String × HeaderValue)) (init : Option HeaderValue) :
    Option HeaderValue :=
  ws.foldl (fun acc kv => if kv.1 = k then some kv.2 else acc) init

/-- The nine standard header fields that `save_image` takes from the result and its
arguments (the date apart), with their values. -/
def standard_fields (expres : ExposeResult) (ci : CoolerInfo) (serial : String)
    (focus_pos : Int) : List (String × HeaderValue) :=
  [ ("EXPTIME", .dbl expres.metadata.exposureDuration 6),
    ("EGAIN", .dbl expres.metadata.eGain 6),
    ("XBINNING", .dbl expres.metadata.binX 2),
    ("YBINNING", .dbl expres.metadata.binY 2),
    ("IMAGETYP", .str (frametype expres.expinfo)),
    ("CCD-TEMP", .dbl ci.sensor_temp 6),
    ("HSINKT", .dbl ci.heatsink_temp 6),
    ("SERIALNO", .str serial),
    ("FOCUSPOS", .lng focus_pos) ]

/-- The storage calls that neither delete nor create a file. -/
def FileCall.keepsFiles : FileCall → Bool
  | .remove _ => false
  | .create_file _ => false
  | _ => true

/-- The header writes of `save_image` on a result whose cooler telemetry is `ci`, in
source order: the date, the standard fields, the extra pairs. -/
def save_image_writes (expres : ExposeResult) (ci : CoolerInfo) (serial : String)
    (focus_pos : Int) (header_map : List (String × String)) : List (String × HeaderValue) :=
  ("DATE", HeaderValue.timestamp) :: standard_fields expres ci serial focus_pos ++
    header_map.map (fun kv => (kv.1, HeaderValue.str kv.2))

/-! ## File names (`utils.cpp`, `dfcore.cpp`) -/

/-- The test `name.rfind(serial, 0) == 0` of `auto_filenum`: `name` starts with
`serial`. -/
def starts_with (name serial : String) : Bool :=
  serial.data.isPrefixOf name.data

/-- The `auto_filenum` of `utils.cpp` on the serial number of the camera and the
names of the entries of the directory: a counter that starts at 0 and is incremented
for every entry whose name starts with the serial. -/
def auto_filenum (serial : String) (entries : List String) : Nat :=
  entries.foldl (fun counter file => if starts_with file serial then counter + 1 else counter) 0

/-- What `fmt::format` puts for `{}` with a non-negative `int`: its decimal digits. -/
def fmt_int (n : Nat) : String := Nat.repr n

/-- The third argument of the `fmt::format` call of `main` (dfcore.cpp 234-237). -/
def kind_name (imagetype : ImageType) : String :=
  if imagetype = ImageType.Light then "light"
  else if imagetype = ImageType.Flat then "flat"
  else if imagetype = ImageType.Dark then "dark"
  else "bias"

/-- The name `fmt::format("{}_{}_{}.fits", serial, filenum, kind)`. -/
def auto_filename (serial : String) (filenum : Nat) (imagetype : ImageType) : String :=
  serial ++ "_" ++ fmt_int filenum ++ "_" ++ kind_name imagetype ++ ".fits"

/-- The `temp_filename` of `main` (dfcore.cpp 229-240): the derived name when no
`--filename` was given, the given one otherwise. -/
def temp_filename (filename serial : String) (filenum : Nat) (imagetype : ImageType) :
    String :=
  if filename = "" then auto_filename serial filenum imagetype else filename

/-- The value of a decimal digit character. -/
def undigit (c : Char) : Nat := c.toNat - 48

/-! ## The acquisition loop of `main` (`dfcore.cpp`) -/

/-- The values of the `expose` subcommand that the loop of `main` uses: `--savedir`
(already replaced by the current directory when empty), `--filename`,
`--downloadlastimage`, `--focus_pos` and the `--header` pairs in the iteration order
of the map. -/
structure ExposeOptions where
  filepath : String
  filename : String
  repeatdownload : Bool
  focus_pos : Int
  header_map : List (String × String)

/-- The camera and the disk, as `main` holds them between two exposures. -/
structure Session (σ φ : Type) where
  world : World σ
  disk : Disk φ

/-- One round of the loop of `main` (dfcore.cpp 222-328): derive the file name, expose
or redownload, pass the result through `unwrap_or_fail` (an `Err` becomes an exception
that nothing in `main` catches), assign the cooler telemetry, save the image.
`get_temp_info` stands for the function of that name declared in `status.hpp`. -/
def exposure_cycle (fuel : Nat) (d : Device σ) (get_temp_info : σ → CoolerInfo)
    (lib : Storage φ) (serial : String) (opts : ExposeOptions) (expinfo : ExposureInfo)
    (st : Session σ φ) : Ending × Session σ φ :=
  let filenum := auto_filenum serial (lib.list st.disk.fs opts.filepath)
  let fullpath :=
    opts.filepath ++ "/" ++ temp_filename opts.filename serial filenum expinfo.imagetype
  let run := if opts.repeatdownload then redownload d st.world expinfo
    else expose fuel d st.world expinfo
  match run.1 with
  | .returned (.Ok im) =>
    let saved := save_image lib st.disk
      { im with coolerinfo := some (get_temp_info run.2.dev) } serial fullpath
      opts.focus_pos opts.header_map
    (saved.1, ⟨run.2, saved.2⟩)
  | .returned (.Err e) => (.terminated e, ⟨run.2, st.disk⟩)
  | .thrown what => (.terminated what, ⟨run.2, st.disk⟩)
  | .undefined => (.undefined, ⟨run.2, st.disk⟩)
  | .polling => (.polling, ⟨run.2, st.disk⟩)

/-- The loop `for (int i = 0; i < n_exposures; ++i)` of `main`: the rounds run one
after the other; the first one that does not return ends the process. -/
def acquisition_loop (fuel : Nat) (d : Device σ) (get_temp_info : σ → CoolerInfo)
    (lib : Storage φ) (serial : String) (opts : ExposeOptions) (expinfo : ExposureInfo) :
    Nat → Session σ φ → Ending × Session σ φ
  | 0, st => (.returned, st)
  | n + 1, st =>
    match exposure_cycle fuel d get_temp_info lib serial opts expinfo st with
    | (.returned, st1) => acquisition_loop fuel d get_temp_info lib serial opts expinfo n st1
    | (ending, st1) => (ending, st1)

/-- The paths of the files created by a sequence of storage calls, in order. -/
def created_files (calls : List CallRecord) : List String :=
  calls.filterMap (fun r =>
    match r.call with
    | .create_file path => some path
    | _ => none)

/-- Options without a file name: save into `/data`, expose, no extra header. -/
def mockOptions : ExposeOptions :=
  { filepath := "/data", filename := "", repeatdownload := false, focus_pos := -1,
    header_map := [] }

/-- A camera that raises an exception on every capability query. -/
def mockQueryRaisesCamera : Device Nat :=
  { mockCamera with queryCapability := fun s _ => (CallResult.raised "usb gone", s) }

/-- A camera without state that supports on-chip binning, completes every command and
is ready at the first status query. -/
def mockReadyCamera : Device Unit :=
  { sensor_info := mockInfo
    sensorId := 0
    queryCapability := fun s _ => (completed, s)
    getCapability := fun _ _ => true
    setSetting := fun s _ _ => (completed, s)
    abortExposure := fun s => (completed, s)
    setSubframe := fun s _ => (completed, s)
    startExposure := fun s _ => (completed, s)
    queryStatus := fun s => (completed, s)
    getStatus := fun _ => ⟨SensorStatus.ReadyToDownload, SensorStatus.ReadyToDownload⟩
    startDownload := fun s => (completed, s)
    getImage := fun s => (some mockImage, s) }

/-! ## Mock hardware that reports the configured duration -/

/-- A 2 x 2 image whose metadata reports an exposure of 0.1 s. -/
def mockEchoImage : Image :=
  { bufferData := [1, 2, 3, 4]
    bufferLength := 4
    metadata :=
      { width := 2, height := 2, exposureDuration := 1 / 10, eGain := 1, binX := 1, binY := 1 } }

/-- A camera like `mockCamera` that delivers `mockEchoImage`. -/
def mockEchoCamera : Device Nat :=
  mockDevice mockInfo true false completed completed (some mockEchoImage)

/-- The request that `main` builds for `--bias --duration 10 --disable_overscan`. -/
def mockBiasRequest : ExposureInfo := build_expinfo 1 1 10 false false true true

/-- A storage layer on which every call succeeds. -/
def mockStorageOk : Storage Unit := mockStorage (fun _ => 0)

/-! ## The order of the hardware calls of `expose` -/

/-- A hardware call without the answer of the hardware. -/
inductive Command
  | queryCapability (c : Capability)
  | getCapability (c : Capability)
  | setSetting (s : Setting) (v : Int)
  | abortExposure
  | setSubframe (sf : TSubframe)
  | startExposure (o : TExposureOptions)
  | queryStatus
  | startDownload
  | getImage
  | getBufferData
  | getBufferLength
  | getMetadata
deriving DecidableEq

/-- The call of an event. -/
def Event.command : Event → Command
  | .queryCapability c _ => .queryCapability c
  | .getCapability c _ => .getCapability c
  | .setSetting s v _ => .setSetting s v
  | .abortExposure _ => .abortExposure
  | .setSubframe sf _ => .setSubframe sf
  | .startExposure o _ => .startExposure o
  | .queryStatus _ => .queryStatus
  | .startDownload _ => .startDownload
  | .getImage _ => .getImage
  | .getBufferData => .getBufferData
  | .getBufferLength => .getBufferLength
  | .getMetadata => .getMetadata

/-- The answer lets `expose` go on: no exception that `expose` looks at, no capability
flag that is false, no null image. An exception of `abortExposure` is ignored. -/
def Event.passed : Event → Bool
  | .queryCapability _ (.raised _) => false
  | .getCapability _ false => false
  | .setSetting _ _ (.raised _) => false
  | .setSubframe _ (.raised _) => false
  | .startExposure _ (.raised _) => false
  | .queryStatus (.raised _) => false
  | .startDownload (.raised _) => false
  | .getImage true => false
  | _ => true

/-- The three calls with which `expose` turns a feature on (funcs.cpp 16-26, 30-40):
query the capability, read the flag, set the setting to 1. -/
def gate_plan (c : Capability) (s : Setting) : List Command :=
  [.queryCapability c, .getCapability c, .setSetting s 1]

/-- The calls of the download phase of `expose` (funcs.cpp 100-146). -/
def download_plan : List Command :=
  [.startDownload, .getImage, .getBufferData, .getBufferLength, .getMetadata]

/-- The calls of `expose` from the abort on (funcs.cpp 42-146), with `k` status
queries. -/
def acquire_plan (sensor_info : SensorInfo) (exp_info : ExposureInfo) (k : Nat) :
    List Command :=
  [.abortExposure, .setSubframe (make_subframe sensor_info exp_info),
    .startExposure (make_exposure_options sensor_info exp_info)] ++
  (List.replicate k .queryStatus ++ download_plan)

/-- The calls of `expose` from the overscan check on (funcs.cpp 29-146). -/
def overscan_plan (sensor_info : SensorInfo) (exp_info : ExposureInfo) (k : Nat) :
    List Command :=
  (if exp_info.overscan = 1 then gate_plan .eSupportsOverscan .UseOverscan else []) ++
  acquire_plan sensor_info exp_info k

/-- The calls of a complete run of `expose` with `k` status queries, in source order
(funcs.cpp 15-146). -/
def expose_plan (sensor_info : SensorInfo) (exp_info : ExposureInfo) (k : Nat) :
    List Command :=
  (if exp_info.bin_x ≠ 1 ∨ exp_info.bin_y ≠ 1 then
    gate_plan .eSupportsOnChipBinning .UseOnChipBinning else []) ++
  overscan_plan sensor_info exp_info k

/-- A run from `w` with result `res` appends the events `evs`; their calls are the
first calls of `plan`, in order, and every event but the last one passed. -/
def FollowsBy (evs : List Event) (plan : List Command) (w : World σ)
    (res : Run (Result ExposeResult String) × World σ) : Prop :=
  res.2.log = w.log ++ evs ∧ evs.map Event.command <+: plan ∧
    ∀ pre e post, evs = pre ++ e :: post → post ≠ [] → e.passed = true

/-- The event is the capability query for `c`. -/
def Event.isQuery (c : Capability) : Event → Bool
  | .queryCapability c2 _ => decide (c2 = c)
  | _ => false

/-- The number of capability queries for `c` in a log. -/
def queryCount (c : Capability) (log : List Event) : Nat := log.countP (Event.isQuery c)

/-- A sequence of `expose` calls on the same camera, one per request: each call starts
in the hardware state, and extends the log, that the call before it left. -/
def expose_session (fuel : Nat) (d : Device σ) : List ExposureInfo → World σ → World σ
  | [], w => w
  | r :: rs, w => expose_session fuel d rs (expose fuel d w r).2

/-! ## The device during the readiness loop -/

/-- The hardware state after `i` status queries from the state `s`. -/
def poll_state (d : Device σ) (s : σ) : Nat → σ
  | 0 => s
  | i + 1 => (d.queryStatus (poll_state d s i)).2

/-- In hardware state `s`, the status field of the sensor in use is
`ReadyToDownload`. -/
def reports_ready (d : Device σ) (s : σ) : Bool :=
  decide ((if d.sensorId ≠ 0 then (d.getStatus s).extSensorState
    else (d.getStatus s).mainSensorState) = SensorStatus.ReadyToDownload)

/-- The events of the first `k` status queries from the state `s`. -/
def poll_events (d : Device σ) (s : σ) (k : Nat) : List Event :=
  (List.range k).map (fun i => Event.queryStatus (d.queryStatus (poll_state d s i)).1)

/-! ## Camera look-up (`utils.cpp`) -/

/-- The gateway as `initialize_camera` sees it. `count` is what `count_cameras` returns:
the `int` made from `getUSBCameraCount()` after `queryUSBCameras()`. `getUSBCamera n` is
the camera pointer that `gateway->getUSBCamera(n)` hands out, `none` for a null
pointer. `κ` is the type of camera handles. -/
structure Gateway (κ : Type) where
  count : Int
  getUSBCamera : Int → Option κ

/-- The calls that `initialize_camera` makes on the gateway and on the camera;
`camera_init` is the call of the camera's own set-up method. -/
inductive GatewayCall
  | queryUSBCameras
  | getUSBCameraCount
  | getUSBCamera (n : Int)
  | camera_init
deriving DecidableEq

/-- The message of `initialize_camera` when the camera count is 0. -/
def msg_no_cameras : String := "No cameras found!"

/-- The message of `initialize_camera` when its index test rejects `n`. -/
def msg_not_that_many : String := "There aren't that many cameras available!"

/-- The message of `initialize_camera` when `getUSBCamera` returns a null pointer. -/
def msg_no_camera : String := "Could not get camera!"

/-- The `initialize_camera` of `utils.cpp`, with the calls it makes, in order. The test
is the one of the source, `n - 1 > count`, on `int`; the subtraction is exact for every
`n` above the least `int`. -/
def initialize_camera {κ : Type} (gateway : Gateway κ) (n : Int) :
    Result κ String × List GatewayCall :=
  let count := gateway.count
  if count = 0 then
    (.Err msg_no_cameras, [.queryUSBCameras, .getUSBCameraCount])
  else if n - 1 > count then
    (.Err msg_not_that_many, [.queryUSBCameras, .getUSBCameraCount])
  else
    match gateway.getUSBCamera n with
    | none =>
      (.Err msg_no_camera, [.queryUSBCameras, .getUSBCameraCount, .getUSBCamera n])
    | some camera =>
      (.Ok camera, [.queryUSBCameras, .getUSBCameraCount, .getUSBCamera n, .camera_init])

/-- A gateway with one camera attached: the index 0 gives the handle 0, every other
index a null pointer. -/
def mockGateway : Gateway Nat :=
  { count := 1
    getUSBCamera := fun n => if n = 0 then some 0 else none }

/-! ## The `--header` callback (`dfcore.cpp`) -/

/-- The assignment `header_map[k] = v` on a `std::map<std::string, std::string>`, held
as the list of its pairs with distinct keys, in the order in which the keys were first
assigned: the value of a key that is there is replaced, a new key is added. -/
def map_assign (k v : String) : List (String × String) → List (String × String)
  | [] => [(k, v)]
  | (k1, v1) :: rest =>
    if k1 = k then (k, v) :: rest else (k1, v1) :: map_assign k v rest

/-- The value that the map holds under the key `k`, if any. -/
def map_find (k : String) : List (String × String) → Option String
  | [] => none
  | (k1, v1) :: rest => if k1 = k then some v1 else map_find k rest

/-- One round of the loop of the callback, `header_map[vals.at(i * 2)] =
vals.at(i * 2 + 1)`; `none` when an `at` throws `std::out_of_range`. -/
def header_callback_step (vals : List String) (header_map : List (String × String))
    (i : Nat) : Option (List (String × String)) :=
  match vals[i * 2]?, vals[i * 2 + 1]? with
  | some k, some v => some (map_assign k v header_map)
  | _, _ => none

/-- The callback of `--header` (dfcore.cpp 116-122): the rounds for
`i < vals.size() / 2` in order, then `return true`. The result is `none` when an
exception leaves the callback. -/
def header_callback (vals : List String) (header_map : List (String × String)) :
    Option (Bool × List (String × String)) :=
  match (List.range (vals.length / 2)).foldlM (header_callback_step vals) header_map with
  | some m => some (true, m)
  | none => none

/-- The pairs of a flat list: `(vals[0], vals[1])`, `(vals[2], vals[3])`, and so on; a
trailing unpaired string is left out. -/
def header_pairs : List String → List (String × String)
  | k :: v :: rest => (k, v) :: header_pairs rest
  | _ => []

/-! ## The mount program `position` in slew mode (`position.c`) -/

/-- The serial port as a transition system over its state `π`. `write` gives what
`write(fd, bytes, count)` returns for the `count` bytes `bytes`; `read` gives what
`read(fd, bufptr, 1)` delivers: `some b` when it stores the byte `b`, `none` when it
returns without storing a byte (the time-out of 1 s set in `open_port`, or an error). -/
structure Port (π : Type) where
  write : π → String → Int × π
  read : π → Option Char × π

/-- One call on the serial port, with its outcome. -/
inductive SerialEvent
  | write (bytes : String) (check : Int)
  | read (byte : Option Char)
deriving DecidableEq

/-- The variables of `main` that the loop of `position.c` changes, with the state of
the port and the log of the calls made so far, oldest first. `buffer0` is `buffer[0]`,
the only byte of `buffer` that the slew mode looks at. -/
structure Mount (π : Type) where
  port : π
  buffer0 : Char
  buffer_cleared : Bool
  long_format_selected : Bool
  ra_requested : Bool
  dec_requested : Bool
  log : List SerialEvent

/-- The `#define MAX_ATTEMPTS 3` of `position.c`. -/
def MAX_ATTEMPTS : Nat := 3

/-- The call `check = write(fd, bytes, count)`. -/
def Mount.write {π : Type} (p : Port π) (bytes : String) (m : Mount π) : Int × Mount π :=
  ((p.write m.port bytes).1,
    { m with
      port := (p.write m.port bytes).2
      log := m.log ++ [SerialEvent.write bytes (p.write m.port bytes).1] })

/-- The statements `bufptr = buffer; read(fd, bufptr, 1);`: the return value of `read`
is not looked at, and `buffer[0]` keeps its value when no byte arrives. -/
def Mount.read {π : Type} (p : Port π) (m : Mount π) : Mount π :=
  match (p.read m.port).1 with
  | some b =>
    { m with
      port := (p.read m.port).2
      buffer0 := b
      log := m.log ++ [SerialEvent.read (some b)] }
  | none =>
    { m with
      port := (p.read m.port).2
      log := m.log ++ [SerialEvent.read none] }

/-- The bytes of `write(fd, command, strlen(command)-1)` after
`sprintf(command, ":Sr %s#\r", ra)`: the command without its last character. -/
def ra_command (ra : String) : String := ":Sr " ++ ra ++ "#"

/-- The bytes written for the declination, from `":Sd %s#\r"`. -/
def dec_command (dec : String) : String := ":Sd " ++ dec ++ "#"

/-- The part of one round of the loop from `/* Move telescope */` on (lines 247-259):
`true` when `return(0)` is reached, `false` at a `continue`. -/
def slew_move {π : Type} (p : Port π) (m : Mount π) : Bool × Mount π :=
  let w := m.write p ":MS#\r"
  if w.1 ≠ 5 then (false, w.2)
  else
    let r := w.2.read p
    if r.buffer0 ≠ '0' then (false, r) else (true, r)

/-- The part of one round from `/* Store commanded Dec */` on (lines 231-259). -/
def slew_dec {π : Type} (p : Port π) (dec : String) (m : Mount π) : Bool × Mount π :=
  if !m.dec_requested then
    let w := m.write p (dec_command dec)
    if w.1 ≠ ((dec_command dec).utf8ByteSize : Int) then (false, w.2)
    else
      let r := w.2.read p
      if r.buffer0 ≠ '1' then (false, r)
      else slew_move p { r with dec_requested := true }
  else slew_move p m

/-- The part of one round from `/* Store commanded RA */` on (lines 216-259). -/
def slew_ra {π : Type} (p : Port π) (ra dec : String) (m : Mount π) : Bool × Mount π :=
  if !m.ra_requested then
    let w := m.write p (ra_command ra)
    if w.1 ≠ ((ra_command ra).utf8ByteSize : Int) then (false, w.2)
    else
      let r := w.2.read p
      if r.buffer0 ≠ '1' then (false, r)
      else slew_dec p dec { r with ra_requested := true }
  else slew_dec p dec m

/-- The part of one round from `/* Select long format */` on (lines 203-259). -/
def slew_format {π : Type} (p : Port π) (ra dec : String) (m : Mount π) : Bool × Mount π :=
  if !m.long_format_selected then
    let w := m.write p ":U#"
    if w.1 ≠ 3 then (false, w.2)
    else slew_ra p ra dec { w.2 with long_format_selected := true }
  else slew_ra p ra dec m

/-- One round of the loop of `main` in slew mode (lines 194-259): `true` when
`return(0)` is reached, `false` at a `continue`. -/
def slew_attempt {π : Type} (p : Port π) (ra dec : String) (m : Mount π) : Bool × Mount π :=
  if !m.buffer_cleared then
    let w := m.write p "#"
    if w.1 ≠ 1 then (false, w.2)
    else slew_format p ra dec { w.2 with buffer_cleared := true }
  else slew_format p ra dec m

/-- The loop `for (tries = 0; tries < MAX_ATTEMPTS; tries ++)` with `tries_left`
rounds to go, and the `return (1)` after it (lines 194-411): the exit status. -/
def slew_loop {π : Type} (p : Port π) (ra dec : String) : Nat → Mount π → Int × Mount π
  | 0, m => (1, m)
  | tries_left + 1, m =>
    match slew_attempt p ra dec m with
    | (true, m1) => (0, m1)
    | (false, m1) => slew_loop p ra dec tries_left m1

/-- The program `position ra dec` once the port is open, from the port state `s`.
`garbage` is the byte that the uninitialised `buffer[0]` holds. -/
def position_slew {π : Type} (p : Port π) (ra dec : String) (s : π) (garbage : Char) :
    Int × Mount π :=
  slew_loop p ra dec MAX_ATTEMPTS
    { port := s, buffer0 := garbage, buffer_cleared := false, long_format_selected := false,
      ra_requested := false, dec_requested := false, log := [] }

/-- A port on which every write is complete and the reads deliver the scripted
outcomes in order, then time out. -/
def mockPort : Port (List (Option Char)) :=
  { write := fun s bytes => ((bytes.utf8ByteSize : Int), s)
    read := fun s =>
      match s with
      | [] => (none, [])
      | b :: rest => (b, rest) }

/-! ## The shape of every run of `expose` and `redownload` -/

theorem Reaches.stop {P : Event → Prop} {d : Device σ} {opts : TExposureOptions}
    {w : World σ} {res : Run (Result ExposeResult String) × World σ}
    (hlog : res.2.log = w.log) (hno : res.1.notOk) : Reaches P d opts w res :=
  ⟨[], by simp, Or.inl ⟨by simp [hlog], hno⟩⟩

theorem Reaches.download {P : Event → Prop} (d : Device σ) (opts : TExposureOptions)
    (w : World σ) : Reaches P d opts w (expose_download d w opts) :=
  ⟨[], by simp, Or.inr ⟨w, by simp, rfl⟩⟩

theorem Reaches.step {P : Event → Prop} {d : Device σ} {opts : TExposureOptions}
    {w : World σ} {res : Run (Result ExposeResult String) × World σ} (e : Event)
    (w1 : World σ) (hlog : w1.log = w.log ++ [e]) (he : P e) (h : Reaches P d opts w1 res) :
    Reaches P d opts w res := by
  obtain ⟨evs, hP, h⟩ := h
  refine ⟨e :: evs, ?_, ?_⟩
  · intro x hx
    rcases List.mem_cons.1 hx with rfl | hx
    · exact he
    · exact hP x hx
  · rcases h with ⟨h1, h2⟩ | ⟨w2, h1, h2⟩
    · exact Or.inl ⟨by simp [h1, hlog], h2⟩
    · exact Or.inr ⟨w2, by simp [h1, hlog], h2⟩

theorem Reaches.mono {P Q : Event → Prop} {d : Device σ} {opts : TExposureOptions}
    {w : World σ} {res : Run (Result ExposeResult String) × World σ}
    (hPQ : ∀ e, P e → Q e) (h : Reaches P d opts w res) : Reaches Q d opts w res := by
  obtain ⟨evs, hP, h⟩ := h
  exact ⟨evs, fun e he => hPQ e (hP e he), h⟩

/-- The readiness loop issues only status queries, then fails or downloads. -/
theorem expose_poll_reaches (d : Device σ) (opts : TExposureOptions) (fuel : Nat)
    (w : World σ) :
    Reaches (fun e => ∃ r, e = Event.queryStatus r) d opts w (expose_poll d opts fuel w) := by
  induction fuel generalizing w with
  | zero => exact Reaches.stop rfl trivial
  | succ n ih =>
    have hlog : (image_is_ready d w).2.log = w.log ++ [Event.queryStatus (d.queryStatus w.dev).1] := by
      unfold image_is_ready
      split <;> simp [hw_queryStatus, World.emit]
    refine Reaches.step _ _ hlog ⟨_, rfl⟩ ?_
    unfold expose_poll
    split
    · exact Reaches.stop rfl trivial
    · exact Reaches.download d opts _
    · exact ih _

/-- From the abort on, `expose` issues only set-up events, then fails or downloads. -/
theorem expose_acquire_reaches (fuel : Nat) (d : Device σ) (w : World σ)
    (exp_info : ExposureInfo) :
    Reaches (setup_event d exp_info) d (make_exposure_options d.sensor_info exp_info) w
      (expose_acquire fuel d w exp_info) := by
  refine Reaches.step (Event.abortExposure (d.abortExposure w.dev).1)
    ((hw_abortExposure d w).2) (by simp [hw_abortExposure, World.emit]) trivial ?_
  unfold expose_acquire
  split
  · exact Reaches.stop rfl trivial
  · refine Reaches.step (Event.setSubframe (make_subframe d.sensor_info exp_info)
        (hw_setSubframe d (make_subframe d.sensor_info exp_info) (hw_abortExposure d w).2).1)
      ((hw_setSubframe d (make_subframe d.sensor_info exp_info) (hw_abortExposure d w).2).2)
      (by simp [hw_setSubframe, World.emit]) rfl ?_
    dsimp only
    split
    · exact Reaches.stop rfl trivial
    · refine Reaches.step (Event.startExposure (make_exposure_options d.sensor_info exp_info)
          (hw_startExposure d (make_exposure_options d.sensor_info exp_info)
            (hw_setSubframe d (make_subframe d.sensor_info exp_info) (hw_abortExposure d w).2).2).1)
        ((hw_startExposure d (make_exposure_options d.sensor_info exp_info)
          (hw_setSubframe d (make_subframe d.sensor_info exp_info) (hw_abortExposure d w).2).2).2)
        (by simp [hw_startExposure, World.emit]) rfl ?_
      split
      · exact Reaches.stop rfl trivial
      · exact Reaches.mono (fun e ⟨r, hr⟩ => by subst hr; trivial) (expose_poll_reaches d _ fuel _)

/-- The capability check and set-up of one feature, as `expose` writes it twice: query the
capability, read the flag, set the setting, each followed by `rest`. -/
theorem gate_reaches (d : Device σ) (exp_info : ExposureInfo) (c : Capability) (s : Setting)
    (msg : String) (w : World σ)
    (rest : World σ → Run (Result ExposeResult String) × World σ)
    (hrest : ∀ w1, Reaches (setup_event d exp_info) d
      (make_exposure_options d.sensor_info exp_info) w1 (rest w1)) :
    Reaches (setup_event d exp_info) d (make_exposure_options d.sensor_info exp_info) w
      (match await (hw_queryCapability d c w).1 with
        | .error what => (.thrown what, (hw_queryCapability d c w).2)
        | .ok () =>
          if (hw_getCapability d c (hw_queryCapability d c w).2).1 = false then
            (.returned (.Err msg), (hw_getCapability d c (hw_queryCapability d c w).2).2)
          else
            match await (hw_setSetting d s 1
                (hw_getCapability d c (hw_queryCapability d c w).2).2).1 with
            | .error what => (.returned (.Err what),
                (hw_setSetting d s 1 (hw_getCapability d c (hw_queryCapability d c w).2).2).2)
            | .ok () => rest
                (hw_setSetting d s 1 (hw_getCapability d c (hw_queryCapability d c w).2).2).2) := by
  refine Reaches.step (Event.queryCapability c (hw_queryCapability d c w).1)
    ((hw_queryCapability d c w).2) (by simp [hw_queryCapability, World.emit]) trivial ?_
  split
  · exact Reaches.stop rfl trivial
  · refine Reaches.step
      (Event.getCapability c (hw_getCapability d c (hw_queryCapability d c w).2).1)
      ((hw_getCapability d c (hw_queryCapability d c w).2).2)
      (by simp [hw_getCapability, World.emit]) trivial ?_
    split
    · exact Reaches.stop rfl trivial
    · refine Reaches.step
        (Event.setSetting s 1
          (hw_setSetting d s 1 (hw_getCapability d c (hw_queryCapability d c w).2).2).1)
        ((hw_setSetting d s 1 (hw_getCapability d c (hw_queryCapability d c w).2).2).2)
        (by simp [hw_setSetting, World.emit]) rfl ?_
      split
      · exact Reaches.stop rfl trivial
      · exact hrest _

theorem expose_overscan_reaches (fuel : Nat) (d : Device σ) (w : World σ)
    (exp_info : ExposureInfo) :
    Reaches (setup_event d exp_info) d (make_exposure_options d.sensor_info exp_info) w
      (expose_overscan fuel d w exp_info) := by
  unfold expose_overscan
  split
  · exact gate_reaches d exp_info _ _ _ w (fun w1 => expose_acquire fuel d w1 exp_info)
      (fun w1 => expose_acquire_reaches fuel d w1 exp_info)
  · exact expose_acquire_reaches fuel d w exp_info

/-- Every run of `expose` issues only set-up events and then either stops without an
`Ok` or runs the download phase with the options built from the request. -/
theorem expose_reaches (fuel : Nat) (d : Device σ) (w : World σ) (exp_info : ExposureInfo) :
    Reaches (setup_event d exp_info) d (make_exposure_options d.sensor_info exp_info) w
      (expose fuel d w exp_info) := by
  unfold expose
  split
  · exact gate_reaches d exp_info _ _ _ w (fun w1 => expose_overscan fuel d w1 exp_info)
      (fun w1 => expose_overscan_reaches fuel d w1 exp_info)
  · exact expose_overscan_reaches fuel d w exp_info

/-- The three ways the download phase of `expose` ends, with the events it adds. -/
theorem expose_download_cases (d : Device σ) (w : World σ) (opts : TExposureOptions) :
    (∃ what, expose_download d w opts =
        (.returned (.Err what), ⟨(d.startDownload w.dev).2,
          w.log ++ [Event.startDownload (.raised what)]⟩) ∧
        (d.startDownload w.dev).1 = .raised what) ∨
    (∃ st le, (d.startDownload w.dev).1 = .promise st le ∧
        (d.getImage (d.startDownload w.dev).2).1 = none ∧
        expose_download d w opts =
          (.returned (.Err msg_no_image), ⟨(d.getImage (d.startDownload w.dev).2).2,
            w.log ++ [Event.startDownload (.promise st le), Event.getImage true]⟩)) ∨
    (∃ st le image, (d.startDownload w.dev).1 = .promise st le ∧
        (d.getImage (d.startDownload w.dev).2).1 = some image ∧
        expose_download d w opts =
          (.returned (.Ok (make_result image opts)), ⟨(d.getImage (d.startDownload w.dev).2).2,
            w.log ++ [Event.startDownload (.promise st le), Event.getImage false,
              Event.getBufferData, Event.getBufferLength, Event.getMetadata]⟩)) := by
  cases hsd : (d.startDownload w.dev).1 with
  | raised what =>
    left
    exact ⟨what, by simp [expose_download, hw_startDownload, World.emit, await, hsd], rfl⟩
  | promise st le =>
    right
    cases hgi : (d.getImage (d.startDownload w.dev).2).1 with
    | none =>
      left
      exact ⟨st, le, rfl, rfl, by
        simp [expose_download, hw_startDownload, hw_getImage, World.emit, await, hsd, hgi]⟩
    | some image =>
      right
      exact ⟨st, le, image, rfl, rfl, by
        simp [expose_download, hw_startDownload, hw_getImage, World.emit, World.readImage,
          await, hsd, hgi]⟩

/-- The log of the download phase extends the log it starts from by download events. -/
theorem expose_download_log (d : Device σ) (w : World σ) (opts : TExposureOptions) :
    ∃ evs : List Event, (expose_download d w opts).2.log = w.log ++ evs ∧
      ∀ e ∈ evs, download_event e := by
  rcases expose_download_cases d w opts with ⟨what, h, _⟩ | ⟨st, le, _, _, h⟩ |
    ⟨st, le, image, _, _, h⟩
  · exact ⟨_, by rw [h], by simp [download_event]⟩
  · exact ⟨_, by rw [h], by simp [download_event]⟩
  · exact ⟨_, by rw [h], by simp [download_event]⟩

/-- The log of `expose` extends the log it starts from; what it adds is set-up events
carrying the arguments built from the request, and download events. -/
theorem expose_log_events (fuel : Nat) (d : Device σ) (w : World σ) (exp_info : ExposureInfo) :
    ∃ evs : List Event, (expose fuel d w exp_info).2.log = w.log ++ evs ∧
      ∀ e ∈ evs, setup_event d exp_info e ∨ download_event e := by
  obtain ⟨evs, hP, h⟩ := expose_reaches fuel d w exp_info
  rcases h with ⟨hlog, _⟩ | ⟨w1, hlog, hres⟩
  · exact ⟨evs, hlog, fun e he => Or.inl (hP e he)⟩
  · obtain ⟨evs2, hlog2, hQ⟩ := expose_download_log d w1 (make_exposure_options d.sensor_info exp_info)
    refine ⟨evs ++ evs2, ?_, ?_⟩
    · rw [hres, hlog2, hlog, List.append_assoc]
    · intro e he
      rcases List.mem_append.1 he with he | he
      · exact Or.inl (hP e he)
      · exact Or.inr (hQ e he)

/-- An `Ok` of `expose` carries the exposure options built from the request. -/
theorem expose_ok_expinfo (fuel : Nat) (d : Device σ) (w : World σ) (exp_info : ExposureInfo)
    (res : ExposeResult) (h : (expose fuel d w exp_info).1 = .returned (.Ok res)) :
    res.expinfo = make_exposure_options d.sensor_info exp_info := by
  obtain ⟨evs, _, hr⟩ := expose_reaches fuel d w exp_info
  rcases hr with ⟨_, hno⟩ | ⟨w1, _, hres⟩
  · rw [h] at hno
    exact hno.elim
  · rw [hres] at h
    rcases expose_download_cases d w1 (make_exposure_options d.sensor_info exp_info) with
      ⟨what, h1, _⟩ | ⟨st, le, _, _, h1⟩ | ⟨st, le, image, _, _, h1⟩
    · rw [h1] at h
      simp at h
    · rw [h1] at h
      simp at h
    · rw [h1] at h
      simp only [Run.returned.injEq, Result.Ok.injEq] at h
      rw [← h]
      rfl

/-! ## Arithmetic of the subframe -/

/-- An `int` that is at least 1 converts to itself as an `unsigned int`. -/
theorem to_unsigned_of_pos (i : Int) (h1 : 1 ≤ i) (h2 : i < 2147483648) :
    ((to_unsigned i : Nat) : Int) = i := by
  unfold to_unsigned
  rw [Int.emod_eq_of_lt (by omega) (by omega)]
  exact Int.toNat_of_nonneg (by omega)

/-- The unsigned quotient `pixels / bin` is the floor of the exact quotient. -/
theorem unsigned_div_eq_floor (pixels : Nat) (bin : Int) (h1 : 1 ≤ bin) (h2 : bin < 2147483648) :
    ((pixels / to_unsigned bin : Nat) : Int) = ⌊(pixels : ℚ) / (bin : ℚ)⌋ := by
  have h := to_unsigned_of_pos bin h1 h2
  have h3 : (bin : ℚ) = ((to_unsigned bin : Nat) : ℚ) := by
    conv_lhs => rw [← h]
    simp
  rw [h3, Rat.floor_natCast_div_natCast]
  simp

/-! ## Configuration -/

/-- C1: for every sensor geometry and every request with `bin_x ≥ 1` and `bin_y ≥ 1`
(both `int` values), every subframe that `expose` passes to `setSubframe` has top 0,
left 0, width `floor(pixels_x / bin_x)`, height `floor(pixels_y / bin_y)` and the
requested bin factors. -/
theorem expose_subframe_geometry (fuel : Nat) (d : Device σ) (s : σ) (exp_info : ExposureInfo)
    (hx : 1 ≤ exp_info.bin_x) (hy : 1 ≤ exp_info.bin_y)
    (hx32 : exp_info.bin_x < 2147483648) (hy32 : exp_info.bin_y < 2147483648)
    (sf : TSubframe) (r : CallResult)
    (h : Event.setSubframe sf r ∈ (expose fuel d (World.start s) exp_info).2.log) :
    sf.top = 0 ∧ sf.left = 0 ∧
      sf.width = ⌊(d.sensor_info.pixels_x : ℚ) / (exp_info.bin_x : ℚ)⌋ ∧
      sf.height = ⌊(d.sensor_info.pixels_y : ℚ) / (exp_info.bin_y : ℚ)⌋ ∧
      sf.binX = exp_info.bin_x ∧ sf.binY = exp_info.bin_y := by
  obtain ⟨evs, hlog, hev⟩ := expose_log_events fuel d (World.start s) exp_info
  rw [hlog] at h
  simp only [World.start, List.nil_append] at h
  rcases hev _ h with h1 | h1
  · have h2 : sf = make_subframe d.sensor_info exp_info := h1
    subst h2
    exact ⟨rfl, rfl, unsigned_div_eq_floor _ _ hx hx32, unsigned_div_eq_floor _ _ hy hy32,
      rfl, rfl⟩
  · exact h1.elim

theorem expose_subframe_geometry_witness :
    Event.setSubframe ⟨0, 0, 33, 100, 3, 1⟩ completed ∈
        (expose 5 mockCamera (World.start 0) mockRequest).2.log ∧
      ((0 : Int) = 0 ∧ (0 : Int) = 0 ∧
        (33 : Int) = ⌊((mockCamera.sensor_info.pixels_x : ℕ) : ℚ) / ((mockRequest.bin_x : Int) : ℚ)⌋ ∧
        (100 : Int) = ⌊((mockCamera.sensor_info.pixels_y : ℕ) : ℚ) / ((mockRequest.bin_y : Int) : ℚ)⌋ ∧
        (3 : Int) = mockRequest.bin_x ∧ (1 : Int) = mockRequest.bin_y) :=
  ⟨by decide,
    expose_subframe_geometry 5 mockCamera 0 mockRequest (by decide) (by decide) (by decide)
      (by decide) ⟨0, 0, 33, 100, 3, 1⟩ completed (by decide)⟩

/-- C2: for every requested duration `d` and sensor minimum `m`, every start-exposure
command of `expose` carries the duration `max(d, m)`, an `Ok` result returns the same
duration in `expinfo`, and a request at or below the minimum runs exactly as the
request for the minimum itself (same result, same hardware calls): it is clamped
without an error of its own. -/
theorem expose_duration_clamped (fuel : Nat) (d : Device σ) (s : σ) (exp_info : ExposureInfo) :
    (∀ o r, Event.startExposure o r ∈ (expose fuel d (World.start s) exp_info).2.log →
        o.duration = max exp_info.duration d.sensor_info.exposure_duration_min) ∧
      (∀ res, (expose fuel d (World.start s) exp_info).1 = .returned (.Ok res) →
        res.expinfo.duration = max exp_info.duration d.sensor_info.exposure_duration_min) ∧
      (exp_info.duration ≤ d.sensor_info.exposure_duration_min →
        expose fuel d (World.start s) exp_info =
          expose fuel d (World.start s)
            { exp_info with duration := d.sensor_info.exposure_duration_min }) := by
  have hmax : (make_exposure_options d.sensor_info exp_info).duration =
      max exp_info.duration d.sensor_info.exposure_duration_min := by
    simp only [make_exposure_options, std_max]
    split
    · rw [max_eq_right (le_of_lt ‹_›)]
    · rw [max_eq_left (not_lt.1 ‹_›)]
  refine ⟨?_, ?_, ?_⟩
  · intro o r h
    obtain ⟨evs, hlog, hev⟩ := expose_log_events fuel d (World.start s) exp_info
    rw [hlog] at h
    simp only [World.start, List.nil_append] at h
    rcases hev _ h with h1 | h1
    · have h2 : o = make_exposure_options d.sensor_info exp_info := h1
      rw [h2, hmax]
    · exact h1.elim
  · intro res h
    rw [expose_ok_expinfo fuel d _ exp_info res h, hmax]
  · intro hle
    have hopts : make_exposure_options d.sensor_info exp_info =
        make_exposure_options d.sensor_info
          { exp_info with duration := d.sensor_info.exposure_duration_min } := by
      simp only [make_exposure_options, std_max, lt_self_iff_false, if_false]
      rcases lt_or_eq_of_le hle with hlt | heq
      · rw [if_pos hlt]
      · rw [if_neg (by rw [heq]; exact lt_irrefl _), heq]
    simp only [expose, expose_overscan, expose_acquire, make_subframe, hopts]

/-- The run of `expose` on `mockCamera` with `mockRequest`: result and log. -/
theorem mockCamera_run :
    expose 5 mockCamera (World.start 0) mockRequest =
      (.returned (.Ok (make_result mockImage (make_exposure_options mockInfo mockRequest))),
        ⟨2, [Event.queryCapability .eSupportsOnChipBinning completed,
          Event.getCapability .eSupportsOnChipBinning true,
          Event.setSetting .UseOnChipBinning 1 completed,
          Event.abortExposure completed,
          Event.setSubframe ⟨0, 0, 33, 100, 3, 1⟩ completed,
          Event.startExposure (make_exposure_options mockInfo mockRequest) completed,
          Event.queryStatus completed,
          Event.queryStatus completed,
          Event.startDownload completed,
          Event.getImage false,
          Event.getBufferData, Event.getBufferLength, Event.getMetadata]⟩) := rfl

theorem expose_duration_clamped_witness :
    (Event.startExposure (make_exposure_options mockInfo mockRequest) completed ∈
          (expose 5 mockCamera (World.start 0) mockRequest).2.log ∧
        (make_exposure_options mockInfo mockRequest).duration =
          max mockRequest.duration mockCamera.sensor_info.exposure_duration_min) ∧
      ((expose 5 mockCamera (World.start 0) mockRequest).1 =
          .returned (.Ok (make_result mockImage (make_exposure_options mockInfo mockRequest))) ∧
        (make_result mockImage (make_exposure_options mockInfo mockRequest)).expinfo.duration =
          max mockRequest.duration mockCamera.sensor_info.exposure_duration_min) ∧
      (({ mockRequest with duration := 1 / 20 } : ExposureInfo).duration ≤
          mockCamera.sensor_info.exposure_duration_min ∧
        expose 5 mockCamera (World.start 0) { mockRequest with duration := 1 / 20 } =
          expose 5 mockCamera (World.start 0)
            { ({ mockRequest with duration := 1 / 20 } : ExposureInfo) with
              duration := mockCamera.sensor_info.exposure_duration_min }) :=
  ⟨⟨by simp [mockCamera_run],
      (expose_duration_clamped 5 mockCamera 0 mockRequest).1
        (make_exposure_options mockInfo mockRequest) completed (by simp [mockCamera_run])⟩,
    ⟨by rw [mockCamera_run],
      (expose_duration_clamped 5 mockCamera 0 mockRequest).2.1 _ (by rw [mockCamera_run])⟩,
    ⟨by norm_num [mockCamera, mockDevice, mockInfo],
      (expose_duration_clamped 5 mockCamera 0 { mockRequest with duration := 1 / 20 }).2.2
        (by norm_num [mockCamera, mockDevice, mockInfo])⟩⟩

/-- A bias request built by `main` has the duration `0.`. -/
theorem build_expinfo_bias_duration (bin_x bin_y : Int) (duration : ℚ)
    (dark flat bias disable_overscan : Bool)
    (h : (build_expinfo bin_x bin_y duration dark flat bias disable_overscan).imagetype =
      ImageType.Bias) :
    (build_expinfo bin_x bin_y duration dark flat bias disable_overscan).duration = 0 := by
  cases dark <;> cases flat <;> cases bias <;> simp_all [build_expinfo]

/-- C3: for a Bias request built by `main` from any user duration, on a sensor whose
minimum exposure duration is not negative, every start-exposure command of `expose`
carries the sensor minimum as duration, and an `Ok` result returns the sensor minimum
in `expinfo`. -/
theorem bias_duration_is_sensor_minimum (fuel : Nat) (d : Device σ) (s : σ) (bin_x bin_y : Int)
    (duration : ℚ) (dark flat bias disable_overscan : Bool)
    (hbias : (build_expinfo bin_x bin_y duration dark flat bias disable_overscan).imagetype =
      ImageType.Bias)
    (hmin : 0 ≤ d.sensor_info.exposure_duration_min) :
    (∀ o r, Event.startExposure o r ∈ (expose fuel d (World.start s)
          (build_expinfo bin_x bin_y duration dark flat bias disable_overscan)).2.log →
        o.duration = d.sensor_info.exposure_duration_min) ∧
      (∀ res, (expose fuel d (World.start s)
          (build_expinfo bin_x bin_y duration dark flat bias disable_overscan)).1 =
            .returned (.Ok res) →
        res.expinfo.duration = d.sensor_info.exposure_duration_min) := by
  have hd := build_expinfo_bias_duration bin_x bin_y duration dark flat bias disable_overscan hbias
  have hopt : (make_exposure_options d.sensor_info
      (build_expinfo bin_x bin_y duration dark flat bias disable_overscan)).duration =
      d.sensor_info.exposure_duration_min := by
    simp only [make_exposure_options, std_max, hd]
    split
    · rfl
    · exact le_antisymm hmin (not_lt.1 ‹_›)
  refine ⟨?_, ?_⟩
  · intro o r h
    obtain ⟨evs, hlog, hev⟩ := expose_log_events fuel d (World.start s)
      (build_expinfo bin_x bin_y duration dark flat bias disable_overscan)
    rw [hlog] at h
    simp only [World.start, List.nil_append] at h
    rcases hev _ h with h1 | h1
    · have h2 : o = make_exposure_options d.sensor_info
          (build_expinfo bin_x bin_y duration dark flat bias disable_overscan) := h1
      rw [h2, hopt]
    · exact h1.elim
  · intro res h
    rw [expose_ok_expinfo fuel d _ _ res h, hopt]

/-- The run of `expose` on `mockCamera` for `--bias --duration 10 --disable_overscan`. -/
theorem mockCamera_bias_run :
    expose 5 mockCamera (World.start 0) (build_expinfo 1 1 10 false false true true) =
      (.returned (.Ok (make_result mockImage
          (make_exposure_options mockInfo (build_expinfo 1 1 10 false false true true)))),
        ⟨2, [Event.abortExposure completed,
          Event.setSubframe ⟨0, 0, 100, 100, 1, 1⟩ completed,
          Event.startExposure
            (make_exposure_options mockInfo (build_expinfo 1 1 10 false false true true))
            completed,
          Event.queryStatus completed,
          Event.queryStatus completed,
          Event.startDownload completed,
          Event.getImage false,
          Event.getBufferData, Event.getBufferLength, Event.getMetadata]⟩) := rfl

theorem bias_duration_is_sensor_minimum_witness :
    ((build_expinfo 1 1 10 false false true true).imagetype = ImageType.Bias ∧
        0 ≤ mockCamera.sensor_info.exposure_duration_min) ∧
      (Event.startExposure
            (make_exposure_options mockInfo (build_expinfo 1 1 10 false false true true))
            completed ∈
          (expose 5 mockCamera (World.start 0)
            (build_expinfo 1 1 10 false false true true)).2.log ∧
        (make_exposure_options mockInfo (build_expinfo 1 1 10 false false true true)).duration =
          1 / 10) ∧
      ((expose 5 mockCamera (World.start 0) (build_expinfo 1 1 10 false false true true)).1 =
          .returned (.Ok (make_result mockImage
            (make_exposure_options mockInfo (build_expinfo 1 1 10 false false true true)))) ∧
        (make_result mockImage
          (make_exposure_options mockInfo
            (build_expinfo 1 1 10 false false true true))).expinfo.duration = 1 / 10) :=
  ⟨⟨by decide, by norm_num [mockCamera, mockDevice, mockInfo]⟩,
    ⟨by simp [mockCamera_bias_run],
      (bias_duration_is_sensor_minimum 5 mockCamera 0 1 1 10 false false true true (by decide)
        (by norm_num [mockCamera, mockDevice, mockInfo])).1
        (make_exposure_options mockInfo (build_expinfo 1 1 10 false false true true)) completed
        (by simp [mockCamera_bias_run])⟩,
    ⟨by rw [mockCamera_bias_run],
      (bias_duration_is_sensor_minimum 5 mockCamera 0 1 1 10 false false true true (by decide)
        (by norm_num [mockCamera, mockDevice, mockInfo])).2 _ (by rw [mockCamera_bias_run])⟩⟩

/-- C4: for every frame kind, every start-exposure command of `expose` carries
`isLightFrame = false` when the kind is Dark and `true` when it is Light, Flat or
Bias; an `Ok` result returns the same flag in `expinfo`. -/
theorem expose_light_frame_flag (fuel : Nat) (d : Device σ) (s : σ) (exp_info : ExposureInfo) :
    (∀ o r, Event.startExposure o r ∈ (expose fuel d (World.start s) exp_info).2.log →
        o.isLightFrame =
          match exp_info.imagetype with
          | .Dark => false
          | .Light => true
          | .Flat => true
          | .Bias => true) ∧
      (∀ res, (expose fuel d (World.start s) exp_info).1 = .returned (.Ok res) →
        res.expinfo.isLightFrame =
          match exp_info.imagetype with
          | .Dark => false
          | .Light => true
          | .Flat => true
          | .Bias => true) := by
  have hopt : (make_exposure_options d.sensor_info exp_info).isLightFrame =
      match exp_info.imagetype with
      | .Dark => false
      | .Light => true
      | .Flat => true
      | .Bias => true := by
    cases h : exp_info.imagetype <;> simp [make_exposure_options, h]
  refine ⟨?_, ?_⟩
  · intro o r h
    obtain ⟨evs, hlog, hev⟩ := expose_log_events fuel d (World.start s) exp_info
    rw [hlog] at h
    simp only [World.start, List.nil_append] at h
    rcases hev _ h with h1 | h1
    · have h2 : o = make_exposure_options d.sensor_info exp_info := h1
      rw [h2, hopt]
    · exact h1.elim
  · intro res h
    rw [expose_ok_expinfo fuel d _ exp_info res h, hopt]

theorem expose_light_frame_flag_witness :
    (Event.startExposure (make_exposure_options mockInfo mockRequest) completed ∈
          (expose 5 mockCamera (World.start 0) mockRequest).2.log ∧
        (make_exposure_options mockInfo mockRequest).isLightFrame = true) ∧
      ((expose 5 mockCamera (World.start 0) mockRequest).1 =
          .returned (.Ok (make_result mockImage (make_exposure_options mockInfo mockRequest))) ∧
        (make_result mockImage
          (make_exposure_options mockInfo mockRequest)).expinfo.isLightFrame = true) :=
  ⟨⟨by simp [mockCamera_run],
      (expose_light_frame_flag 5 mockCamera 0 mockRequest).1
        (make_exposure_options mockInfo mockRequest) completed (by simp [mockCamera_run])⟩,
    ⟨by rw [mockCamera_run],
      (expose_light_frame_flag 5 mockCamera 0 mockRequest).2 _ (by rw [mockCamera_run])⟩⟩

/-! ## Capability gate -/

/-- The overscan gate rejects a request for overscan on a camera without it: the run
ends there, after the query and at most the read of the flag. -/
theorem expose_overscan_rejects (fuel : Nat) (d : Device σ) (w : World σ)
    (exp_info : ExposureInfo) (hreq : exp_info.overscan = 1)
    (hflag : ∀ s, d.getCapability s Capability.eSupportsOverscan = false) :
    ∃ evs, (expose_overscan fuel d w exp_info).2.log = w.log ++ evs ∧
      (∀ e ∈ evs, gate_event e ∧ e.isMutating = false) ∧
      gate_outcome d (expose_overscan fuel d w exp_info).1 := by
  cases hq : (d.queryCapability w.dev Capability.eSupportsOverscan).1 with
  | raised what =>
    refine ⟨[Event.queryCapability Capability.eSupportsOverscan (.raised what)], ?_, ?_,
      Or.inr ⟨what, Capability.eSupportsOverscan, w.dev, ?_, hq⟩⟩
    · simp [expose_overscan, hreq, hw_queryCapability, World.emit, await, hq]
    · simp [gate_event, Event.isMutating]
    · simp [expose_overscan, hreq, hw_queryCapability, World.emit, await, hq]
  | promise st le =>
    refine ⟨[Event.queryCapability Capability.eSupportsOverscan (.promise st le),
      Event.getCapability Capability.eSupportsOverscan false], ?_, ?_,
      Or.inl ⟨msg_no_overscan, ?_⟩⟩
    · simp [expose_overscan, hreq, hw_queryCapability, hw_getCapability, World.emit, await, hq,
        hflag]
    · simp [gate_event, Event.isMutating]
    · simp [expose_overscan, hreq, hw_queryCapability, hw_getCapability, World.emit, await, hq,
        hflag]

/-- When a requested feature is not supported, `expose` ends at a capability gate after
gate events only; when the missing feature is on-chip binning, none of them is a
mutating command. -/
theorem expose_gate_failure (fuel : Nat) (d : Device σ) (w : World σ) (exp_info : ExposureInfo)
    (h : ((exp_info.bin_x ≠ 1 ∨ exp_info.bin_y ≠ 1) ∧
          ∀ s, d.getCapability s Capability.eSupportsOnChipBinning = false) ∨
        (exp_info.overscan = 1 ∧ ∀ s, d.getCapability s Capability.eSupportsOverscan = false)) :
    ∃ evs, (expose fuel d w exp_info).2.log = w.log ++ evs ∧
      (∀ e ∈ evs, gate_event e) ∧
      (((exp_info.bin_x ≠ 1 ∨ exp_info.bin_y ≠ 1) ∧
          ∀ s, d.getCapability s Capability.eSupportsOnChipBinning = false) →
        ∀ e ∈ evs, e.isMutating = false) ∧
      gate_outcome d (expose fuel d w exp_info).1 := by
  by_cases hb : exp_info.bin_x ≠ 1 ∨ exp_info.bin_y ≠ 1
  · cases hq : (d.queryCapability w.dev Capability.eSupportsOnChipBinning).1 with
    | raised what =>
      refine ⟨[Event.queryCapability Capability.eSupportsOnChipBinning (.raised what)], ?_, ?_,
        ?_, Or.inr ⟨what, Capability.eSupportsOnChipBinning, w.dev, ?_, hq⟩⟩
      · simp [expose, hb, hw_queryCapability, World.emit, await, hq]
      · simp [gate_event]
      · simp [Event.isMutating]
      · simp [expose, hb, hw_queryCapability, World.emit, await, hq]
    | promise st le =>
      cases hc : d.getCapability (d.queryCapability w.dev Capability.eSupportsOnChipBinning).2
          Capability.eSupportsOnChipBinning with
      | false =>
        refine ⟨[Event.queryCapability Capability.eSupportsOnChipBinning (.promise st le),
          Event.getCapability Capability.eSupportsOnChipBinning false], ?_, ?_, ?_,
          Or.inl ⟨msg_no_binning, ?_⟩⟩
        · simp [expose, hb, hw_queryCapability, hw_getCapability, World.emit, await, hq, hc]
        · simp [gate_event]
        · simp [Event.isMutating]
        · simp [expose, hb, hw_queryCapability, hw_getCapability, World.emit, await, hq, hc]
      | true =>
        have ho : exp_info.overscan = 1 ∧
            ∀ s, d.getCapability s Capability.eSupportsOverscan = false := by
          rcases h with ⟨_, hf⟩ | ho
          · rw [hf] at hc
            exact absurd hc (by decide)
          · exact ho
        have hnb : ¬ ((exp_info.bin_x ≠ 1 ∨ exp_info.bin_y ≠ 1) ∧
            ∀ s, d.getCapability s Capability.eSupportsOnChipBinning = false) := by
          rintro ⟨_, hf⟩
          rw [hf] at hc
          exact absurd hc (by decide)
        cases hs : (d.setSetting (d.queryCapability w.dev Capability.eSupportsOnChipBinning).2
            Setting.UseOnChipBinning 1).1 with
        | raised what =>
          refine ⟨[Event.queryCapability Capability.eSupportsOnChipBinning (.promise st le),
            Event.getCapability Capability.eSupportsOnChipBinning true,
            Event.setSetting Setting.UseOnChipBinning 1 (.raised what)], ?_, ?_,
            fun hh => absurd hh hnb, Or.inl ⟨what, ?_⟩⟩
          · simp [expose, hb, hw_queryCapability, hw_getCapability, hw_setSetting, World.emit,
              await, hq, hc, hs]
          · simp [gate_event]
          · simp [expose, hb, hw_queryCapability, hw_getCapability, hw_setSetting, World.emit,
              await, hq, hc, hs]
        | promise st2 le2 =>
          have hexp : expose fuel d w exp_info =
              expose_overscan fuel d
                ⟨(d.setSetting (d.queryCapability w.dev Capability.eSupportsOnChipBinning).2
                    Setting.UseOnChipBinning 1).2,
                  w.log ++ [Event.queryCapability Capability.eSupportsOnChipBinning
                      (.promise st le),
                    Event.getCapability Capability.eSupportsOnChipBinning true,
                    Event.setSetting Setting.UseOnChipBinning 1 (.promise st2 le2)]⟩
                exp_info := by
            simp [expose, hb, hw_queryCapability, hw_getCapability, hw_setSetting, World.emit,
              await, hq, hc, hs]
          obtain ⟨evs, hlog, hev, hout⟩ := expose_overscan_rejects fuel d
            ⟨(d.setSetting (d.queryCapability w.dev Capability.eSupportsOnChipBinning).2
                Setting.UseOnChipBinning 1).2,
              w.log ++ [Event.queryCapability Capability.eSupportsOnChipBinning
                  (.promise st le),
                Event.getCapability Capability.eSupportsOnChipBinning true,
                Event.setSetting Setting.UseOnChipBinning 1 (.promise st2 le2)]⟩
            exp_info ho.1 ho.2
          rw [hexp]
          refine ⟨[Event.queryCapability Capability.eSupportsOnChipBinning (.promise st le),
            Event.getCapability Capability.eSupportsOnChipBinning true,
            Event.setSetting Setting.UseOnChipBinning 1 (.promise st2 le2)] ++ evs, ?_, ?_,
            fun hh => absurd hh hnb, hout⟩
          · rw [hlog, List.append_assoc]
          · intro e he
            rcases List.mem_append.1 he with he | he
            · simp only [List.mem_cons, List.mem_singleton, List.not_mem_nil, or_false] at he
              rcases he with rfl | rfl | rfl <;> simp [gate_event]
            · exact (hev e he).1
  · have ho : exp_info.overscan = 1 ∧
        ∀ s, d.getCapability s Capability.eSupportsOverscan = false := by
      rcases h with ⟨hb2, _⟩ | ho
      · exact absurd hb2 hb
      · exact ho
    have hexp : expose fuel d w exp_info = expose_overscan fuel d w exp_info := by
      simp only [expose, if_neg hb]
    obtain ⟨evs, hlog, hev, hout⟩ := expose_overscan_rejects fuel d w exp_info ho.1 ho.2
    rw [hexp]
    exact ⟨evs, hlog, fun e he => (hev e he).1, fun hh => absurd hh.1 hb, hout⟩

/-- At a capability gate, a run on a camera whose capability queries complete returns
an error. -/
theorem gate_outcome_returns (d : Device σ) (out : Run (Result ExposeResult String))
    (hquery : ∀ s c, ∃ st le, (d.queryCapability s c).1 = .promise st le)
    (h : gate_outcome d out) : ∃ msg, out = .returned (.Err msg) := by
  rcases h with h | ⟨what, c, s, _, hr⟩
  · exact h
  · obtain ⟨st, le, hq⟩ := hquery s c
    rw [hq] at hr
    exact absurd hr (by simp)

/-- C5: when a request uses a feature whose capability flag is false (binning other
than 1 x 1 without on-chip binning, or overscan without overscan support), the log of
`expose` holds no start-exposure command, and `expose` returns an error; the error is
returned provided the capability queries complete: a query that raises is awaited
outside any `try`, and its exception then leaves `expose` instead. -/
theorem unsupported_feature_rejected (fuel : Nat) (d : Device σ) (s : σ)
    (exp_info : ExposureInfo)
    (h : ((exp_info.bin_x ≠ 1 ∨ exp_info.bin_y ≠ 1) ∧
          ∀ s, d.getCapability s Capability.eSupportsOnChipBinning = false) ∨
        (exp_info.overscan = 1 ∧ ∀ s, d.getCapability s Capability.eSupportsOverscan = false)) :
    startExposureCount (expose fuel d (World.start s) exp_info).2.log = 0 ∧
      ((∀ s c, ∃ st le, (d.queryCapability s c).1 = .promise st le) →
        ∃ msg, (expose fuel d (World.start s) exp_info).1 = .returned (.Err msg)) ∧
      ((∃ msg, (expose fuel d (World.start s) exp_info).1 = .returned (.Err msg)) ∨
        ∃ what, (expose fuel d (World.start s) exp_info).1 = .thrown what) := by
  obtain ⟨evs, hlog, hev, _, hout⟩ := expose_gate_failure fuel d (World.start s) exp_info h
  refine ⟨?_, fun hquery => gate_outcome_returns d _ hquery hout, ?_⟩
  · rw [hlog]
    simp only [World.start, List.nil_append, startExposureCount, List.countP_eq_zero]
    intro e he
    have := hev e he
    cases e <;> simp_all [gate_event, Event.isStartExposure]
  · rcases hout with hm | ⟨what, _, _, hw, _⟩
    · exact Or.inl hm
    · exact Or.inr ⟨what, hw⟩

theorem unsupported_feature_rejected_witness :
    (((mockRequest.bin_x ≠ 1 ∨ mockRequest.bin_y ≠ 1) ∧
          ∀ s, mockPlainCamera.getCapability s Capability.eSupportsOnChipBinning = false) ∨
        (mockRequest.overscan = 1 ∧
          ∀ s, mockPlainCamera.getCapability s Capability.eSupportsOverscan = false)) ∧
      (∀ s c, ∃ st le, (mockPlainCamera.queryCapability s c).1 = .promise st le) ∧
      startExposureCount (expose 5 mockPlainCamera (World.start 0) mockRequest).2.log = 0 ∧
      ∃ msg, (expose 5 mockPlainCamera (World.start 0) mockRequest).1 = .returned (.Err msg) :=
  ⟨Or.inl ⟨Or.inl (by decide), fun _ => rfl⟩, fun _ _ => ⟨_, _, rfl⟩,
    (unsupported_feature_rejected 5 mockPlainCamera 0 mockRequest
      (Or.inl ⟨Or.inl (by decide), fun _ => rfl⟩)).1,
    (unsupported_feature_rejected 5 mockPlainCamera 0 mockRequest
      (Or.inl ⟨Or.inl (by decide), fun _ => rfl⟩)).2.1 (fun _ _ => ⟨_, _, rfl⟩)⟩

/-- C6, as stated, fails: on a camera that supports on-chip binning but not overscan,
a request with binning 2 x 2 and overscan on is rejected by the overscan gate after
the mutating command `setSetting(UseOnChipBinning, 1)` has been issued. -/
theorem gate_failure_after_setSetting :
    (expose 5 mockCamera (World.start 0) mockBinnedOverscanRequest).1 =
        .returned (.Err msg_no_overscan) ∧
      (expose 5 mockCamera (World.start 0) mockBinnedOverscanRequest).2.log =
        [Event.queryCapability .eSupportsOnChipBinning completed,
          Event.getCapability .eSupportsOnChipBinning true,
          Event.setSetting .UseOnChipBinning 1 completed,
          Event.queryCapability .eSupportsOverscan completed,
          Event.getCapability .eSupportsOverscan false] ∧
      (expose 5 mockCamera (World.start 0) mockBinnedOverscanRequest).2.log.any
        Event.isMutating = true :=
  ⟨rfl, rfl, rfl⟩

/-- C6, amended: when `expose` fails because a requested feature's capability flag is
false, the only mutating command that can have been issued is
`setSetting(UseOnChipBinning, 1)`: no `abortExposure`, `setSubframe`, `startExposure`,
`startDownload` and no other `setSetting`; and when the flag that is false is on-chip
binning, no mutating command has been issued at all. -/
theorem gate_failure_commands (fuel : Nat) (d : Device σ) (s : σ) (exp_info : ExposureInfo)
    (h : ((exp_info.bin_x ≠ 1 ∨ exp_info.bin_y ≠ 1) ∧
          ∀ s, d.getCapability s Capability.eSupportsOnChipBinning = false) ∨
        (exp_info.overscan = 1 ∧ ∀ s, d.getCapability s Capability.eSupportsOverscan = false)) :
    (∀ e ∈ (expose fuel d (World.start s) exp_info).2.log, e.isMutating = true →
        ∃ r, e = Event.setSetting Setting.UseOnChipBinning 1 r) ∧
      (((exp_info.bin_x ≠ 1 ∨ exp_info.bin_y ≠ 1) ∧
          ∀ s, d.getCapability s Capability.eSupportsOnChipBinning = false) →
        ∀ e ∈ (expose fuel d (World.start s) exp_info).2.log, e.isMutating = false) := by
  obtain ⟨evs, hlog, hev, hbin, _⟩ := expose_gate_failure fuel d (World.start s) exp_info h
  rw [hlog]
  simp only [World.start, List.nil_append]
  refine ⟨?_, hbin⟩
  intro e he hm
  have hg := hev e he
  cases e with
  | setSetting st v r =>
    cases st with
    | UseOnChipBinning =>
      have hv : v = 1 := hg
      exact ⟨r, by rw [hv]⟩
    | UseOverscan => exact hg.elim
  | queryCapability c r => simp [Event.isMutating] at hm
  | getCapability c v => simp [Event.isMutating] at hm
  | _ => exact hg.elim

theorem gate_failure_commands_witness :
    (((mockBinnedOverscanRequest.bin_x ≠ 1 ∨ mockBinnedOverscanRequest.bin_y ≠ 1) ∧
          ∀ s, mockCamera.getCapability s Capability.eSupportsOnChipBinning = false) ∨
        (mockBinnedOverscanRequest.overscan = 1 ∧
          ∀ s, mockCamera.getCapability s Capability.eSupportsOverscan = false)) ∧
      ((Event.setSetting Setting.UseOnChipBinning 1 completed ∈
            (expose 5 mockCamera (World.start 0) mockBinnedOverscanRequest).2.log ∧
          (Event.setSetting Setting.UseOnChipBinning 1 completed).isMutating = true) ∧
        ∃ r, Event.setSetting Setting.UseOnChipBinning 1 completed =
          Event.setSetting Setting.UseOnChipBinning 1 r) ∧
      (((mockRequest.bin_x ≠ 1 ∨ mockRequest.bin_y ≠ 1) ∧
          ∀ s, mockPlainCamera.getCapability s Capability.eSupportsOnChipBinning = false) ∧
        ∀ e ∈ (expose 5 mockPlainCamera (World.start 0) mockRequest).2.log,
          e.isMutating = false) :=
  ⟨Or.inr ⟨rfl, fun _ => rfl⟩,
    ⟨⟨by decide, rfl⟩,
      (gate_failure_commands 5 mockCamera 0 mockBinnedOverscanRequest
        (Or.inr ⟨rfl, fun _ => rfl⟩)).1 _ (by decide) rfl⟩,
    ⟨Or.inl (by decide), fun _ => rfl⟩,
    (gate_failure_commands 5 mockPlainCamera 0 mockRequest
      (Or.inl ⟨Or.inl (by decide), fun _ => rfl⟩)).2 ⟨Or.inl (by decide), fun _ => rfl⟩⟩

/-! ## Download and fetch -/

/-- A set-up event is not a read of an image. -/
theorem setup_event_not_read (d : Device σ) (exp_info : ExposureInfo) (e : Event)
    (h : setup_event d exp_info e) : e.isRead = false := by
  cases e <;> first | rfl | exact h.elim

/-- When the log of `expose` holds a `getImage` that returned null, `expose` returned
the no-image error and read nothing from an image. -/
theorem expose_null_image (fuel : Nat) (d : Device σ) (s : σ) (exp_info : ExposureInfo)
    (h : Event.getImage true ∈ (expose fuel d (World.start s) exp_info).2.log) :
    (expose fuel d (World.start s) exp_info).1 = .returned (.Err msg_no_image) ∧
      ∀ e ∈ (expose fuel d (World.start s) exp_info).2.log, e.isRead = false := by
  obtain ⟨evs, hP, hr⟩ := expose_reaches fuel d (World.start s) exp_info
  have hnot : Event.getImage true ∉ evs := fun hm => (hP _ hm).elim
  rcases hr with ⟨hlog, _⟩ | ⟨w1, hlog, hres⟩
  · rw [hlog] at h
    simp only [World.start, List.nil_append] at h
    exact absurd h hnot
  · simp only [World.start, List.nil_append] at hlog
    rw [hres] at h ⊢
    rcases expose_download_cases d w1 (make_exposure_options d.sensor_info exp_info) with
      ⟨what, h1, _⟩ | ⟨st, le, _, _, h1⟩ | ⟨st, le, image, _, _, h1⟩
    · rw [h1, hlog] at h
      simp [hnot] at h
    · rw [h1, hlog]
      refine ⟨rfl, ?_⟩
      intro e he
      rcases List.mem_append.1 he with he | he
      · exact setup_event_not_read d exp_info e (hP e he)
      · simp only [List.mem_cons, List.mem_singleton, List.not_mem_nil, or_false] at he
        rcases he with rfl | rfl <;> rfl
    · rw [h1, hlog] at h
      simp [hnot] at h

/-- The five ways `redownload` ends, with the result and the events it adds. -/
theorem redownload_cases (d : Device σ) (w : World σ) (exp_info : ExposureInfo) :
    ((redownload d w exp_info).1 = .undefined ∧ (redownload d w exp_info).2.log = w.log) ∨
    (∃ what, (redownload d w exp_info).1 = .returned (.Err what) ∧
        (redownload d w exp_info).2.log =
          w.log ++ [Event.setSubframe (make_subframe d.sensor_info exp_info) (.raised what)]) ∨
    (∃ st le what, (redownload d w exp_info).1 = .returned (.Err what) ∧
        (redownload d w exp_info).2.log =
          w.log ++ [Event.setSubframe (make_subframe d.sensor_info exp_info) (.promise st le),
            Event.startDownload (.raised what)]) ∨
    (∃ st le st2 le2, (redownload d w exp_info).1 = .returned (.Err msg_no_image_redownload) ∧
        (redownload d w exp_info).2.log =
          w.log ++ [Event.setSubframe (make_subframe d.sensor_info exp_info) (.promise st le),
            Event.startDownload (.promise st2 le2), Event.getImage true]) ∨
    (∃ st le st2 le2 image,
        (redownload d w exp_info).1 =
          .returned (.Ok (make_result image (make_exposure_options d.sensor_info exp_info))) ∧
        (redownload d w exp_info).2.log =
          w.log ++ [Event.setSubframe (make_subframe d.sensor_info exp_info) (.promise st le),
            Event.startDownload (.promise st2 le2), Event.getImage false,
            Event.getBufferData, Event.getBufferLength, Event.getMetadata]) := by
  by_cases hz : to_unsigned exp_info.bin_x = 0 ∨ to_unsigned exp_info.bin_y = 0
  · left
    simp [redownload, hz]
  · right
    cases hsf : (d.setSubframe w.dev (make_subframe d.sensor_info exp_info)).1 with
    | raised what =>
      left
      exact ⟨what, by simp [redownload, hz, hw_setSubframe, World.emit, await, hsf]⟩
    | promise st le =>
      right
      cases hsd : (d.startDownload
          (d.setSubframe w.dev (make_subframe d.sensor_info exp_info)).2).1 with
      | raised what =>
        left
        exact ⟨st, le, what, by
          simp [redownload, hz, hw_setSubframe, hw_startDownload, World.emit, await, hsf, hsd]⟩
      | promise st2 le2 =>
        right
        cases hgi : (d.getImage (d.startDownload
            (d.setSubframe w.dev (make_subframe d.sensor_info exp_info)).2).2).1 with
        | none =>
          left
          exact ⟨st, le, st2, le2, by
            simp [redownload, hz, hw_setSubframe, hw_startDownload, hw_getImage, World.emit,
              await, hsf, hsd, hgi]⟩
        | some image =>
          right
          exact ⟨st, le, st2, le2, image, by
            simp [redownload, hz, hw_setSubframe, hw_startDownload, hw_getImage, World.emit,
              World.readImage, await, hsf, hsd, hgi]⟩

/-- When the log of `redownload` holds a `getImage` that returned null, `redownload`
returned its no-image error and read nothing from an image. -/
theorem redownload_null_image (d : Device σ) (s : σ) (exp_info : ExposureInfo)
    (h : Event.getImage true ∈ (redownload d (World.start s) exp_info).2.log) :
    (redownload d (World.start s) exp_info).1 = .returned (.Err msg_no_image_redownload) ∧
      ∀ e ∈ (redownload d (World.start s) exp_info).2.log, e.isRead = false := by
  rcases redownload_cases d (World.start s) exp_info with ⟨_, hl⟩ | ⟨what, _, hl⟩ |
    ⟨st, le, what, _, hl⟩ | ⟨st, le, st2, le2, hr, hl⟩ | ⟨st, le, st2, le2, image, _, hl⟩
  · rw [hl] at h
    simp [World.start] at h
  · rw [hl] at h
    simp [World.start] at h
  · rw [hl] at h
    simp [World.start] at h
  · refine ⟨hr, ?_⟩
    rw [hl]
    intro e he
    simp only [World.start, List.nil_append, List.mem_cons, List.mem_singleton,
      List.not_mem_nil, or_false] at he
    rcases he with rfl | rfl | rfl <;> rfl
  · rw [hl] at h
    simp [World.start] at h

/-- C7: when `startDownload` completed without raising and the `getImage` that
follows returned a null image (the log of the call holds that `getImage`), `expose`
returns an error, its no-image error, and the log holds no read of the image's buffer,
buffer length or metadata; `redownload` does the same with its own message. -/
theorem null_image_is_error (fuel : Nat) (d : Device σ) (s : σ) (exp_info : ExposureInfo) :
    (Event.getImage true ∈ (expose fuel d (World.start s) exp_info).2.log →
        (expose fuel d (World.start s) exp_info).1 = .returned (.Err msg_no_image) ∧
          ∀ e ∈ (expose fuel d (World.start s) exp_info).2.log, e.isRead = false) ∧
      (Event.getImage true ∈ (redownload d (World.start s) exp_info).2.log →
        (redownload d (World.start s) exp_info).1 = .returned (.Err msg_no_image_redownload) ∧
          ∀ e ∈ (redownload d (World.start s) exp_info).2.log, e.isRead = false) :=
  ⟨expose_null_image fuel d s exp_info, redownload_null_image d s exp_info⟩

theorem null_image_is_error_witness :
    (Event.getImage true ∈ (expose 5 mockNullImageCamera (World.start 0) mockRequest).2.log ∧
        (expose 5 mockNullImageCamera (World.start 0) mockRequest).1 =
          .returned (.Err msg_no_image) ∧
        ∀ e ∈ (expose 5 mockNullImageCamera (World.start 0) mockRequest).2.log,
          e.isRead = false) ∧
      (Event.getImage true ∈ (redownload mockNullImageCamera (World.start 0) mockRequest).2.log ∧
        (redownload mockNullImageCamera (World.start 0) mockRequest).1 =
          .returned (.Err msg_no_image_redownload) ∧
        ∀ e ∈ (redownload mockNullImageCamera (World.start 0) mockRequest).2.log,
          e.isRead = false) :=
  ⟨⟨by decide, (null_image_is_error 5 mockNullImageCamera 0 mockRequest).1 (by decide)⟩,
    ⟨by decide, (null_image_is_error 5 mockNullImageCamera 0 mockRequest).2 (by decide)⟩⟩

/-- C8, the code at the failing input: the download completes and `getImage` returns
a non-null image whose buffer length is 0; `expose` returns `Ok` with an empty buffer
and `bufferlen = 0`, not the no-data error. -/
theorem expose_empty_image_is_ok :
    (expose 5 mockEmptyImageCamera (World.start 0) mockRequest).1 =
        .returned (.Ok (make_result mockEmptyImage (make_exposure_options mockInfo mockRequest))) ∧
      (make_result mockEmptyImage (make_exposure_options mockInfo mockRequest)).bufferlen = 0 ∧
      (make_result mockEmptyImage (make_exposure_options mockInfo mockRequest)).buffer = [] ∧
      (expose 5 mockEmptyImageCamera (World.start 0) mockRequest).1 ≠
        .returned (.Err msg_no_image) :=
  ⟨rfl, rfl, rfl, fun h => by
    rw [show (expose 5 mockEmptyImageCamera (World.start 0) mockRequest).1 =
      .returned (.Ok (make_result mockEmptyImage (make_exposure_options mockInfo mockRequest)))
      from rfl] at h
    simp at h⟩

/-- C9, as stated, fails: when `startDownload` raises an exception whose message is
the text of the no-image error, `expose` returns the very value it returns when the
download completes and `getImage` yields a null image. -/
theorem no_image_error_not_distinct :
    Event.startDownload (.raised msg_no_image) ∈
        (expose 5 (mockDownloadRaisesCamera msg_no_image) (World.start 0) mockRequest).2.log ∧
      Event.getImage true ∈
        (expose 5 mockNullImageCamera (World.start 0) mockRequest).2.log ∧
      (expose 5 (mockDownloadRaisesCamera msg_no_image) (World.start 0) mockRequest).1 =
        (expose 5 mockNullImageCamera (World.start 0) mockRequest).1 :=
  ⟨by decide, by decide, rfl⟩

/-- C9, amended: the failure `expose` returns when the download completed but
`getImage` yielded a null image is the value `Err` of one fixed text; it is equal to a
failure `Err(m)` that a run of `expose` returns (as it does for a hardware exception
with message `m`) exactly when `m` is that text, so the caller can tell the two apart
if and only if the exception message differs from the fixed text. -/
theorem no_image_error_vs_message {τ : Type} (fuel fuel2 : Nat) (d : Device σ) (d2 : Device τ)
    (s : σ) (s2 : τ) (exp_info exp_info2 : ExposureInfo) (m : String)
    (h : Event.getImage true ∈ (expose fuel d (World.start s) exp_info).2.log)
    (h2 : (expose fuel2 d2 (World.start s2) exp_info2).1 = .returned (.Err m)) :
    (expose fuel d (World.start s) exp_info).1 = .returned (.Err msg_no_image) ∧
      ((expose fuel d (World.start s) exp_info).1 =
          (expose fuel2 d2 (World.start s2) exp_info2).1 ↔ m = msg_no_image) := by
  have h1 := (expose_null_image fuel d s exp_info h).1
  refine ⟨h1, ?_⟩
  rw [h1, h2]
  constructor
  · intro he
    simp only [Run.returned.injEq, Result.Err.injEq] at he
    exact he.symm
  · intro he
    rw [he]

theorem no_image_error_vs_message_witness :
    (Event.getImage true ∈ (expose 5 mockNullImageCamera (World.start 0) mockRequest).2.log ∧
        (expose 5 (mockDownloadRaisesCamera "usb timeout") (World.start 0) mockRequest).1 =
          .returned (.Err "usb timeout")) ∧
      ((expose 5 mockNullImageCamera (World.start 0) mockRequest).1 =
          .returned (.Err msg_no_image) ∧
        ((expose 5 mockNullImageCamera (World.start 0) mockRequest).1 =
            (expose 5 (mockDownloadRaisesCamera "usb timeout") (World.start 0) mockRequest).1 ↔
          "usb timeout" = msg_no_image)) :=
  ⟨⟨by decide, rfl⟩,
    no_image_error_vs_message 5 5 mockNullImageCamera (mockDownloadRaisesCamera "usb timeout")
      0 0 mockRequest mockRequest "usb timeout" (by decide) rfl⟩

/-! ## The wait-then-release handshake -/

/-- C10, the code at the failing input: every awaited command hands back a promise
whose `wait()` reports `Error` with the diagnostic "device busy". `await` returns as if
the promise had completed, so `expose` and `redownload` return `Ok`; the sample's
`handlePromise` turns the same promise into an error carrying the diagnostic. -/
theorem await_drops_promise_status :
    await failedPromise = .ok () ∧
      handlePromise failedPromise = .error "device busy" ∧
      (expose 5 mockErrorPromiseCamera (World.start 0) mockRequest).1 =
        .returned (.Ok (make_result mockImage (make_exposure_options mockInfo mockRequest))) ∧
      (redownload mockErrorPromiseCamera (World.start 0) mockRequest).1 =
        .returned (.Ok (make_result mockImage (make_exposure_options mockInfo mockRequest))) ∧
      Event.setSubframe ⟨0, 0, 33, 100, 3, 1⟩ failedPromise ∈
        (expose 5 mockErrorPromiseCamera (World.start 0) mockRequest).2.log :=
  ⟨rfl, rfl, rfl, rfl, by decide⟩

/-! ## Exceptions of hardware commands -/

theorem await_eq_error (r : CallResult) (what : String) (h : await r = .error what) :
    r = .raised what := by
  cases r with
  | raised m =>
    simp only [await, Except.error.injEq] at h
    rw [h]
  | promise st le => simp [await] at h

theorem await_eq_ok (r : CallResult) (h : await r = .ok ()) :
    ∃ st le, r = .promise st le := by
  cases r with
  | raised m => simp [await] at h
  | promise st le => exact ⟨st, le, rfl⟩

theorem Shaped.nil {w : World σ} {res : Run (Result ExposeResult String) × World σ}
    (hlog : res.2.log = w.log) : Shaped w res :=
  ⟨[], by simp [hlog], Or.inl (by simp)⟩

theorem Shaped.fail {w : World σ} {res : Run (Result ExposeResult String) × World σ}
    (e : Event) (what : String) (hlog : res.2.log = w.log ++ [e])
    (he : e.caughtRaise = some what) (hres : res.1 = .returned (.Err what)) : Shaped w res :=
  ⟨[e], hlog, Or.inr ⟨[], e, what, by simp, by simp, he, hres⟩⟩

theorem Shaped.extend {w : World σ} {res : Run (Result ExposeResult String) × World σ}
    (e : Event) (w1 : World σ) (hlog : w1.log = w.log ++ [e]) (he : e.caughtRaise = none)
    (h : Shaped w1 res) : Shaped w res := by
  obtain ⟨evs, hl, h⟩ := h
  refine ⟨e :: evs, by simp [hl, hlog], ?_⟩
  rcases h with h | ⟨pre, x, what, hevs, hpre, hx, hres⟩
  · left
    intro y hy
    rcases List.mem_cons.1 hy with rfl | hy
    · exact he
    · exact h y hy
  · right
    refine ⟨e :: pre, x, what, by simp [hevs], ?_, hx, hres⟩
    intro y hy
    rcases List.mem_cons.1 hy with rfl | hy
    · exact he
    · exact hpre y hy

/-- The download phase has the shape of `Shaped`. -/
theorem expose_download_shaped (d : Device σ) (w : World σ) (opts : TExposureOptions) :
    Shaped w (expose_download d w opts) := by
  rcases expose_download_cases d w opts with ⟨what, h, _⟩ | ⟨st, le, _, _, h⟩ |
    ⟨st, le, image, _, _, h⟩
  · exact Shaped.fail (Event.startDownload (.raised what)) what (by rw [h]) rfl (by rw [h])
  · exact ⟨_, by rw [h], Or.inl (by simp [Event.caughtRaise])⟩
  · exact ⟨_, by rw [h], Or.inl (by simp [Event.caughtRaise])⟩

/-- The readiness loop has the shape of `Shaped`. -/
theorem expose_poll_shaped (d : Device σ) (opts : TExposureOptions) (fuel : Nat)
    (w : World σ) : Shaped w (expose_poll d opts fuel w) := by
  induction fuel generalizing w with
  | zero => exact Shaped.nil rfl
  | succ n ih =>
    have hlog : (image_is_ready d w).2.log =
        w.log ++ [Event.queryStatus (d.queryStatus w.dev).1] := by
      unfold image_is_ready
      split <;> simp [hw_queryStatus, World.emit]
    cases hq : (d.queryStatus w.dev).1 with
    | raised what =>
      have h1 : image_is_ready d w = (.error what, (hw_queryStatus d w).2) := by
        simp [image_is_ready, hw_queryStatus, await, hq]
      refine Shaped.fail (Event.queryStatus (.raised what)) what ?_ rfl ?_
      · simp [expose_poll, h1, hw_queryStatus, World.emit, hq]
      · simp [expose_poll, h1]
    | promise st le =>
      rw [hq] at hlog
      refine Shaped.extend _ _ hlog rfl ?_
      unfold expose_poll
      split
      · rename_i what hr
        simp [image_is_ready, hw_queryStatus, await, hq] at hr
      · exact expose_download_shaped d _ opts
      · exact ih _

/-- From the abort on, `expose` has the shape of `Shaped`. -/
theorem expose_acquire_shaped (fuel : Nat) (d : Device σ) (w : World σ)
    (exp_info : ExposureInfo) : Shaped w (expose_acquire fuel d w exp_info) := by
  refine Shaped.extend (Event.abortExposure (d.abortExposure w.dev).1)
    (hw_abortExposure d w).2 (by simp [hw_abortExposure, World.emit]) ?_ ?_
  · cases (d.abortExposure w.dev).1 <;> rfl
  unfold expose_acquire
  split
  · exact Shaped.nil rfl
  · dsimp only
    split
    · rename_i what hr
      have hr1 := await_eq_error _ _ hr
      refine Shaped.fail (Event.setSubframe (make_subframe d.sensor_info exp_info)
        (.raised what)) what ?_ rfl rfl
      simp only [hw_setSubframe, World.emit] at hr1 ⊢
      rw [hr1]
    · rename_i hr
      obtain ⟨st, le, hr1⟩ := await_eq_ok _ hr
      refine Shaped.extend (Event.setSubframe (make_subframe d.sensor_info exp_info)
        (.promise st le))
        (hw_setSubframe d (make_subframe d.sensor_info exp_info) (hw_abortExposure d w).2).2
        ?_ rfl ?_
      · simp only [hw_setSubframe, World.emit] at hr1 ⊢
        rw [hr1]
      split
      · rename_i what hr2
        have hr3 := await_eq_error _ _ hr2
        refine Shaped.fail (Event.startExposure (make_exposure_options d.sensor_info exp_info)
          (.raised what)) what ?_ rfl rfl
        simp only [hw_startExposure, World.emit] at hr3 ⊢
        rw [hr3]
      · rename_i hr2
        obtain ⟨st2, le2, hr3⟩ := await_eq_ok _ hr2
        refine Shaped.extend (Event.startExposure (make_exposure_options d.sensor_info exp_info)
          (.promise st2 le2))
          (hw_startExposure d (make_exposure_options d.sensor_info exp_info)
            (hw_setSubframe d (make_subframe d.sensor_info exp_info)
              (hw_abortExposure d w).2).2).2
          ?_ rfl ?_
        · simp only [hw_startExposure, World.emit] at hr3 ⊢
          rw [hr3]
        exact expose_poll_shaped d _ fuel _

/-- The capability check and set-up of one feature keeps the shape of `Shaped`. -/
theorem gate_shaped (d : Device σ) (c : Capability) (s : Setting)
    (msg : String) (w : World σ)
    (rest : World σ → Run (Result ExposeResult String) × World σ)
    (hrest : ∀ w1, Shaped w1 (rest w1)) :
    Shaped w
      (match await (hw_queryCapability d c w).1 with
        | .error what => (.thrown what, (hw_queryCapability d c w).2)
        | .ok () =>
          if (hw_getCapability d c (hw_queryCapability d c w).2).1 = false then
            (.returned (.Err msg), (hw_getCapability d c (hw_queryCapability d c w).2).2)
          else
            match await (hw_setSetting d s 1
                (hw_getCapability d c (hw_queryCapability d c w).2).2).1 with
            | .error what => (.returned (.Err what),
                (hw_setSetting d s 1 (hw_getCapability d c (hw_queryCapability d c w).2).2).2)
            | .ok () => rest
                (hw_setSetting d s 1 (hw_getCapability d c (hw_queryCapability d c w).2).2).2) := by
  refine Shaped.extend (Event.queryCapability c (hw_queryCapability d c w).1)
    (hw_queryCapability d c w).2 (by simp [hw_queryCapability, World.emit]) rfl ?_
  split
  · exact Shaped.nil rfl
  · refine Shaped.extend
      (Event.getCapability c (hw_getCapability d c (hw_queryCapability d c w).2).1)
      (hw_getCapability d c (hw_queryCapability d c w).2).2
      (by simp [hw_getCapability, World.emit]) rfl ?_
    split
    · exact Shaped.nil rfl
    · split
      · rename_i what hr
        have hr1 := await_eq_error _ _ hr
        refine Shaped.fail (Event.setSetting s 1 (.raised what)) what ?_ rfl rfl
        simp only [hw_setSetting, World.emit] at hr1 ⊢
        rw [hr1]
      · rename_i hr
        obtain ⟨st, le, hr1⟩ := await_eq_ok _ hr
        refine Shaped.extend (Event.setSetting s 1 (.promise st le))
          (hw_setSetting d s 1 (hw_getCapability d c (hw_queryCapability d c w).2).2).2
          ?_ rfl (hrest _)
        simp only [hw_setSetting, World.emit] at hr1 ⊢
        rw [hr1]

theorem expose_overscan_shaped (fuel : Nat) (d : Device σ) (w : World σ)
    (exp_info : ExposureInfo) : Shaped w (expose_overscan fuel d w exp_info) := by
  unfold expose_overscan
  split
  · exact gate_shaped d _ _ _ w (fun w1 => expose_acquire fuel d w1 exp_info)
      (fun w1 => expose_acquire_shaped fuel d w1 exp_info)
  · exact expose_acquire_shaped fuel d w exp_info

/-- Every run of `expose` has the shape of `Shaped`: no caught raise before the last
event, and a caught raise as last event comes with `Err` of its message. -/
theorem expose_shaped (fuel : Nat) (d : Device σ) (w : World σ) (exp_info : ExposureInfo) :
    Shaped w (expose fuel d w exp_info) := by
  unfold expose
  split
  · exact gate_shaped d _ _ _ w (fun w1 => expose_overscan fuel d w1 exp_info)
      (fun w1 => expose_overscan_shaped fuel d w1 exp_info)
  · exact expose_overscan_shaped fuel d w exp_info

/-- The run of `expose` on a camera whose `setSubframe` raises "usb timeout". -/
theorem mockSubframeRaises_run :
    expose 5 (mockDevice mockInfo true false (CallResult.raised "usb timeout") completed
        (some mockImage)) (World.start 0) mockRequest =
      (.returned (.Err "usb timeout"),
        ⟨0, [Event.queryCapability .eSupportsOnChipBinning completed,
          Event.getCapability .eSupportsOnChipBinning true,
          Event.setSetting .UseOnChipBinning 1 completed,
          Event.abortExposure completed,
          Event.setSubframe ⟨0, 0, 33, 100, 3, 1⟩ (CallResult.raised "usb timeout")]⟩) := rfl

/-- C11: if `setSetting`, `setSubframe`, `startExposure`, `queryStatus` or
`startDownload` raises an exception with message `m` during `expose`, then `expose`
returns `Err(m)` with `m` unchanged, the raising call is the last event of the log (no
hardware call follows it), no earlier event of the log is a raising call of one of
these commands, and the raising call occurs once in the log (it is not retried). -/
theorem hardware_exception_passed_through (fuel : Nat) (d : Device σ) (s : σ)
    (exp_info : ExposureInfo) (e : Event) (m : String)
    (he : e ∈ (expose fuel d (World.start s) exp_info).2.log)
    (hm : e.caughtRaise = some m) :
    (expose fuel d (World.start s) exp_info).1 = .returned (.Err m) ∧
      (∃ pre, (expose fuel d (World.start s) exp_info).2.log = pre ++ [e] ∧
        ∀ x ∈ pre, x.caughtRaise = none) ∧
      (expose fuel d (World.start s) exp_info).2.log.count e = 1 := by
  obtain ⟨evs, hlog, h⟩ := expose_shaped fuel d (World.start s) exp_info
  have hlog2 : (expose fuel d (World.start s) exp_info).2.log = evs := by
    rw [hlog]
    rfl
  rw [hlog2] at he ⊢
  rcases h with h | ⟨pre, x, what, hevs, hpre, hx, hres⟩
  · rw [h e he] at hm
    exact absurd hm (by simp)
  · subst hevs
    have hnot : e ∉ pre := by
      intro hin
      rw [hpre e hin] at hm
      exact absurd hm (by simp)
    rcases List.mem_append.1 he with he | he
    · exact absurd he hnot
    · rw [List.mem_singleton] at he
      subst he
      rw [hx] at hm
      simp only [Option.some.injEq] at hm
      subst hm
      refine ⟨hres, ⟨pre, rfl, hpre⟩, ?_⟩
      rw [List.count_append, List.count_eq_zero_of_not_mem hnot]
      simp

theorem hardware_exception_passed_through_witness :
    (Event.setSubframe ⟨0, 0, 33, 100, 3, 1⟩ (CallResult.raised "usb timeout") ∈
          (expose 5 (mockDevice mockInfo true false (CallResult.raised "usb timeout") completed
            (some mockImage)) (World.start 0) mockRequest).2.log ∧
        (Event.setSubframe ⟨0, 0, 33, 100, 3, 1⟩ (CallResult.raised "usb timeout")).caughtRaise =
          some "usb timeout") ∧
      (expose 5 (mockDevice mockInfo true false (CallResult.raised "usb timeout") completed
          (some mockImage)) (World.start 0) mockRequest).1 = .returned (.Err "usb timeout") :=
  ⟨⟨by simp [mockSubframeRaises_run], rfl⟩,
    (hardware_exception_passed_through 5
      (mockDevice mockInfo true false (CallResult.raised "usb timeout") completed (some mockImage))
      0 mockRequest (Event.setSubframe ⟨0, 0, 33, 100, 3, 1⟩ (CallResult.raised "usb timeout"))
      "usb timeout" (by simp [mockSubframeRaises_run]) rfl).1⟩

/-! ## Runs do not depend on the log they extend -/

theorem expose_acquire_eq (fuel : Nat) (d : Device σ) (w : World σ) (exp_info : ExposureInfo) :
    expose_acquire fuel d w exp_info =
      expose_after_abort fuel d (hw_abortExposure d w).2 exp_info := rfl

theorem FramedAt.ends {f : World σ → Run (Result ExposeResult String) × World σ} {s : σ}
    (out : Run (Result ExposeResult String)) (s1 : σ) (evs : List Event)
    (h : ∀ l, f ⟨s, l⟩ = (out, ⟨s1, l ++ evs⟩)) : FramedAt f s := by
  intro l
  rw [h l, h []]
  simp

theorem FramedAt.after {f : World σ → Run (Result ExposeResult String) × World σ} {s : σ}
    (g : World σ → Run (Result ExposeResult String) × World σ) (s1 : σ) (evs : List Event)
    (h : ∀ l, f ⟨s, l⟩ = g ⟨s1, l ++ evs⟩) (hg : FramedAt g s1) : FramedAt f s := by
  intro l
  rw [h l, h [], hg (l ++ evs), hg ([] ++ evs)]
  simp

theorem expose_download_framed (d : Device σ) (opts : TExposureOptions) (s : σ) :
    FramedAt (fun w => expose_download d w opts) s := by
  cases hr : (d.startDownload s).1 with
  | raised what =>
    exact FramedAt.ends (.returned (.Err what)) (d.startDownload s).2
      [Event.startDownload (.raised what)] (fun l => by
        simp [expose_download, hw_startDownload, World.emit, await, hr])
  | promise st le =>
    cases hg : (d.getImage (d.startDownload s).2).1 with
    | none =>
      exact FramedAt.ends (.returned (.Err msg_no_image)) (d.getImage (d.startDownload s).2).2
        [Event.startDownload (.promise st le), Event.getImage true] (fun l => by
          simp [expose_download, hw_startDownload, hw_getImage, World.emit, await, hr, hg])
    | some image =>
      exact FramedAt.ends (.returned (.Ok (make_result image opts)))
        (d.getImage (d.startDownload s).2).2
        [Event.startDownload (.promise st le), Event.getImage false, Event.getBufferData,
          Event.getBufferLength, Event.getMetadata] (fun l => by
          simp [expose_download, hw_startDownload, hw_getImage, World.emit, World.readImage,
            await, hr, hg])

/-- The readiness check answers the same whatever the log, and appends one event. -/
theorem image_is_ready_framed (d : Device σ) (s : σ) :
    ∃ x, ∀ l, image_is_ready d ⟨s, l⟩ =
      (x, ⟨(d.queryStatus s).2, l ++ [Event.queryStatus (d.queryStatus s).1]⟩) := by
  cases hq : (d.queryStatus s).1 with
  | raised what =>
    exact ⟨.error what, fun l => by simp [image_is_ready, hw_queryStatus, World.emit, await, hq]⟩
  | promise st le =>
    exact ⟨_, fun l => by simp [image_is_ready, hw_queryStatus, World.emit, await, hq]; rfl⟩

theorem expose_poll_framed (d : Device σ) (opts : TExposureOptions) (fuel : Nat) (s : σ) :
    FramedAt (fun w => expose_poll d opts fuel w) s := by
  induction fuel generalizing s with
  | zero => exact FramedAt.ends .polling s [] (fun l => by simp [expose_poll])
  | succ n ih =>
    obtain ⟨x, hx⟩ := image_is_ready_framed d s
    cases x with
    | error what =>
      exact FramedAt.ends (.returned (.Err what)) (d.queryStatus s).2
        [Event.queryStatus (d.queryStatus s).1] (fun l => by simp only [expose_poll, hx l])
    | ok b =>
      cases b with
      | true =>
        exact FramedAt.after (fun w => expose_download d w opts) (d.queryStatus s).2
          [Event.queryStatus (d.queryStatus s).1] (fun l => by simp only [expose_poll, hx l])
          (expose_download_framed d opts _)
      | false =>
        exact FramedAt.after (fun w => expose_poll d opts n w) (d.queryStatus s).2
          [Event.queryStatus (d.queryStatus s).1] (fun l => by simp only [expose_poll, hx l])
          (ih _)

theorem expose_after_abort_framed (fuel : Nat) (d : Device σ) (exp_info : ExposureInfo) (s : σ) :
    FramedAt (fun w => expose_after_abort fuel d w exp_info) s := by
  by_cases hz : to_unsigned exp_info.bin_x = 0 ∨ to_unsigned exp_info.bin_y = 0
  · exact FramedAt.ends .undefined s [] (fun l => by simp [expose_after_abort, hz])
  · cases h1 : (d.setSubframe s (make_subframe d.sensor_info exp_info)).1 with
    | raised what =>
      exact FramedAt.ends (.returned (.Err what))
        (d.setSubframe s (make_subframe d.sensor_info exp_info)).2
        [Event.setSubframe (make_subframe d.sensor_info exp_info) (.raised what)] (fun l => by
          simp [expose_after_abort, hz, hw_setSubframe, World.emit, await, h1])
    | promise st le =>
      cases h2 : (d.startExposure (d.setSubframe s (make_subframe d.sensor_info exp_info)).2
          (make_exposure_options d.sensor_info exp_info)).1 with
      | raised what =>
        exact FramedAt.ends (.returned (.Err what))
          (d.startExposure (d.setSubframe s (make_subframe d.sensor_info exp_info)).2
            (make_exposure_options d.sensor_info exp_info)).2
          [Event.setSubframe (make_subframe d.sensor_info exp_info) (.promise st le),
            Event.startExposure (make_exposure_options d.sensor_info exp_info) (.raised what)]
          (fun l => by
            simp [expose_after_abort, hz, hw_setSubframe, hw_startExposure, World.emit, await,
              h1, h2])
      | promise st2 le2 =>
        exact FramedAt.after
          (fun w => expose_poll d (make_exposure_options d.sensor_info exp_info) fuel w)
          (d.startExposure (d.setSubframe s (make_subframe d.sensor_info exp_info)).2
            (make_exposure_options d.sensor_info exp_info)).2
          [Event.setSubframe (make_subframe d.sensor_info exp_info) (.promise st le),
            Event.startExposure (make_exposure_options d.sensor_info exp_info)
              (.promise st2 le2)]
          (fun l => by
            simp [expose_after_abort, hz, hw_setSubframe, hw_startExposure, World.emit, await,
              h1, h2])
          (expose_poll_framed d _ fuel _)

theorem expose_acquire_framed (fuel : Nat) (d : Device σ) (exp_info : ExposureInfo) (s : σ) :
    FramedAt (fun w => expose_acquire fuel d w exp_info) s :=
  FramedAt.after (fun w => expose_after_abort fuel d w exp_info) (d.abortExposure s).2
    [Event.abortExposure (d.abortExposure s).1] (fun _ => rfl)
    (expose_after_abort_framed fuel d exp_info _)

/-- The capability check and set-up of one feature does not depend on the log. -/
theorem gate_framed (d : Device σ) (c : Capability) (st : Setting) (msg : String)
    (rest : World σ → Run (Result ExposeResult String) × World σ)
    (hrest : ∀ s1, FramedAt rest s1) (s : σ) :
    FramedAt (fun w =>
      match await (hw_queryCapability d c w).1 with
        | .error what => (.thrown what, (hw_queryCapability d c w).2)
        | .ok () =>
          if (hw_getCapability d c (hw_queryCapability d c w).2).1 = false then
            (.returned (.Err msg), (hw_getCapability d c (hw_queryCapability d c w).2).2)
          else
            match await (hw_setSetting d st 1
                (hw_getCapability d c (hw_queryCapability d c w).2).2).1 with
            | .error what => (.returned (.Err what),
                (hw_setSetting d st 1 (hw_getCapability d c (hw_queryCapability d c w).2).2).2)
            | .ok () => rest
                (hw_setSetting d st 1 (hw_getCapability d c (hw_queryCapability d c w).2).2).2)
      s := by
  cases hq : (d.queryCapability s c).1 with
  | raised what =>
    exact FramedAt.ends (.thrown what) (d.queryCapability s c).2
      [Event.queryCapability c (.raised what)] (fun l => by
        simp [hw_queryCapability, World.emit, await, hq])
  | promise s1 l1 =>
    cases hc : d.getCapability (d.queryCapability s c).2 c with
    | false =>
      exact FramedAt.ends (.returned (.Err msg)) (d.queryCapability s c).2
        [Event.queryCapability c (.promise s1 l1), Event.getCapability c false] (fun l => by
          simp [hw_queryCapability, hw_getCapability, World.emit, await, hq, hc])
    | true =>
      cases hs : (d.setSetting (d.queryCapability s c).2 st 1).1 with
      | raised what =>
        exact FramedAt.ends (.returned (.Err what)) (d.setSetting (d.queryCapability s c).2 st 1).2
          [Event.queryCapability c (.promise s1 l1), Event.getCapability c true,
            Event.setSetting st 1 (.raised what)] (fun l => by
            simp [hw_queryCapability, hw_getCapability, hw_setSetting, World.emit, await, hq,
              hc, hs])
      | promise s2 l2 =>
        exact FramedAt.after rest (d.setSetting (d.queryCapability s c).2 st 1).2
          [Event.queryCapability c (.promise s1 l1), Event.getCapability c true,
            Event.setSetting st 1 (.promise s2 l2)] (fun l => by
            simp [hw_queryCapability, hw_getCapability, hw_setSetting, World.emit, await, hq,
              hc, hs])
          (hrest _)

theorem expose_overscan_framed (fuel : Nat) (d : Device σ) (exp_info : ExposureInfo) (s : σ) :
    FramedAt (fun w => expose_overscan fuel d w exp_info) s := by
  unfold expose_overscan
  by_cases h : exp_info.overscan = 1
  · simp only [if_pos h]
    exact gate_framed d _ _ _ (fun w => expose_acquire fuel d w exp_info)
      (fun s1 => expose_acquire_framed fuel d exp_info s1) s
  · simp only [if_neg h]
    exact expose_acquire_framed fuel d exp_info s

/-- A run of `expose` does not depend on the log it extends: result, final hardware
state and appended events are those of the run from the empty log. -/
theorem expose_framed (fuel : Nat) (d : Device σ) (exp_info : ExposureInfo) (s : σ) :
    FramedAt (fun w => expose fuel d w exp_info) s := by
  unfold expose
  by_cases h : exp_info.bin_x ≠ 1 ∨ exp_info.bin_y ≠ 1
  · simp only [if_pos h]
    exact gate_framed d _ _ _ (fun w => expose_overscan fuel d w exp_info)
      (fun s1 => expose_overscan_framed fuel d exp_info s1) s
  · simp only [if_neg h]
    exact expose_overscan_framed fuel d exp_info s

/-! ## The answer of the abort is ignored -/

theorem AbortEquiv.refl (res : Run (Result ExposeResult String) × World σ) :
    AbortEquiv res res := ⟨rfl, rfl, rfl⟩

theorem expose_poll_with_abort_answer (d : Device σ) (answer : σ → CallResult)
    (opts : TExposureOptions) (fuel : Nat) (w : World σ) :
    expose_poll (with_abort_answer d answer) opts fuel w = expose_poll d opts fuel w := by
  induction fuel generalizing w with
  | zero => rfl
  | succ n ih =>
    have h1 : image_is_ready (with_abort_answer d answer) w = image_is_ready d w := rfl
    have h2 : ∀ w1, expose_download (with_abort_answer d answer) w1 opts =
        expose_download d w1 opts := fun _ => rfl
    simp only [expose_poll, h1, h2, ih]

theorem expose_after_abort_with_abort_answer (fuel : Nat) (d : Device σ)
    (answer : σ → CallResult) (w : World σ) (exp_info : ExposureInfo) :
    expose_after_abort fuel (with_abort_answer d answer) w exp_info =
      expose_after_abort fuel d w exp_info := by
  have h1 : ∀ sf w1, hw_setSubframe (with_abort_answer d answer) sf w1 = hw_setSubframe d sf w1 :=
    fun _ _ => rfl
  have h2 : ∀ o w1, hw_startExposure (with_abort_answer d answer) o w1 =
      hw_startExposure d o w1 := fun _ _ => rfl
  have h3 : (with_abort_answer d answer).sensor_info = d.sensor_info := rfl
  simp only [expose_after_abort, h1, h2, h3, expose_poll_with_abort_answer]

/-- From the abort on, the run is the same whatever the abort answers. -/
theorem expose_acquire_abort_equiv (fuel : Nat) (d : Device σ) (answer : σ → CallResult)
    (w : World σ) (exp_info : ExposureInfo) :
    AbortEquiv (expose_acquire fuel (with_abort_answer d answer) w exp_info)
      (expose_acquire fuel d w exp_info) := by
  rw [expose_acquire_eq, expose_acquire_eq, expose_after_abort_with_abort_answer]
  have hf := expose_after_abort_framed fuel d exp_info (d.abortExposure w.dev).2
  have h1 := hf (w.log ++ [Event.abortExposure (answer w.dev)])
  have h2 := hf (w.log ++ [Event.abortExposure (d.abortExposure w.dev).1])
  simp only at h1 h2
  have e1 : (hw_abortExposure (with_abort_answer d answer) w).2 =
      ⟨(d.abortExposure w.dev).2, w.log ++ [Event.abortExposure (answer w.dev)]⟩ := rfl
  have e2 : (hw_abortExposure d w).2 =
      ⟨(d.abortExposure w.dev).2, w.log ++ [Event.abortExposure (d.abortExposure w.dev).1]⟩ := rfl
  rw [e1, e2, h1, h2]
  refine ⟨rfl, rfl, ?_⟩
  simp [Event.maskAbort]

/-- The capability check and set-up of one feature keeps `AbortEquiv`. -/
theorem gate_abort_equiv (d : Device σ) (answer : σ → CallResult) (c : Capability)
    (st : Setting) (msg : String) (w : World σ)
    (rest1 rest2 : World σ → Run (Result ExposeResult String) × World σ)
    (hrest : ∀ w1, AbortEquiv (rest1 w1) (rest2 w1)) :
    AbortEquiv
      (match await (hw_queryCapability (with_abort_answer d answer) c w).1 with
        | .error what => (.thrown what, (hw_queryCapability (with_abort_answer d answer) c w).2)
        | .ok () =>
          if (hw_getCapability (with_abort_answer d answer) c
              (hw_queryCapability (with_abort_answer d answer) c w).2).1 = false then
            (.returned (.Err msg), (hw_getCapability (with_abort_answer d answer) c
              (hw_queryCapability (with_abort_answer d answer) c w).2).2)
          else
            match await (hw_setSetting (with_abort_answer d answer) st 1
                (hw_getCapability (with_abort_answer d answer) c
                  (hw_queryCapability (with_abort_answer d answer) c w).2).2).1 with
            | .error what => (.returned (.Err what),
                (hw_setSetting (with_abort_answer d answer) st 1
                  (hw_getCapability (with_abort_answer d answer) c
                    (hw_queryCapability (with_abort_answer d answer) c w).2).2).2)
            | .ok () => rest1
                (hw_setSetting (with_abort_answer d answer) st 1
                  (hw_getCapability (with_abort_answer d answer) c
                    (hw_queryCapability (with_abort_answer d answer) c w).2).2).2)
      (match await (hw_queryCapability d c w).1 with
        | .error what => (.thrown what, (hw_queryCapability d c w).2)
        | .ok () =>
          if (hw_getCapability d c (hw_queryCapability d c w).2).1 = false then
            (.returned (.Err msg), (hw_getCapability d c (hw_queryCapability d c w).2).2)
          else
            match await (hw_setSetting d st 1
                (hw_getCapability d c (hw_queryCapability d c w).2).2).1 with
            | .error what => (.returned (.Err what),
                (hw_setSetting d st 1 (hw_getCapability d c (hw_queryCapability d c w).2).2).2)
            | .ok () => rest2
                (hw_setSetting d st 1 (hw_getCapability d c (hw_queryCapability d c w).2).2).2) := by
  have h1 : ∀ w1, hw_queryCapability (with_abort_answer d answer) c w1 =
      hw_queryCapability d c w1 := fun _ => rfl
  have h2 : ∀ w1, hw_getCapability (with_abort_answer d answer) c w1 =
      hw_getCapability d c w1 := fun _ => rfl
  have h3 : ∀ w1, hw_setSetting (with_abort_answer d answer) st 1 w1 =
      hw_setSetting d st 1 w1 := fun _ => rfl
  simp only [h1, h2, h3]
  cases await (hw_queryCapability d c w).1 with
  | error what => exact AbortEquiv.refl _
  | ok u =>
    by_cases hc : (hw_getCapability d c (hw_queryCapability d c w).2).1 = false
    · simp only [if_pos hc]
      exact AbortEquiv.refl _
    · simp only [if_neg hc]
      cases await (hw_setSetting d st 1
          (hw_getCapability d c (hw_queryCapability d c w).2).2).1 with
      | error what => exact AbortEquiv.refl _
      | ok u2 => exact hrest _

theorem expose_overscan_abort_equiv (fuel : Nat) (d : Device σ) (answer : σ → CallResult)
    (w : World σ) (exp_info : ExposureInfo) :
    AbortEquiv (expose_overscan fuel (with_abort_answer d answer) w exp_info)
      (expose_overscan fuel d w exp_info) := by
  unfold expose_overscan
  by_cases h : exp_info.overscan = 1
  · simp only [if_pos h]
    exact gate_abort_equiv d answer _ _ _ w
      (fun w1 => expose_acquire fuel (with_abort_answer d answer) w1 exp_info)
      (fun w1 => expose_acquire fuel d w1 exp_info)
      (fun w1 => expose_acquire_abort_equiv fuel d answer w1 exp_info)
  · simp only [if_neg h]
    exact expose_acquire_abort_equiv fuel d answer w exp_info

theorem expose_abort_equiv (fuel : Nat) (d : Device σ) (answer : σ → CallResult)
    (w : World σ) (exp_info : ExposureInfo) :
    AbortEquiv (expose fuel (with_abort_answer d answer) w exp_info)
      (expose fuel d w exp_info) := by
  unfold expose
  by_cases h : exp_info.bin_x ≠ 1 ∨ exp_info.bin_y ≠ 1
  · simp only [if_pos h]
    exact gate_abort_equiv d answer _ _ _ w
      (fun w1 => expose_overscan fuel (with_abort_answer d answer) w1 exp_info)
      (fun w1 => expose_overscan fuel d w1 exp_info)
      (fun w1 => expose_overscan_abort_equiv fuel d answer w1 exp_info)
  · simp only [if_neg h]
    exact expose_overscan_abort_equiv fuel d answer w exp_info

/-- C12: the outcome of the `abortExposure` of `expose` is ignored. For every request,
every camera and every answer the abort could give instead (a completed promise, a
failed one, an exception), with the hardware left in the same state, `expose` returns
the same result, leaves the hardware in the same state and issues the same calls with
the same answers; the logs differ only in what the `abortExposure` event records as
answer. -/
theorem abort_outcome_ignored (fuel : Nat) (d : Device σ) (answer : σ → CallResult) (s : σ)
    (exp_info : ExposureInfo) :
    (expose fuel (with_abort_answer d answer) (World.start s) exp_info).1 =
        (expose fuel d (World.start s) exp_info).1 ∧
      (expose fuel (with_abort_answer d answer) (World.start s) exp_info).2.dev =
        (expose fuel d (World.start s) exp_info).2.dev ∧
      (expose fuel (with_abort_answer d answer) (World.start s) exp_info).2.log.map
          Event.maskAbort =
        (expose fuel d (World.start s) exp_info).2.log.map Event.maskAbort :=
  expose_abort_equiv fuel d answer (World.start s) exp_info

/-! ## Redownload -/

/-- C13: for every request and hardware behaviour, the log of `redownload` holds no
capability query or read, no `setSetting`, `abortExposure`, `startExposure` or status
query; and when `redownload` returns `Ok`, the hardware calls it made are exactly
`setSubframe`, then `startDownload`, then `getImage`, each once and each completed,
followed by the three reads of the fetched image. -/
theorem redownload_commands (d : Device σ) (s : σ) (exp_info : ExposureInfo) :
    (∀ e ∈ (redownload d (World.start s) exp_info).2.log, e.isExposeOnly = false) ∧
      (∀ res, (redownload d (World.start s) exp_info).1 = .returned (.Ok res) →
        ∃ st le st2 le2, (redownload d (World.start s) exp_info).2.log =
          [Event.setSubframe (make_subframe d.sensor_info exp_info) (.promise st le),
            Event.startDownload (.promise st2 le2), Event.getImage false,
            Event.getBufferData, Event.getBufferLength, Event.getMetadata]) := by
  rcases redownload_cases d (World.start s) exp_info with ⟨hr, hl⟩ | ⟨what, hr, hl⟩ |
    ⟨st, le, what, hr, hl⟩ | ⟨st, le, st2, le2, hr, hl⟩ | ⟨st, le, st2, le2, image, hr, hl⟩
  · rw [hl, hr]
    simp [World.start]
  · rw [hl, hr]
    simp [World.start, Event.isExposeOnly]
  · rw [hl, hr]
    simp [World.start, Event.isExposeOnly]
  · rw [hl, hr]
    simp [World.start, Event.isExposeOnly]
  · rw [hl, hr]
    simp only [World.start, List.nil_append]
    refine ⟨by simp [Event.isExposeOnly], fun _ _ => ⟨st, le, st2, le2, rfl⟩⟩

/-- The run of `redownload` on `mockCamera` with `mockRequest`: result and log. -/
theorem mockCamera_redownload_run :
    redownload mockCamera (World.start 0) mockRequest =
      (.returned (.Ok (make_result mockImage (make_exposure_options mockInfo mockRequest))),
        ⟨0, [Event.setSubframe ⟨0, 0, 33, 100, 3, 1⟩ completed,
          Event.startDownload completed,
          Event.getImage false,
          Event.getBufferData, Event.getBufferLength, Event.getMetadata]⟩) := rfl

theorem redownload_commands_witness :
    (Event.startDownload completed ∈ (redownload mockCamera (World.start 0) mockRequest).2.log ∧
        (Event.startDownload completed).isExposeOnly = false) ∧
      ((redownload mockCamera (World.start 0) mockRequest).1 =
          .returned (.Ok (make_result mockImage (make_exposure_options mockInfo mockRequest))) ∧
        ∃ st le st2 le2, (redownload mockCamera (World.start 0) mockRequest).2.log =
          [Event.setSubframe (make_subframe mockCamera.sensor_info mockRequest) (.promise st le),
            Event.startDownload (.promise st2 le2), Event.getImage false,
            Event.getBufferData, Event.getBufferLength, Event.getMetadata]) :=
  ⟨⟨by simp [mockCamera_redownload_run],
      (redownload_commands mockCamera 0 mockRequest).1 _ (by simp [mockCamera_redownload_run])⟩,
    ⟨by rw [mockCamera_redownload_run],
      (redownload_commands mockCamera 0 mockRequest).2 _ (by rw [mockCamera_redownload_run])⟩⟩

/-! ## Execution of the steps of `save_image` -/

theorem print_fits_err_zero : print_fits_err 0 = none := rfl

theorem print_fits_err_of_ne_zero (status : Int) (h : status ≠ 0) :
    print_fits_err status = some status := by
  simp [print_fits_err, h]

/-- When every checked call succeeds and no step is undefined, the steps run to the
end: every call of the program is made, in order, and `status` is 0 after each. -/
theorem exec_all_succeed (lib : Storage φ) (prog : List Instr) (d : Disk φ)
    (hok : ∀ c, Instr.call c ∈ prog → ∀ fs, (lib.run c fs).1 = 0)
    (hdef : Instr.undefined ∉ prog) :
    ∃ recs : List CallRecord,
      exec lib prog 0 d =
        (.returned, ⟨(prog_calls prog).foldl (fun fs c => (lib.run c fs).2) d.fs,
          d.calls ++ recs⟩) ∧
      recs.map CallRecord.call = prog_calls prog ∧ ∀ r ∈ recs, r.status = 0 := by
  induction prog generalizing d with
  | nil => exact ⟨[], by simp [exec, prog_calls], rfl, by simp⟩
  | cons i rest ih =>
    have hok2 : ∀ c, Instr.call c ∈ rest → ∀ fs, (lib.run c fs).1 = 0 :=
      fun c hc => hok c (List.mem_cons_of_mem _ hc)
    have hdef2 : Instr.undefined ∉ rest := fun h => hdef (List.mem_cons_of_mem _ h)
    cases i with
    | call c =>
      have h0 : (lib.run c d.fs).1 = 0 := hok c (List.mem_cons_self _ _) d.fs
      obtain ⟨recs, hrun, hcalls, hst⟩ := ih
        ⟨(lib.run c d.fs).2, d.calls ++ [⟨c, (lib.run c d.fs).1, (lib.run c d.fs).1⟩]⟩
        hok2 hdef2
      refine ⟨⟨c, (lib.run c d.fs).1, (lib.run c d.fs).1⟩ :: recs, ?_, ?_, ?_⟩
      · simp only [exec, h0] at hrun ⊢
        rw [hrun]
        simp [prog_calls]
      · simp [prog_calls, hcalls]
      · intro r hr
        rcases List.mem_cons.1 hr with rfl | hr
        · exact h0
        · exact hst r hr
    | discard c =>
      obtain ⟨recs, hrun, hcalls, hst⟩ := ih
        ⟨(lib.run c d.fs).2, d.calls ++ [⟨c, (lib.run c d.fs).1, 0⟩]⟩ hok2 hdef2
      refine ⟨⟨c, (lib.run c d.fs).1, 0⟩ :: recs, ?_, ?_, ?_⟩
      · simp only [exec] at hrun ⊢
        rw [hrun]
        simp [prog_calls]
      · simp [prog_calls, hcalls]
      · intro r hr
        rcases List.mem_cons.1 hr with rfl | hr
        · rfl
        · exact hst r hr
    | check =>
      obtain ⟨recs, hrun, hcalls, hst⟩ := ih d hok2 hdef2
      exact ⟨recs, by simp only [exec, print_fits_err_zero, hrun, prog_calls], by
        simp [prog_calls, hcalls], hst⟩
    | undefined => exact absurd (List.mem_cons_self _ _) hdef

theorem CheckedRun.cons_zero {lib : Storage φ} {prog rest : List Instr} {d : Disk φ}
    (r0 : CallRecord) (d1 : Disk φ) (h0 : r0.status = 0)
    (hexec : exec lib prog 0 d = exec lib rest 0 d1)
    (hd1 : d1.calls = d.calls ++ [r0])
    (hcalls : prog_calls prog = r0.call :: prog_calls rest)
    (hdisc : ∀ c, c ∈ prog_discards rest → c ∈ prog_discards prog)
    (hkeep : r0.call ∉ prog_discards prog → r0.status = r0.reported)
    (h : CheckedRun lib rest d1) : CheckedRun lib prog d := by
  obtain ⟨recs, hlog, hbad, hkept, hpre⟩ := h
  refine ⟨r0 :: recs, ?_, ?_, ?_, ?_⟩
  · rw [hexec, hlog, hd1]
    simp
  · intro r hr hne
    rcases List.mem_cons.1 hr with rfl | hr
    · exact absurd h0 hne
    · obtain ⟨he, pre, hp⟩ := hbad r hr hne
      exact ⟨by rw [hexec]; exact he, r0 :: pre, by simp [hp]⟩
  · intro r hr hnd
    rcases List.mem_cons.1 hr with rfl | hr
    · exact hkeep hnd
    · exact hkept r hr (fun hc => hnd (hdisc _ hc))
  · rw [hcalls]
    simp only [List.map_cons]
    exact (List.prefix_cons_inj _).2 hpre

/-- Every run of steps in which each `call` is directly checked is a `CheckedRun`. -/
theorem exec_checked (lib : Storage φ) :
    ∀ (prog : List Instr) (d : Disk φ), wellChecked prog → CheckedRun lib prog d
  | [], d, _ => ⟨[], by simp [exec], by simp, by simp, by simp [prog_calls]⟩
  | .call c :: .check :: rest, d, h => by
    by_cases h0 : (lib.run c d.fs).1 = 0
    · refine CheckedRun.cons_zero ⟨c, (lib.run c d.fs).1, (lib.run c d.fs).1⟩
        ⟨(lib.run c d.fs).2, d.calls ++ [⟨c, (lib.run c d.fs).1, (lib.run c d.fs).1⟩]⟩
        h0 ?_ rfl rfl (fun _ hc => hc) (fun _ => rfl) (exec_checked lib rest _ h)
      simp only [exec, h0, print_fits_err_zero]
    · refine ⟨[⟨c, (lib.run c d.fs).1, (lib.run c d.fs).1⟩], ?_, ?_, ?_, ?_⟩
      · simp [exec, print_fits_err_of_ne_zero _ h0]
      · intro r hr _
        rw [List.mem_singleton] at hr
        subst hr
        exact ⟨by simp [exec, print_fits_err_of_ne_zero _ h0], [], rfl⟩
      · intro r hr _
        rw [List.mem_singleton] at hr
        subst hr
        rfl
      · simp [prog_calls]
  | .call _ :: [], _, h => absurd h (by simp [wellChecked])
  | .call _ :: .call _ :: _, _, h => absurd h (by simp [wellChecked])
  | .call _ :: .discard _ :: _, _, h => absurd h (by simp [wellChecked])
  | .call _ :: .undefined :: _, _, h => absurd h (by simp [wellChecked])
  | .discard c :: rest, d, h => by
    refine CheckedRun.cons_zero ⟨c, (lib.run c d.fs).1, 0⟩
      ⟨(lib.run c d.fs).2, d.calls ++ [⟨c, (lib.run c d.fs).1, 0⟩]⟩ rfl ?_ rfl rfl
      (fun x hx => List.mem_cons_of_mem _ hx) (fun hn => absurd (List.mem_cons_self _ _) hn)
      (exec_checked lib rest _ (by simpa [wellChecked] using h))
    simp only [exec]
  | .check :: rest, d, h => by
    obtain ⟨recs, hlog, hbad, hkept, hpre⟩ :=
      exec_checked lib rest d (by simpa [wellChecked] using h)
    refine ⟨recs, ?_, ?_, ?_, ?_⟩
    · simpa only [exec, print_fits_err_zero] using hlog
    · intro r hr hne
      simpa only [exec, print_fits_err_zero] using hbad r hr hne
    · intro r hr hnd
      exact hkept r hr hnd
    · simpa [prog_calls] using hpre
  | .undefined :: rest, d, _ =>
    ⟨[], by simp [exec], by simp, by simp, by simp⟩

/-! ## The steps of `save_image` -/

theorem prog_calls_append (p q : List Instr) :
    prog_calls (p ++ q) = prog_calls p ++ prog_calls q := by
  induction p with
  | nil => rfl
  | cons i rest ih => cases i <;> simp [prog_calls, ih]

theorem prog_discards_append (p q : List Instr) :
    prog_discards (p ++ q) = prog_discards p ++ prog_discards q := by
  induction p with
  | nil => rfl
  | cons i rest ih => cases i <;> simp [prog_discards, ih]

theorem extra_steps_cons (kv : String × String) (header_map : List (String × String)) :
    extra_steps (kv :: header_map) =
      Instr.call (.update_key kv.1 (.str kv.2) "") :: Instr.check :: extra_steps header_map := by
  simp [extra_steps]

theorem prog_calls_extra_steps (header_map : List (String × String)) :
    prog_calls (extra_steps header_map) =
      header_map.map (fun kv => FileCall.update_key kv.1 (.str kv.2) "") := by
  induction header_map with
  | nil => rfl
  | cons kv rest ih => rw [extra_steps_cons]; simp [prog_calls, ih]

theorem prog_discards_extra_steps (header_map : List (String × String)) :
    prog_discards (extra_steps header_map) = [] := by
  induction header_map with
  | nil => rfl
  | cons kv rest ih => rw [extra_steps_cons]; simp [prog_discards, ih]

theorem wellChecked_extra_steps (header_map : List (String × String)) (q : List Instr)
    (hq : wellChecked q) : wellChecked (extra_steps header_map ++ q) := by
  induction header_map with
  | nil => exact hq
  | cons kv rest ih =>
    rw [extra_steps_cons]
    simpa [wellChecked] using ih

theorem call_mem_extra_steps (header_map : List (String × String)) (c : FileCall)
    (h : Instr.call c ∈ extra_steps header_map) :
    ∃ kv ∈ header_map, c = .update_key kv.1 (.str kv.2) "" := by
  induction header_map with
  | nil => simp [extra_steps] at h
  | cons kv rest ih =>
    rw [extra_steps_cons] at h
    simp only [List.mem_cons, Instr.call.injEq, reduceCtorEq, false_or] at h
    rcases h with h | h
    · exact ⟨kv, List.mem_cons_self _ _, h⟩
    · obtain ⟨kv2, hkv, hc⟩ := ih h
      exact ⟨kv2, List.mem_cons_of_mem _ hkv, hc⟩

theorem undefined_not_mem_extra_steps (header_map : List (String × String)) :
    Instr.undefined ∉ extra_steps header_map := by
  induction header_map with
  | nil => simp [extra_steps]
  | cons kv rest ih =>
    rw [extra_steps_cons]
    simpa using ih

/-- In `save_image` every storage call whose status is kept is directly checked. -/
theorem wellChecked_save_image (expres : ExposeResult) (serial filepath : String)
    (focus_pos : Int) (header_map : List (String × String)) :
    wellChecked (save_image_program expres serial filepath focus_pos header_map) := by
  unfold save_image_program
  cases expres.coolerinfo with
  | none => simp [save_image_head, wellChecked]
  | some ci =>
    simp only [save_image_head, save_image_tail, List.cons_append, List.nil_append,
      List.append_assoc, wellChecked]
    exact wellChecked_extra_steps header_map _ (by simp [wellChecked])

/-- The calls whose status `save_image` discards are `remove` and the `EGAIN` write. -/
theorem prog_discards_save_image (expres : ExposeResult) (serial filepath : String)
    (focus_pos : Int) (header_map : List (String × String)) :
    prog_discards (save_image_program expres serial filepath focus_pos header_map) =
      [.remove filepath, egain_call expres] := by
  unfold save_image_program
  cases expres.coolerinfo with
  | none => simp [save_image_head, prog_discards]
  | some ci =>
    simp [save_image_head, save_image_tail, prog_discards, prog_discards_append,
      prog_discards_extra_steps]

/-- The storage calls of `save_image`, when the cooler telemetry was assigned. -/
theorem prog_calls_save_image (expres : ExposeResult) (ci : CoolerInfo)
    (hci : expres.coolerinfo = some ci) (serial filepath : String)
    (focus_pos : Int) (header_map : List (String × String)) :
    prog_calls (save_image_program expres serial filepath focus_pos header_map) =
      save_image_calls expres ci serial filepath focus_pos header_map := by
  simp [save_image_program, hci, save_image_head, save_image_tail, prog_calls,
    prog_calls_append, prog_calls_extra_steps, save_image_calls]

/-! ## Writing the image file -/

/-- No checked call of `save_image` is the `EGAIN` write. -/
theorem call_ne_egain (expres : ExposeResult) (serial filepath : String) (focus_pos : Int)
    (header_map : List (String × String)) (c : FileCall)
    (h : Instr.call c ∈ save_image_program expres serial filepath focus_pos header_map) :
    c ≠ egain_call expres := by
  unfold save_image_program at h
  rw [List.mem_append] at h
  rcases h with h | h
  · simp only [save_image_head, List.mem_cons, Instr.call.injEq, reduceCtorEq, false_or,
      List.mem_singleton, List.not_mem_nil, or_false] at h
    rcases h with h | h | h | h | h | h | h | h <;> subst h <;>
      simp [egain_call, imagetyp_call]
  · cases hci : expres.coolerinfo with
    | none =>
      rw [hci] at h
      simp at h
    | some ci =>
      rw [hci] at h
      unfold save_image_tail at h
      rcases List.mem_append.1 h with h | h
      · rcases List.mem_append.1 h with h | h
        · simp only [List.mem_cons, Instr.call.injEq, reduceCtorEq, false_or,
            List.mem_singleton, List.not_mem_nil, or_false] at h
          rcases h with h | h | h | h <;> subst h <;> simp [egain_call]
        · obtain ⟨kv, _, hc⟩ := call_mem_extra_steps header_map c h
          subst hc
          simp [egain_call]
      · simp only [List.mem_cons, Instr.call.injEq, reduceCtorEq, false_or,
          List.mem_singleton, List.not_mem_nil, or_false] at h
        subst h
        simp [egain_call]

/-- When every step of `save_image` other than the `EGAIN` write succeeds, `save_image`
returns after making every call of its program, with `status` 0 after each. -/
theorem save_image_all_steps (lib : Storage φ) (fs : φ) (expres : ExposeResult)
    (ci : CoolerInfo) (serial filepath : String) (focus_pos : Int)
    (header_map : List (String × String))
    (hci : expres.coolerinfo = some ci)
    (hothers : ∀ c fs, c ≠ egain_call expres → (lib.run c fs).1 = 0) :
    (save_image lib (Disk.start fs) expres serial filepath focus_pos header_map).1 =
        .returned ∧
      (save_image lib (Disk.start fs) expres serial filepath focus_pos
          header_map).2.calls.map CallRecord.call =
        save_image_calls expres ci serial filepath focus_pos header_map ∧
      ∀ r ∈ (save_image lib (Disk.start fs) expres serial filepath focus_pos
          header_map).2.calls, r.status = 0 := by
  have hdef : Instr.undefined ∉
      save_image_program expres serial filepath focus_pos header_map := by
    simp [save_image_program, hci, save_image_head, save_image_tail,
      undefined_not_mem_extra_steps]
  obtain ⟨recs, hrun, hcalls, hst⟩ := exec_all_succeed lib
    (save_image_program expres serial filepath focus_pos header_map) (Disk.start fs)
    (fun c hc fs1 => hothers c fs1
      (call_ne_egain expres serial filepath focus_pos header_map c hc)) hdef
  unfold save_image
  rw [hrun]
  simp only [Disk.start, List.nil_append]
  exact ⟨trivial, by
    rw [hcalls, prog_calls_save_image expres ci hci], hst⟩

/-- C17: in `save_image`, when every step other than the `EGAIN` write succeeds, the
process is not ended whatever status the `EGAIN` write reports: `save_image` returns,
the variable `status` is 0 after every step (after the `EGAIN` write it has the value
it had before it), and every step is made, in particular `XBINNING`, `YBINNING`,
`IMAGETYP`, `CCD-TEMP`, `HSINKT`, `SERIALNO`, `FOCUSPOS`, every extra pair and the
close of the file. -/
theorem egain_failure_swallowed (lib : Storage φ) (fs : φ) (expres : ExposeResult)
    (ci : CoolerInfo) (serial filepath : String) (focus_pos : Int)
    (header_map : List (String × String))
    (hci : expres.coolerinfo = some ci)
    (hothers : ∀ c fs, c ≠ egain_call expres → (lib.run c fs).1 = 0) :
    (save_image lib (Disk.start fs) expres serial filepath focus_pos header_map).1 =
        .returned ∧
      (save_image lib (Disk.start fs) expres serial filepath focus_pos
          header_map).2.calls.map CallRecord.call =
        save_image_calls expres ci serial filepath focus_pos header_map ∧
      ∀ r ∈ (save_image lib (Disk.start fs) expres serial filepath focus_pos
          header_map).2.calls, r.status = 0 :=
  save_image_all_steps lib fs expres ci serial filepath focus_pos header_map hci hothers

theorem egain_failure_swallowed_witness :
    (mockResult.coolerinfo = some mockCooler ∧
        ∀ c fs, c ≠ egain_call mockResult → (mockEgainFails.run c fs).1 = 0) ∧
      (mockEgainFails.run (egain_call mockResult) ()).1 = 412 ∧
      (save_image mockEgainFails (Disk.start ()) mockResult "SN1" "/data/a.fits" (-1)
          [("OBSERVER", "RA")]).1 = .returned ∧
      (save_image mockEgainFails (Disk.start ()) mockResult "SN1" "/data/a.fits" (-1)
          [("OBSERVER", "RA")]).2.calls.map CallRecord.call =
        save_image_calls mockResult mockCooler "SN1" "/data/a.fits" (-1)
          [("OBSERVER", "RA")] ∧
      ∀ r ∈ (save_image mockEgainFails (Disk.start ()) mockResult "SN1" "/data/a.fits"
          (-1) [("OBSERVER", "RA")]).2.calls, r.status = 0 :=
  ⟨⟨rfl, fun c _ hc => by simp [mockEgainFails, mockStorage, hc]⟩,
    by simp [mockEgainFails, mockStorage],
    egain_failure_swallowed mockEgainFails () mockResult mockCooler "SN1" "/data/a.fits" (-1)
      [("OBSERVER", "RA")] rfl (fun c _ hc => by simp [mockEgainFails, mockStorage, hc])⟩

/-- C18: `print_fits_err` ends the process exactly when its argument is not 0, with
that argument as exit status; and in `save_image`, when a step other than `remove` and
the `EGAIN` write reports a non-zero status, the process ends by `exit` with that
status right after the step: the step is the last storage call made. -/
theorem write_error_exits (lib : Storage φ) (fs : φ) (expres : ExposeResult)
    (serial filepath : String) (focus_pos : Int) (header_map : List (String × String)) :
    (∀ status : Int, (print_fits_err status ≠ none ↔ status ≠ 0) ∧
        ∀ code, print_fits_err status = some code → code = status) ∧
      ∀ r ∈ (save_image lib (Disk.start fs) expres serial filepath focus_pos
          header_map).2.calls,
        r.call ≠ .remove filepath → r.call ≠ egain_call expres → r.reported ≠ 0 →
        (save_image lib (Disk.start fs) expres serial filepath focus_pos header_map).1 =
            .exited r.reported ∧
          ∃ pre, (save_image lib (Disk.start fs) expres serial filepath focus_pos
            header_map).2.calls = pre ++ [r] := by
  refine ⟨?_, ?_⟩
  · intro status
    by_cases h : status = 0
    · subst h
      simp [print_fits_err]
    · simp [print_fits_err, h]
  · obtain ⟨recs, hlog, hbad, hkept, _⟩ := exec_checked lib
      (save_image_program expres serial filepath focus_pos header_map) (Disk.start fs)
      (wellChecked_save_image expres serial filepath focus_pos header_map)
    unfold save_image
    rw [hlog]
    simp only [Disk.start, List.nil_append]
    intro r hr h1 h2 h3
    have hk : r.status = r.reported := hkept r hr (by
      rw [prog_discards_save_image]
      simp [h1, h2])
    rw [← hk] at h3 ⊢
    exact hbad r hr h3

/-- The run of `save_image` on a storage layer that fails to create the image. -/
theorem mockCreateImgFails_run :
    save_image mockCreateImgFails (Disk.start ()) mockResult "SN1" "/data/a.fits" (-1) [] =
      (.exited 211,
        ⟨(), [⟨.remove "/data/a.fits", 0, 0⟩, ⟨.create_file "/data/a.fits", 0, 0⟩,
          ⟨.create_img 2 2, 211, 211⟩]⟩) := rfl

theorem write_error_exits_witness :
    ((⟨.create_img 2 2, 211, 211⟩ : CallRecord) ∈
          (save_image mockCreateImgFails (Disk.start ()) mockResult "SN1" "/data/a.fits" (-1)
            []).2.calls ∧
        FileCall.create_img 2 2 ≠ .remove "/data/a.fits" ∧
        FileCall.create_img 2 2 ≠ egain_call mockResult ∧ (211 : Int) ≠ 0) ∧
      (save_image mockCreateImgFails (Disk.start ()) mockResult "SN1" "/data/a.fits" (-1)
          []).1 = .exited 211 ∧
      ∃ pre, (save_image mockCreateImgFails (Disk.start ()) mockResult "SN1" "/data/a.fits"
          (-1) []).2.calls = pre ++ [⟨.create_img 2 2, 211, 211⟩] :=
  ⟨⟨by simp [mockCreateImgFails_run], by simp, by simp [egain_call], by decide⟩,
    (write_error_exits mockCreateImgFails () mockResult "SN1" "/data/a.fits" (-1) []).2
      ⟨.create_img 2 2, 211, 211⟩ (by simp [mockCreateImgFails_run]) (by simp)
      (by simp [egain_call]) (by decide)⟩

/-- The calls that `save_image` has made are calls of its program. -/
theorem save_image_calls_mem (lib : Storage φ) (fs : φ) (expres : ExposeResult)
    (ci : CoolerInfo) (hci : expres.coolerinfo = some ci) (serial filepath : String)
    (focus_pos : Int) (header_map : List (String × String)) (r : CallRecord)
    (hr : r ∈ (save_image lib (Disk.start fs) expres serial filepath focus_pos
      header_map).2.calls) :
    r.call ∈ save_image_calls expres ci serial filepath focus_pos header_map := by
  obtain ⟨recs, hlog, _, _, hpre⟩ := exec_checked lib
    (save_image_program expres serial filepath focus_pos header_map) (Disk.start fs)
    (wellChecked_save_image expres serial filepath focus_pos header_map)
  unfold save_image at hr
  rw [hlog] at hr
  simp only [Disk.start, List.nil_append] at hr
  rw [prog_calls_save_image expres ci hci] at hpre
  exact hpre.subset (List.mem_map_of_mem _ hr)

/-- The only call of `save_image` that writes `IMAGETYP` with the comment
"Type of image" carries the frame type of the result. -/
theorem imagetyp_mem_calls (expres : ExposeResult) (ci : CoolerInfo) (serial filepath : String)
    (focus_pos : Int) (header_map : List (String × String)) (v : HeaderValue)
    (h : FileCall.update_key "IMAGETYP" v "Type of image" ∈
      save_image_calls expres ci serial filepath focus_pos header_map) :
    v = .str (frametype expres.expinfo) := by
  simp [save_image_calls, egain_call, imagetyp_call] at h
  exact h

/-- C20: for every frame kind, the `IMAGETYP` label that `save_image` writes for the
result of a successful `expose` (with the cooler telemetry assigned) is "Dark Frame"
when the requested kind is Dark and "Light Frame" when it is Light, Flat or Bias. The
label is one of these two strings and is "Light Frame" exactly when the light-frame
flag is set; and when every step other than the `EGAIN` write succeeds, the label is
written. -/
theorem imagetyp_label (fuel : Nat) (d : Device σ) (s : σ) (exp_info : ExposureInfo)
    (res : ExposeResult)
    (hres : (expose fuel d (World.start s) exp_info).1 = .returned (.Ok res))
    (lib : Storage φ) (fs : φ) (ci : CoolerInfo) (serial filepath : String) (focus_pos : Int)
    (header_map : List (String × String)) :
    (frametype res.expinfo =
        match exp_info.imagetype with
        | .Dark => "Dark Frame"
        | .Light => "Light Frame"
        | .Flat => "Light Frame"
        | .Bias => "Light Frame") ∧
      (∀ r ∈ (save_image lib (Disk.start fs) { res with coolerinfo := some ci } serial
          filepath focus_pos header_map).2.calls,
        ∀ v, r.call = .update_key "IMAGETYP" v "Type of image" →
          v = .str (frametype res.expinfo)) ∧
      ((∀ c fs1, c ≠ egain_call { res with coolerinfo := some ci } →
          (lib.run c fs1).1 = 0) →
        FileCall.update_key "IMAGETYP" (.str (frametype res.expinfo)) "Type of image" ∈
          (save_image lib (Disk.start fs) { res with coolerinfo := some ci } serial
            filepath focus_pos header_map).2.calls.map CallRecord.call) ∧
      (∀ o : TExposureOptions, (frametype o = "Light Frame" ∨ frametype o = "Dark Frame") ∧
        (frametype o = "Light Frame" ↔ o.isLightFrame = true)) := by
  refine ⟨?_, ?_, ?_, ?_⟩
  · rw [expose_ok_expinfo fuel d _ exp_info res hres]
    cases h : exp_info.imagetype <;> simp [frametype, make_exposure_options, h]
  · intro r hr v hv
    have hm := save_image_calls_mem lib fs { res with coolerinfo := some ci } ci rfl serial
      filepath focus_pos header_map r hr
    rw [hv] at hm
    exact imagetyp_mem_calls _ ci serial filepath focus_pos header_map v hm
  · intro hothers
    rw [(save_image_all_steps lib fs { res with coolerinfo := some ci } ci serial
      filepath focus_pos header_map rfl hothers).2.1]
    simp [save_image_calls, imagetyp_call]
  · intro o
    cases h : o.isLightFrame <;> simp [frametype, h]

theorem imagetyp_label_witness :
    ((expose 5 mockCamera (World.start 0) mockRequest).1 =
          .returned (.Ok (make_result mockImage (make_exposure_options mockInfo mockRequest))) ∧
        (⟨.update_key "IMAGETYP" (.str "Light Frame") "Type of image", 0, 0⟩ : CallRecord) ∈
          (save_image mockEgainFails (Disk.start ()) mockResult "SN1" "/data/a.fits" (-1)
            []).2.calls ∧
        ∀ c fs1, c ≠ egain_call mockResult → (mockEgainFails.run c fs1).1 = 0) ∧
      frametype (make_result mockImage (make_exposure_options mockInfo mockRequest)).expinfo =
        "Light Frame" ∧
      HeaderValue.str "Light Frame" =
        .str (frametype
          (make_result mockImage (make_exposure_options mockInfo mockRequest)).expinfo) ∧
      FileCall.update_key "IMAGETYP"
          (.str (frametype
            (make_result mockImage (make_exposure_options mockInfo mockRequest)).expinfo))
          "Type of image" ∈
        (save_image mockEgainFails (Disk.start ()) mockResult "SN1" "/data/a.fits" (-1)
          []).2.calls.map CallRecord.call :=
  ⟨⟨by rw [mockCamera_run], by decide,
      fun c _ hc => by simp [mockEgainFails, mockStorage, hc]⟩,
    (imagetyp_label 5 mockCamera 0 mockRequest _ (by rw [mockCamera_run]) mockEgainFails ()
      mockCooler "SN1" "/data/a.fits" (-1) []).1,
    (imagetyp_label 5 mockCamera 0 mockRequest _ (by rw [mockCamera_run]) mockEgainFails ()
      mockCooler "SN1" "/data/a.fits" (-1) []).2.1
      ⟨.update_key "IMAGETYP" (.str "Light Frame") "Type of image", 0, 0⟩ (by decide) _ rfl,
    (imagetyp_label 5 mockCamera 0 mockRequest _ (by rw [mockCamera_run]) mockEgainFails ()
      mockCooler "SN1" "/data/a.fits" (-1) []).2.2.1
      (fun c _ hc => by
        have h2 : c ≠ egain_call mockResult := hc
        simp [mockEgainFails, mockStorage, h2])⟩

/-! ## Reading the header back -/

theorem header_read_update_same (k : String) (v : HeaderValue) (h : Header) :
    header_read k (header_update k v h) = some v := by
  induction h with
  | nil => simp [header_update, header_read]
  | cons kv rest ih =>
    obtain ⟨k1, v1⟩ := kv
    by_cases hk : k1 = k
    · simp [header_update, header_read, hk]
    · simp [header_update, header_read, hk, ih]

theorem header_read_update_other (k k2 : String) (v : HeaderValue) (h : Header)
    (hne : k ≠ k2) : header_read k2 (header_update k v h) = header_read k2 h := by
  induction h with
  | nil => simp [header_update, header_read, hne]
  | cons kv rest ih =>
    obtain ⟨k1, v1⟩ := kv
    by_cases hk : k1 = k
    · subst hk
      simp [header_update, header_read, hne]
    · simp only [header_update, hk, if_false, header_read, ih]

/-- Reading a key after a sequence of header writes gives the last value written under
that key. -/
theorem header_read_foldl (k : String) (ws : List (String × HeaderValue)) (h : Header) :
    header_read k (ws.foldl (fun hd kv => header_update kv.1 kv.2 hd) h) =
      last_write k ws (header_read k h) := by
  induction ws generalizing h with
  | nil => rfl
  | cons kv rest ih =>
    simp only [List.foldl_cons, last_write]
    rw [ih]
    by_cases hk : kv.1 = k
    · subst hk
      simp [header_read_update_same, last_write]
    · simp [header_read_update_other _ _ _ _ hk, hk, last_write]

theorem last_write_append (k : String) (ws1 ws2 : List (String × HeaderValue))
    (init : Option HeaderValue) :
    last_write k (ws1 ++ ws2) init = last_write k ws2 (last_write k ws1 init) := by
  simp [last_write, List.foldl_append]

theorem last_write_not_mem (k : String) (ws : List (String × HeaderValue))
    (init : Option HeaderValue) (h : k ∉ ws.map Prod.fst) : last_write k ws init = init := by
  induction ws generalizing init with
  | nil => rfl
  | cons kv rest ih =>
    simp only [List.map_cons, List.mem_cons, not_or] at h
    simp only [last_write, List.foldl_cons, if_neg (Ne.symm h.1)]
    exact ih init h.2

theorem last_write_mem (k : String) (v : HeaderValue) (ws : List (String × HeaderValue))
    (init : Option HeaderValue) (hnodup : (ws.map Prod.fst).Nodup) (h : (k, v) ∈ ws) :
    last_write k ws init = some v := by
  induction ws generalizing init with
  | nil => simp at h
  | cons kv rest ih =>
    simp only [List.map_cons, List.nodup_cons] at hnodup
    rcases List.mem_cons.1 h with h | h
    · subst h
      simp only [last_write, List.foldl_cons, if_true]
      exact last_write_not_mem k rest (some v) hnodup.1
    · have hne : kv.1 ≠ k := by
        intro he
        apply hnodup.1
        rw [he]
        exact List.mem_map_of_mem Prod.fst h
      simp only [last_write, List.foldl_cons, if_neg hne]
      exact ih init hnodup.2 h

/-- When every step of `save_image` other than the `EGAIN` write succeeds, the file
system at the end is the one its calls produce in order. -/
theorem save_image_final_fs (lib : Storage φ) (fs : φ) (expres : ExposeResult)
    (ci : CoolerInfo) (serial filepath : String) (focus_pos : Int)
    (header_map : List (String × String))
    (hci : expres.coolerinfo = some ci)
    (hothers : ∀ c fs, c ≠ egain_call expres → (lib.run c fs).1 = 0) :
    (save_image lib (Disk.start fs) expres serial filepath focus_pos header_map).2.fs =
      (save_image_calls expres ci serial filepath focus_pos header_map).foldl
        (fun fs c => (lib.run c fs).2) fs := by
  have hdef : Instr.undefined ∉
      save_image_program expres serial filepath focus_pos header_map := by
    simp [save_image_program, hci, save_image_head, save_image_tail,
      undefined_not_mem_extra_steps]
  obtain ⟨recs, hrun, _, _⟩ := exec_all_succeed lib
    (save_image_program expres serial filepath focus_pos header_map) (Disk.start fs)
    (fun c hc fs1 => hothers c fs1
      (call_ne_egain expres serial filepath focus_pos header_map c hc)) hdef
  unfold save_image
  rw [hrun, prog_calls_save_image expres ci hci]
  rfl

/-- Calls that neither delete nor create a file write into the header of the file
created last. -/
theorem ref_apply_foldl_writes (cs : List FileCall) (path : String) (h : Header)
    (rest : RefFs) (hcs : ∀ c ∈ cs, c.keepsFiles = true) :
    cs.foldl (fun fs c => ref_apply c fs) ((path, h) :: rest) =
      (path, (cs.filterMap header_write).foldl (fun hd kv => header_update kv.1 kv.2 hd) h) ::
        rest := by
  induction cs generalizing h with
  | nil => rfl
  | cons c tl ih =>
    have htl : ∀ c ∈ tl, c.keepsFiles = true := fun x hx => hcs x (List.mem_cons_of_mem _ hx)
    have hc := hcs c (List.mem_cons_self _ _)
    cases c with
    | remove p => simp [FileCall.keepsFiles] at hc
    | create_file p => simp [FileCall.keepsFiles] at hc
    | create_img wd ht => simpa [ref_apply, header_write] using ih h htl
    | write_img n b => simpa [ref_apply, header_write] using ih h htl
    | write_date => simpa [ref_apply, header_write] using ih _ htl
    | update_key k v cm => simpa [ref_apply, header_write] using ih _ htl
    | close_file => simpa [ref_apply, header_write] using ih h htl

/-- On the reference file system, `save_image` leaves at `filepath` a file whose header
is the result of its header writes, in order, on an empty header. -/
theorem save_image_ref_header (fs : RefFs) (expres : ExposeResult) (ci : CoolerInfo)
    (serial filepath : String) (focus_pos : Int) (header_map : List (String × String))
    (hci : expres.coolerinfo = some ci) :
    (save_image refStorage (Disk.start fs) expres serial filepath focus_pos header_map).2.fs =
      (filepath, (save_image_writes expres ci serial focus_pos header_map).foldl
          (fun hd kv => header_update kv.1 kv.2 hd) []) ::
        fs.filter (fun f => f.1 ≠ filepath) := by
  rw [save_image_final_fs refStorage fs expres ci serial filepath focus_pos header_map hci
    (fun _ _ _ => rfl)]
  have hfilter : List.filter (fun f => decide (f.1 ≠ filepath))
      (List.filter (fun f => decide (f.1 ≠ filepath)) fs) =
      List.filter (fun f => decide (f.1 ≠ filepath)) fs := by
    rw [List.filter_filter]
    simp
  have hstart : (save_image_calls expres ci serial filepath focus_pos header_map).foldl
      (fun fs c => (refStorage.run c fs).2) fs =
      ((save_image_calls expres ci serial filepath focus_pos header_map).drop 2).foldl
        (fun fs c => ref_apply c fs)
        ((filepath, []) :: List.filter (fun f => decide (f.1 ≠ filepath))
          (List.filter (fun f => decide (f.1 ≠ filepath)) fs)) := rfl
  rw [hstart, hfilter, ref_apply_foldl_writes]
  · have hw : ((save_image_calls expres ci serial filepath focus_pos header_map).drop
        2).filterMap header_write =
        save_image_writes expres ci serial focus_pos header_map := by
      simp [save_image_calls, header_write, egain_call, imagetyp_call, save_image_writes,
        standard_fields, List.filterMap_append, List.filterMap_map, Function.comp_def]
      exact congrFun
        (List.filterMap_eq_map (fun kv : String × String => (kv.1, HeaderValue.str kv.2)))
        header_map
    rw [hw]
  · intro c hc
    simp only [save_image_calls, List.cons_append, List.nil_append, List.drop_succ_cons,
      List.drop_zero, List.mem_cons, List.mem_append, List.mem_map, List.mem_singleton,
      List.not_mem_nil, or_false] at hc
    rcases hc with rfl | rfl | rfl | rfl | rfl | rfl | rfl | rfl | rfl | rfl | rfl | rfl |
      ⟨kv, _, rfl⟩ | rfl <;> rfl

theorem ref_header_head (path : String) (h : Header) (rest : RefFs) :
    ref_header ((path, h) :: rest) path = h := by
  simp [ref_header]

/-- The last write of a standard key among the date and the standard fields is the
standard field itself. -/
theorem last_write_standard (expres : ExposeResult) (ci : CoolerInfo) (serial : String)
    (focus_pos : Int) (kv : String × HeaderValue)
    (h : kv ∈ standard_fields expres ci serial focus_pos) :
    last_write kv.1 (("DATE", HeaderValue.timestamp) ::
      standard_fields expres ci serial focus_pos) none = some kv.2 := by
  simp only [standard_fields, List.mem_cons, List.mem_singleton, List.not_mem_nil,
    or_false] at h
  rcases h with rfl | rfl | rfl | rfl | rfl | rfl | rfl | rfl | rfl <;>
    simp [last_write, standard_fields]

/-- C19, as stated, fails: with the extra pair ("SERIALNO", "X") and the serial "SN1",
the header of the written file, read back, reports "X" under `SERIALNO`, not the
serial passed to `save_image`. -/
theorem extra_pair_overrides_standard_field :
    (save_image refStorage (Disk.start []) mockResult "SN1" "/data/a.fits" (-1)
        [("SERIALNO", "X")]).1 = .returned ∧
      header_read "SERIALNO"
          (ref_header
            (save_image refStorage (Disk.start []) mockResult "SN1" "/data/a.fits" (-1)
              [("SERIALNO", "X")]).2.fs "/data/a.fits") =
        some (.str "X") ∧
      header_read "SERIALNO"
          (ref_header
            (save_image refStorage (Disk.start []) mockResult "SN1" "/data/a.fits" (-1)
              [("SERIALNO", "X")]).2.fs "/data/a.fits") ≠
        some (.str "SN1") := by
  have h : header_read "SERIALNO"
      (ref_header
        (save_image refStorage (Disk.start []) mockResult "SN1" "/data/a.fits" (-1)
          [("SERIALNO", "X")]).2.fs "/data/a.fits") = some (.str "X") := by
    rw [save_image_ref_header [] mockResult mockCooler "SN1" "/data/a.fits" (-1)
      [("SERIALNO", "X")] rfl, ref_header_head, header_read_foldl]
    simp [last_write, save_image_writes, standard_fields, header_read]
  refine ⟨(save_image_all_steps refStorage [] mockResult mockCooler "SN1" "/data/a.fits" (-1)
    [("SERIALNO", "X")] rfl (fun _ _ _ => rfl)).1, h, ?_⟩
  rw [h]
  simp

/-- C19, amended: on a storage layer where every write succeeds and a header reports
under a key the value written last, for every exposure result, serial, focus position
and map of extra pairs, the header of the file written by `save_image`, read back,
reports for every extra pair `(k, v)` the value `v` under `k`, and for each standard
key (`EXPTIME`, `EGAIN`, `XBINNING`, `YBINNING`, `IMAGETYP`, `CCD-TEMP`, `HSINKT`,
`SERIALNO`, `FOCUSPOS`) that is not the key of an extra pair the value taken from the
result and the arguments; a standard key that is also the key of an extra pair reports
the extra value. -/
theorem header_round_trip (fs : RefFs) (expres : ExposeResult) (ci : CoolerInfo)
    (serial filepath : String) (focus_pos : Int) (header_map : List (String × String))
    (hci : expres.coolerinfo = some ci)
    (hkeys : (header_map.map Prod.fst).Nodup) :
    (save_image refStorage (Disk.start fs) expres serial filepath focus_pos header_map).1 =
        .returned ∧
      (∀ kv ∈ header_map,
        header_read kv.1
            (ref_header (save_image refStorage (Disk.start fs) expres serial filepath
              focus_pos header_map).2.fs filepath) =
          some (.str kv.2)) ∧
      (∀ kv ∈ standard_fields expres ci serial focus_pos, kv.1 ∉ header_map.map Prod.fst →
        header_read kv.1
            (ref_header (save_image refStorage (Disk.start fs) expres serial filepath
              focus_pos header_map).2.fs filepath) =
          some kv.2) := by
  have hread : ∀ k, header_read k
      (ref_header (save_image refStorage (Disk.start fs) expres serial filepath
        focus_pos header_map).2.fs filepath) =
      last_write k (header_map.map (fun kv => (kv.1, HeaderValue.str kv.2)))
        (last_write k (("DATE", HeaderValue.timestamp) ::
          standard_fields expres ci serial focus_pos) none) := by
    intro k
    rw [save_image_ref_header fs expres ci serial filepath focus_pos header_map hci,
      ref_header_head, header_read_foldl]
    simp only [save_image_writes, ← List.cons_append, last_write_append]
    rfl
  have hmap : (header_map.map (fun kv => (kv.1, HeaderValue.str kv.2))).map Prod.fst =
      header_map.map Prod.fst := by
    simp [List.map_map, Function.comp_def]
  refine ⟨(save_image_all_steps refStorage fs expres ci serial filepath focus_pos header_map
    hci (fun _ _ _ => rfl)).1, ?_, ?_⟩
  · intro kv hkv
    rw [hread]
    exact last_write_mem kv.1 (.str kv.2) _ _ (by rw [hmap]; exact hkeys)
      (List.mem_map.2 ⟨kv, hkv, rfl⟩)
  · intro kv hkv hnot
    rw [hread, last_write_not_mem kv.1 _ _ (by rw [hmap]; exact hnot)]
    exact last_write_standard expres ci serial focus_pos kv hkv

theorem header_round_trip_witness :
    (mockResult.coolerinfo = some mockCooler ∧
        ([("OBSERVER", "RA"), ("SERIALNO", "X")].map Prod.fst).Nodup) ∧
      (("SERIALNO", "X") ∈ [("OBSERVER", "RA"), ("SERIALNO", "X")] ∧
        header_read "SERIALNO"
            (ref_header (save_image refStorage (Disk.start []) mockResult "SN1" "/data/a.fits"
              (-1) [("OBSERVER", "RA"), ("SERIALNO", "X")]).2.fs "/data/a.fits") =
          some (.str "X")) ∧
      ((("FOCUSPOS", HeaderValue.lng (-1)) ∈ standard_fields mockResult mockCooler "SN1" (-1) ∧
          "FOCUSPOS" ∉ [("OBSERVER", "RA"), ("SERIALNO", "X")].map Prod.fst) ∧
        header_read "FOCUSPOS"
            (ref_header (save_image refStorage (Disk.start []) mockResult "SN1" "/data/a.fits"
              (-1) [("OBSERVER", "RA"), ("SERIALNO", "X")]).2.fs "/data/a.fits") =
          some (.lng (-1))) :=
  ⟨⟨rfl, by decide⟩,
    ⟨by decide,
      (header_round_trip [] mockResult mockCooler "SN1" "/data/a.fits" (-1)
        [("OBSERVER", "RA"), ("SERIALNO", "X")] rfl (by decide)).2.1 ("SERIALNO", "X")
        (by decide)⟩,
    ⟨by simp [standard_fields], by decide⟩,
    (header_round_trip [] mockResult mockCooler "SN1" "/data/a.fits" (-1)
      [("OBSERVER", "RA"), ("SERIALNO", "X")] rfl (by decide)).2.2 ("FOCUSPOS", .lng (-1))
      (by simp [standard_fields]) (by decide)⟩

/-! ## File names -/

theorem starts_with_iff (name serial : String) :
    starts_with name serial = true ↔ ∃ rest : String, name = serial ++ rest := by
  unfold starts_with
  rw [List.isPrefixOf_iff_prefix]
  constructor
  · rintro ⟨t, ht⟩
    exact ⟨String.mk t, String.ext (by rw [String.data_append, ← ht])⟩
  · rintro ⟨rest, rfl⟩
    exact ⟨rest.data, (String.data_append _ _).symm⟩

/-- The counter of `auto_filenum` is the number of entries that start with the
serial. -/
theorem auto_filenum_eq_countP (serial : String) (entries : List String) :
    auto_filenum serial entries = entries.countP (fun f => starts_with f serial) := by
  have h : ∀ (l : List String) (c : Nat),
      l.foldl (fun counter file => if starts_with file serial then counter + 1 else counter) c =
        c + l.countP (fun f => starts_with f serial) := by
    intro l
    induction l with
    | nil => intro c; simp
    | cons f rest ih =>
      intro c
      by_cases hf : starts_with f serial = true
      · rw [List.foldl_cons, if_pos hf, ih, List.countP_cons, if_pos hf]
        omega
      · rw [List.foldl_cons, if_neg hf, ih, List.countP_cons, if_neg hf]
        omega
  unfold auto_filenum
  rw [h]
  simp

/-- The digits that `Nat.toDigitsCore` produces are those of `Nat.digits`, most
significant first. -/
theorem toDigitsCore_eq_digits (fuel n : Nat) (acc : List Char) (hn : 0 < n) (hf : n < fuel) :
    Nat.toDigitsCore 10 fuel n acc =
      ((Nat.digits 10 n).map Nat.digitChar).reverse ++ acc := by
  induction fuel generalizing n acc with
  | zero => omega
  | succ f ih =>
    rw [Nat.digits_def' (by norm_num) hn]
    simp only [Nat.toDigitsCore, List.map_cons, List.reverse_cons, List.append_assoc,
      List.singleton_append]
    by_cases h0 : n / 10 = 0
    · simp [h0]
    · rw [if_neg h0, ih (n / 10) _ (Nat.pos_of_ne_zero h0) (by omega)]

theorem undigit_digitChar (d : Nat) (h : d < 10) : undigit (Nat.digitChar d) = d := by
  interval_cases d <;> rfl

/-- Reading the decimal digits of `n` back gives `n`. -/
theorem ofDigits_toDigits (n : Nat) :
    Nat.ofDigits 10 ((Nat.toDigits 10 n).reverse.map undigit) = n := by
  by_cases hn : n = 0
  · subst hn
    rfl
  · unfold Nat.toDigits
    rw [toDigitsCore_eq_digits (n + 1) n [] (Nat.pos_of_ne_zero hn) (by omega)]
    simp only [List.append_nil, List.reverse_reverse, List.map_map]
    have hmap : (Nat.digits 10 n).map (undigit ∘ Nat.digitChar) = Nat.digits 10 n := by
      conv_rhs => rw [← List.map_id (Nat.digits 10 n)]
      apply List.map_congr_left
      intro d hd
      exact undigit_digitChar d (Nat.digits_lt_base (by norm_num) hd)
    rw [hmap, Nat.ofDigits_digits]

/-- Two numbers with the same decimal rendering are equal. -/
theorem fmt_int_injective (n m : Nat) (h : fmt_int n = fmt_int m) : n = m := by
  have hd : Nat.toDigits 10 n = Nat.toDigits 10 m := by
    have := congrArg String.data h
    simpa [fmt_int, Nat.repr, List.asString] using this
  rw [← ofDigits_toDigits n, ← ofDigits_toDigits m, hd]

/-- Two derived names of one serial and kind with different numbers are different. -/
theorem auto_filename_injective (serial : String) (imagetype : ImageType) (n m : Nat)
    (h : auto_filename serial n imagetype = auto_filename serial m imagetype) : n = m := by
  have hd := congrArg String.data h
  simp only [auto_filename, String.data_append, List.append_assoc] at hd
  have h1 := List.append_cancel_left hd
  have h2 := List.append_cancel_left h1
  have h3 : (fmt_int n).data = (fmt_int m).data := List.append_cancel_right h2
  exact fmt_int_injective n m (String.ext h3)

theorem auto_filename_starts_with (serial : String) (n : Nat) (imagetype : ImageType) :
    starts_with (auto_filename serial n imagetype) serial = true := by
  rw [starts_with_iff]
  exact ⟨"_" ++ fmt_int n ++ "_" ++ kind_name imagetype ++ ".fits", by
    simp [auto_filename, String.append_assoc]⟩

/-- C14: when no file name is supplied, the name derived for an exposure is
`{serial}_{n}_{kind}.fits`, where `n` is written in decimal and is the number of
entries of the target directory whose name starts with the serial number of the
camera, and `kind` is "light", "flat", "dark" or "bias" for the frame kinds Light,
Flat, Dark and Bias. -/
theorem derived_filename (serial : String) (entries : List String) (imagetype : ImageType) :
    temp_filename "" serial (auto_filenum serial entries) imagetype =
        serial ++ "_" ++ fmt_int (entries.countP (fun f => starts_with f serial)) ++ "_" ++
          (match imagetype with
            | .Light => "light"
            | .Flat => "flat"
            | .Dark => "dark"
            | .Bias => "bias") ++ ".fits" ∧
      (∀ name, starts_with name serial = true ↔ ∃ rest : String, name = serial ++ rest) ∧
      (∀ n, Nat.ofDigits 10 ((fmt_int n).data.reverse.map undigit) = n) ∧
      fmt_int 0 = "0" ∧ fmt_int 12 = "12" ∧
      temp_filename "" "SN1" (auto_filenum "SN1" ["SN1_0_light.fits", "notes.txt", "SN1.log"])
        ImageType.Dark = "SN1_2_dark.fits" := by
  refine ⟨?_, fun name => starts_with_iff name serial, fun n => ofDigits_toDigits n, rfl, rfl,
    by decide⟩
  rw [auto_filenum_eq_countP]
  cases imagetype <;> simp [temp_filename, auto_filename, kind_name]

/-! ## Failures in the acquisition loop -/

theorem acquisition_loop_succ_returned (fuel : Nat) (d : Device σ)
    (get_temp_info : σ → CoolerInfo) (lib : Storage φ) (serial : String)
    (opts : ExposeOptions) (expinfo : ExposureInfo) (n : Nat) (st : Session σ φ)
    (h : (exposure_cycle fuel d get_temp_info lib serial opts expinfo st).1 = .returned) :
    acquisition_loop fuel d get_temp_info lib serial opts expinfo (n + 1) st =
      acquisition_loop fuel d get_temp_info lib serial opts expinfo n
        (exposure_cycle fuel d get_temp_info lib serial opts expinfo st).2 := by
  rcases hc : exposure_cycle fuel d get_temp_info lib serial opts expinfo st with ⟨ending, st1⟩
  rw [hc] at h
  simp only at h
  subst h
  simp [acquisition_loop, hc]

theorem acquisition_loop_succ_ended (fuel : Nat) (d : Device σ)
    (get_temp_info : σ → CoolerInfo) (lib : Storage φ) (serial : String)
    (opts : ExposeOptions) (expinfo : ExposureInfo) (n : Nat) (st : Session σ φ)
    (h : (exposure_cycle fuel d get_temp_info lib serial opts expinfo st).1 ≠ .returned) :
    acquisition_loop fuel d get_temp_info lib serial opts expinfo (n + 1) st =
      exposure_cycle fuel d get_temp_info lib serial opts expinfo st := by
  rcases hc : exposure_cycle fuel d get_temp_info lib serial opts expinfo st with ⟨ending, st1⟩
  rw [hc] at h
  cases ending with
  | returned => exact absurd rfl h
  | exited status => simp [acquisition_loop, hc]
  | terminated what => simp [acquisition_loop, hc]
  | undefined => simp [acquisition_loop, hc]
  | polling => simp [acquisition_loop, hc]

/-- C16, as stated, fails: with three exposures requested on a camera without on-chip
binning and a request for binning 3 x 1, the first `expose` returns an error,
`unwrap_or_fail` throws it, and the process is terminated by the exception: one
exposure cycle was started and nothing was written. -/
theorem hardware_failure_terminates :
    (acquisition_loop 5 mockPlainCamera (fun _ => mockCooler) refStorage "SN1" mockOptions
        mockRequest 3 ⟨World.start 0, Disk.start []⟩).1 = .terminated msg_no_binning ∧
      (acquisition_loop 5 mockPlainCamera (fun _ => mockCooler) refStorage "SN1" mockOptions
        mockRequest 3 ⟨World.start 0, Disk.start []⟩).2.disk.calls = [] ∧
      (acquisition_loop 5 mockPlainCamera (fun _ => mockCooler) refStorage "SN1" mockOptions
        mockRequest 3 ⟨World.start 0, Disk.start []⟩).2.world.log =
        [Event.queryCapability .eSupportsOnChipBinning completed,
          Event.getCapability .eSupportsOnChipBinning false] :=
  ⟨rfl, rfl, rfl⟩

/-- C16, amended: a hardware or capability failure of one exposure cycle is returned to
`main` as a typed result `Err(e)` (or leaves `expose` as an exception), but `main`
passes it to `unwrap_or_fail`, whose exception nothing catches: the process is
terminated in that cycle, before anything is written and before any later cycle. A
storage-write error ends the process too, by `exit` with the status of the failed
step. The loop goes on to the next cycle only after a cycle that exposed (or
redownloaded) and saved. -/
theorem cycle_failure_ends_process (fuel : Nat) (d : Device σ)
    (get_temp_info : σ → CoolerInfo) (lib : Storage φ) (serial : String)
    (opts : ExposeOptions) (expinfo : ExposureInfo) (n : Nat) (st : Session σ φ) :
    (∀ e, (if opts.repeatdownload then redownload d st.world expinfo
          else expose fuel d st.world expinfo).1 = .returned (.Err e) →
        acquisition_loop fuel d get_temp_info lib serial opts expinfo (n + 1) st =
          (.terminated e,
            ⟨(if opts.repeatdownload then redownload d st.world expinfo
              else expose fuel d st.world expinfo).2, st.disk⟩)) ∧
      (∀ what, (if opts.repeatdownload then redownload d st.world expinfo
          else expose fuel d st.world expinfo).1 = .thrown what →
        acquisition_loop fuel d get_temp_info lib serial opts expinfo (n + 1) st =
          (.terminated what,
            ⟨(if opts.repeatdownload then redownload d st.world expinfo
              else expose fuel d st.world expinfo).2, st.disk⟩)) ∧
      (∀ status, (exposure_cycle fuel d get_temp_info lib serial opts expinfo st).1 =
          .exited status →
        (acquisition_loop fuel d get_temp_info lib serial opts expinfo (n + 1) st).1 =
          .exited status) ∧
      ((exposure_cycle fuel d get_temp_info lib serial opts expinfo st).1 = .returned →
        acquisition_loop fuel d get_temp_info lib serial opts expinfo (n + 1) st =
          acquisition_loop fuel d get_temp_info lib serial opts expinfo n
            (exposure_cycle fuel d get_temp_info lib serial opts expinfo st).2) := by
  refine ⟨?_, ?_, ?_, ?_⟩
  · intro e he
    have hc : exposure_cycle fuel d get_temp_info lib serial opts expinfo st =
        (.terminated e,
          ⟨(if opts.repeatdownload then redownload d st.world expinfo
            else expose fuel d st.world expinfo).2, st.disk⟩) := by
      simp only [exposure_cycle, he]
    rw [acquisition_loop_succ_ended _ _ _ _ _ _ _ _ _ (by rw [hc]; simp), hc]
  · intro what he
    have hc : exposure_cycle fuel d get_temp_info lib serial opts expinfo st =
        (.terminated what,
          ⟨(if opts.repeatdownload then redownload d st.world expinfo
            else expose fuel d st.world expinfo).2, st.disk⟩) := by
      simp only [exposure_cycle, he]
    rw [acquisition_loop_succ_ended _ _ _ _ _ _ _ _ _ (by rw [hc]; simp), hc]
  · intro status hs
    rw [acquisition_loop_succ_ended _ _ _ _ _ _ _ _ _ (by rw [hs]; simp), hs]
  · intro hr
    exact acquisition_loop_succ_returned _ _ _ _ _ _ _ _ _ hr

theorem cycle_failure_ends_process_witness :
    ((expose 5 mockPlainCamera (World.start 0) mockRequest).1 =
          .returned (.Err msg_no_binning) ∧
        (expose 5 mockQueryRaisesCamera (World.start 0) mockRequest).1 = .thrown "usb gone" ∧
        (exposure_cycle 5 mockCamera (fun _ => mockCooler) mockCreateImgFails "SN1" mockOptions
          mockRequest ⟨World.start 0, Disk.start ()⟩).1 = .exited 211 ∧
        (exposure_cycle 5 mockCamera (fun _ => mockCooler) refStorage "SN1" mockOptions
          mockRequest ⟨World.start 0, Disk.start []⟩).1 = .returned) ∧
      acquisition_loop 5 mockPlainCamera (fun _ => mockCooler) refStorage "SN1" mockOptions
          mockRequest (2 + 1) ⟨World.start 0, Disk.start []⟩ =
        (.terminated msg_no_binning,
          ⟨(expose 5 mockPlainCamera (World.start 0) mockRequest).2, Disk.start []⟩) ∧
      acquisition_loop 5 mockQueryRaisesCamera (fun _ => mockCooler) refStorage "SN1"
          mockOptions mockRequest (2 + 1) ⟨World.start 0, Disk.start []⟩ =
        (.terminated "usb gone",
          ⟨(expose 5 mockQueryRaisesCamera (World.start 0) mockRequest).2, Disk.start []⟩) ∧
      (acquisition_loop 5 mockCamera (fun _ => mockCooler) mockCreateImgFails "SN1" mockOptions
          mockRequest (2 + 1) ⟨World.start 0, Disk.start ()⟩).1 = .exited 211 ∧
      acquisition_loop 5 mockCamera (fun _ => mockCooler) refStorage "SN1" mockOptions
          mockRequest (2 + 1) ⟨World.start 0, Disk.start []⟩ =
        acquisition_loop 5 mockCamera (fun _ => mockCooler) refStorage "SN1" mockOptions
          mockRequest 2
          (exposure_cycle 5 mockCamera (fun _ => mockCooler) refStorage "SN1" mockOptions
            mockRequest ⟨World.start 0, Disk.start []⟩).2 :=
  ⟨⟨rfl, rfl, rfl, rfl⟩,
    (cycle_failure_ends_process 5 mockPlainCamera (fun _ => mockCooler) refStorage "SN1"
      mockOptions mockRequest 2 ⟨World.start 0, Disk.start []⟩).1 _ rfl,
    (cycle_failure_ends_process 5 mockQueryRaisesCamera (fun _ => mockCooler) refStorage "SN1"
      mockOptions mockRequest 2 ⟨World.start 0, Disk.start []⟩).2.1 _ rfl,
    (cycle_failure_ends_process 5 mockCamera (fun _ => mockCooler) mockCreateImgFails "SN1"
      mockOptions mockRequest 2 ⟨World.start 0, Disk.start ()⟩).2.2.1 _ rfl,
    (cycle_failure_ends_process 5 mockCamera (fun _ => mockCooler) refStorage "SN1"
      mockOptions mockRequest 2 ⟨World.start 0, Disk.start []⟩).2.2.2 rfl⟩

/-! ## Storage calls do not depend on the record they extend -/

theorem exec_framed (lib : Storage φ) (prog : List Instr) (status : Int) (fs : φ)
    (calls : List CallRecord) :
    exec lib prog status ⟨fs, calls⟩ =
      ((exec lib prog status ⟨fs, []⟩).1,
        ⟨(exec lib prog status ⟨fs, []⟩).2.fs,
          calls ++ (exec lib prog status ⟨fs, []⟩).2.calls⟩) := by
  induction prog generalizing status fs calls with
  | nil => simp [exec]
  | cons i rest ih =>
    cases i with
    | call c =>
      simp only [exec, List.nil_append]
      rw [ih _ _ (calls ++ _), ih _ _ [_]]
      simp
    | discard c =>
      simp only [exec, List.nil_append]
      rw [ih _ _ (calls ++ _), ih _ _ [_]]
      simp
    | check =>
      simp only [exec]
      cases print_fits_err status with
      | some code => simp
      | none => exact ih status fs calls
    | undefined => simp [exec]

theorem save_image_framed (lib : Storage φ) (d : Disk φ) (expres : ExposeResult)
    (serial filepath : String) (focus_pos : Int) (header_map : List (String × String)) :
    save_image lib d expres serial filepath focus_pos header_map =
      ((save_image lib (Disk.start d.fs) expres serial filepath focus_pos header_map).1,
        ⟨(save_image lib (Disk.start d.fs) expres serial filepath focus_pos header_map).2.fs,
          d.calls ++
            (save_image lib (Disk.start d.fs) expres serial filepath focus_pos
              header_map).2.calls⟩) :=
  exec_framed lib _ 0 d.fs d.calls

/-! ## Sequence numbers of derived file names -/

theorem strip_dir_join (dir name : String) : strip_dir dir (dir ++ "/" ++ name) = some name := by
  unfold strip_dir
  have hp : (dir ++ "/").data.isPrefixOf (dir ++ "/" ++ name).data = true := by
    rw [List.isPrefixOf_iff_prefix, String.data_append (dir ++ "/") name]
    exact List.prefix_append _ _
  rw [if_pos hp, String.data_append (dir ++ "/") name, List.drop_left]

theorem strip_dir_eq_some (dir path name : String) (h : strip_dir dir path = some name) :
    path = dir ++ "/" ++ name := by
  unfold strip_dir at h
  split at h
  · rename_i hp
    rw [List.isPrefixOf_iff_prefix] at hp
    obtain ⟨t, ht⟩ := hp
    simp only [Option.some.injEq] at h
    apply String.ext
    rw [String.data_append (dir ++ "/") name, ← h, ← ht, List.drop_left]
  · simp at h

/-- When the directory has no entry of that name, the reference file system has no
file of that path. -/
theorem ref_filter_of_not_listed (fs : RefFs) (dir name : String)
    (h : name ∉ refStorage.list fs dir) :
    fs.filter (fun f => f.1 ≠ dir ++ "/" ++ name) = fs := by
  rw [List.filter_eq_self]
  intro f hf
  simp only [ne_eq, decide_eq_true_eq]
  intro hpath
  apply h
  simp only [refStorage, List.mem_filterMap]
  exact ⟨f, hf, by rw [hpath, strip_dir_join]⟩

/-- The files created by `save_image`: the one file at `filepath`. -/
theorem created_files_save_image_calls (recs : List CallRecord) (expres : ExposeResult)
    (ci : CoolerInfo) (serial filepath : String) (focus_pos : Int)
    (header_map : List (String × String))
    (h : recs.map CallRecord.call =
      save_image_calls expres ci serial filepath focus_pos header_map) :
    created_files recs = [filepath] := by
  have hc : created_files recs =
      (recs.map CallRecord.call).filterMap (fun c =>
        match c with
        | .create_file path => some path
        | _ => none) := by
    simp [created_files, List.filterMap_map, Function.comp_def]
  rw [hc, h]
  simp only [save_image_calls, egain_call, imagetyp_call, List.cons_append, List.nil_append,
    List.filterMap_cons, List.filterMap_append, List.filterMap_nil, List.append_nil]
  have hx : List.filterMap (fun c =>
      match c with
      | FileCall.create_file path => some path
      | _ => none)
      (List.map (fun kv : String × String => FileCall.update_key kv.1 (.str kv.2) "")
        header_map) = [] := by
    rw [List.filterMap_eq_nil_iff]
    intro c hc
    obtain ⟨kv, _, rfl⟩ := List.mem_map.1 hc
    rfl
  rw [hx]

/-- One round of the loop on the reference file system, when `expose` succeeds and the
derived name is not yet an entry of the directory: the round returns, it creates the
file of the derived name, and the directory has that one entry more. -/
theorem exposure_cycle_ref (fuel : Nat) (d : Device σ) (get_temp_info : σ → CoolerInfo)
    (serial : String) (opts : ExposeOptions) (expinfo : ExposureInfo) (st : Session σ RefFs)
    (hname : opts.filename = "") (hmode : opts.repeatdownload = false)
    (hexp : ∀ w, ∃ im, (expose fuel d w expinfo).1 = .returned (.Ok im))
    (hnew : auto_filename serial (auto_filenum serial (refStorage.list st.disk.fs opts.filepath))
      expinfo.imagetype ∉ refStorage.list st.disk.fs opts.filepath) :
    (exposure_cycle fuel d get_temp_info refStorage serial opts expinfo st).1 = .returned ∧
      created_files (exposure_cycle fuel d get_temp_info refStorage serial opts expinfo
          st).2.disk.calls =
        created_files st.disk.calls ++
          [opts.filepath ++ "/" ++ auto_filename serial
            (auto_filenum serial (refStorage.list st.disk.fs opts.filepath))
            expinfo.imagetype] ∧
      refStorage.list (exposure_cycle fuel d get_temp_info refStorage serial opts expinfo
          st).2.disk.fs opts.filepath =
        auto_filename serial (auto_filenum serial (refStorage.list st.disk.fs opts.filepath))
          expinfo.imagetype :: refStorage.list st.disk.fs opts.filepath := by
  obtain ⟨im, him⟩ := hexp st.world
  have hcycle : exposure_cycle fuel d get_temp_info refStorage serial opts expinfo st =
      ((save_image refStorage st.disk
          { im with coolerinfo := some (get_temp_info (expose fuel d st.world expinfo).2.dev) }
          serial
          (opts.filepath ++ "/" ++ auto_filename serial
            (auto_filenum serial (refStorage.list st.disk.fs opts.filepath)) expinfo.imagetype)
          opts.focus_pos opts.header_map).1,
        ⟨(expose fuel d st.world expinfo).2,
          (save_image refStorage st.disk
            { im with coolerinfo := some (get_temp_info (expose fuel d st.world expinfo).2.dev) }
            serial
            (opts.filepath ++ "/" ++ auto_filename serial
              (auto_filenum serial (refStorage.list st.disk.fs opts.filepath))
              expinfo.imagetype)
            opts.focus_pos opts.header_map).2⟩) := by
    simp [exposure_cycle, hmode, hname, him, temp_filename]
  rw [hcycle, save_image_framed]
  have hall := save_image_all_steps refStorage st.disk.fs
    { im with coolerinfo := some (get_temp_info (expose fuel d st.world expinfo).2.dev) }
    (get_temp_info (expose fuel d st.world expinfo).2.dev) serial
    (opts.filepath ++ "/" ++ auto_filename serial
      (auto_filenum serial (refStorage.list st.disk.fs opts.filepath)) expinfo.imagetype)
    opts.focus_pos opts.header_map rfl (fun _ _ _ => rfl)
  refine ⟨hall.1, ?_, ?_⟩
  · simp only [created_files, List.filterMap_append]
    congr 1
    exact created_files_save_image_calls _ _ _ _ _ _ _ hall.2.1
  · simp only
    rw [save_image_ref_header st.disk.fs _
      (get_temp_info (expose fuel d st.world expinfo).2.dev) _ _ _ _ rfl,
      ref_filter_of_not_listed _ _ _ hnew]
    simp [refStorage, strip_dir_join]

/-- A run of `n` successful rounds on the reference file system, from a directory in
which none of the next `n` derived names is taken: the rounds create the files with
the sequence numbers `k`, `k + 1`, ..., `k + n - 1`, where `k` counts the entries that
start with the serial. -/
theorem acquisition_loop_ref (fuel : Nat) (d : Device σ) (get_temp_info : σ → CoolerInfo)
    (serial : String) (opts : ExposeOptions) (expinfo : ExposureInfo)
    (hname : opts.filename = "") (hmode : opts.repeatdownload = false)
    (hexp : ∀ w, ∃ im, (expose fuel d w expinfo).1 = .returned (.Ok im))
    (n : Nat) (st : Session σ RefFs)
    (hfree : ∀ j, auto_filenum serial (refStorage.list st.disk.fs opts.filepath) ≤ j →
      j < auto_filenum serial (refStorage.list st.disk.fs opts.filepath) + n →
      auto_filename serial j expinfo.imagetype ∉ refStorage.list st.disk.fs opts.filepath) :
    (acquisition_loop fuel d get_temp_info refStorage serial opts expinfo n st).1 = .returned ∧
      created_files (acquisition_loop fuel d get_temp_info refStorage serial opts expinfo n
          st).2.disk.calls =
        created_files st.disk.calls ++
          (List.range n).map (fun i => opts.filepath ++ "/" ++ auto_filename serial
            (auto_filenum serial (refStorage.list st.disk.fs opts.filepath) + i)
            expinfo.imagetype) := by
  induction n generalizing st with
  | zero => simp [acquisition_loop]
  | succ n ih =>
    obtain ⟨hret, hcreated, hlist⟩ := exposure_cycle_ref fuel d get_temp_info serial opts
      expinfo st hname hmode hexp (hfree _ (Nat.le_refl _) (by omega))
    have hcount : auto_filenum serial (refStorage.list
        (exposure_cycle fuel d get_temp_info refStorage serial opts expinfo st).2.disk.fs
        opts.filepath) =
        auto_filenum serial (refStorage.list st.disk.fs opts.filepath) + 1 := by
      rw [hlist, auto_filenum_eq_countP, auto_filenum_eq_countP, List.countP_cons,
        if_pos (auto_filename_starts_with serial _ expinfo.imagetype)]
    rw [acquisition_loop_succ_returned _ _ _ _ _ _ _ _ _ hret]
    obtain ⟨h1, h2⟩ := ih
      (exposure_cycle fuel d get_temp_info refStorage serial opts expinfo st).2 (by
        intro j hj1 hj2
        rw [hcount] at hj1 hj2
        rw [hlist, List.mem_cons, not_or]
        refine ⟨?_, hfree j (by omega) (by omega)⟩
        intro heq
        have := auto_filename_injective serial expinfo.imagetype _ _ heq
        omega)
    refine ⟨h1, ?_⟩
    rw [h2, hcreated, hcount, List.range_succ_eq_map, List.map_cons, List.map_map,
      List.append_assoc]
    have hfun : ∀ i, auto_filenum serial (refStorage.list st.disk.fs opts.filepath) + 1 + i =
        auto_filenum serial (refStorage.list st.disk.fs opts.filepath) + (i + 1) := by
      intro i
      omega
    simp only [List.singleton_append, Nat.add_zero, Function.comp_def, hfun, Nat.succ_eq_add_one]

/-- The run of two auto-named exposures in a directory that holds the one file
`SN1_1_light.fits`. -/
theorem mockTakenName_run :
    created_files
        (acquisition_loop 5 mockReadyCamera (fun _ => mockCooler) refStorage "SN1" mockOptions
          mockRequest 2 ⟨World.start (), Disk.start [("/data/SN1_1_light.fits", [])]⟩).2.disk.calls =
      ["/data/SN1_1_light.fits", "/data/SN1_1_light.fits"] := by
  decide

theorem path_join_injective (dir a b : String) (h : dir ++ "/" ++ a = dir ++ "/" ++ b) :
    a = b := by
  have hd := congrArg String.data h
  rw [String.data_append (dir ++ "/") a, String.data_append (dir ++ "/") b] at hd
  exact String.ext (List.append_cancel_left hd)

/-- On `mockReadyCamera` every `expose` of `mockRequest` succeeds. -/
theorem mockReadyCamera_succeeds (w : World Unit) :
    ∃ im, (expose 5 mockReadyCamera w mockRequest).1 = .returned (.Ok im) := by
  obtain ⟨s, l⟩ := w
  have h := expose_framed 5 mockReadyCamera mockRequest s l
  simp only at h
  rw [h]
  exact ⟨make_result mockImage (make_exposure_options mockInfo mockRequest), rfl⟩

/-- C15, as stated, fails: the directory holds one file whose name starts with the
serial (`k = 1`), and that file is `SN1_1_light.fits`. A run of two successful
auto-named Light exposures writes `SN1_1_light.fits` twice: the first exposure
replaces the file, the count stays 1, and the second derives the same name. The two
files are not distinct and the sequence numbers are 1, 1, not 1, 2. -/
theorem taken_name_is_rewritten :
    auto_filenum "SN1" (refStorage.list [("/data/SN1_1_light.fits", [])] "/data") = 1 ∧
      (acquisition_loop 5 mockReadyCamera (fun _ => mockCooler) refStorage "SN1" mockOptions
        mockRequest 2 ⟨World.start (), Disk.start [("/data/SN1_1_light.fits", [])]⟩).1 =
        .returned ∧
      created_files
          (acquisition_loop 5 mockReadyCamera (fun _ => mockCooler) refStorage "SN1"
            mockOptions mockRequest 2
            ⟨World.start (), Disk.start [("/data/SN1_1_light.fits", [])]⟩).2.disk.calls =
        ["/data/SN1_1_light.fits", "/data/SN1_1_light.fits"] ∧
      ¬ (created_files
          (acquisition_loop 5 mockReadyCamera (fun _ => mockCooler) refStorage "SN1"
            mockOptions mockRequest 2
            ⟨World.start (), Disk.start [("/data/SN1_1_light.fits", [])]⟩).2.disk.calls).Nodup := by
  refine ⟨by decide, by decide, mockTakenName_run, ?_⟩
  rw [mockTakenName_run]
  decide

/-- C15, amended: for every target directory that holds `k` entries whose names start
with the serial and in which none of the names `{serial}_{j}_{kind}.fits` with
`k ≤ j < k + n` is taken, a run of `n` successful auto-named exposures of one frame
kind (nothing else touching the directory, every write succeeding) creates `n`
distinct files with the sequence numbers `k`, `k + 1`, ..., `k + n - 1`, in that
order. -/
theorem sequence_numbers (fuel : Nat) (d : Device σ) (get_temp_info : σ → CoolerInfo)
    (serial : String) (opts : ExposeOptions) (expinfo : ExposureInfo)
    (hname : opts.filename = "") (hmode : opts.repeatdownload = false)
    (hexp : ∀ w, ∃ im, (expose fuel d w expinfo).1 = .returned (.Ok im))
    (n : Nat) (w : World σ) (fs : RefFs)
    (hfree : ∀ j, auto_filenum serial (refStorage.list fs opts.filepath) ≤ j →
      j < auto_filenum serial (refStorage.list fs opts.filepath) + n →
      auto_filename serial j expinfo.imagetype ∉ refStorage.list fs opts.filepath) :
    (acquisition_loop fuel d get_temp_info refStorage serial opts expinfo n
        ⟨w, Disk.start fs⟩).1 = .returned ∧
      created_files (acquisition_loop fuel d get_temp_info refStorage serial opts expinfo n
          ⟨w, Disk.start fs⟩).2.disk.calls =
        (List.range n).map (fun i => opts.filepath ++ "/" ++ auto_filename serial
          (auto_filenum serial (refStorage.list fs opts.filepath) + i) expinfo.imagetype) ∧
      (created_files (acquisition_loop fuel d get_temp_info refStorage serial opts expinfo n
          ⟨w, Disk.start fs⟩).2.disk.calls).Nodup := by
  obtain ⟨h1, h2⟩ := acquisition_loop_ref fuel d get_temp_info serial opts expinfo hname hmode
    hexp n ⟨w, Disk.start fs⟩ hfree
  have h3 : created_files (acquisition_loop fuel d get_temp_info refStorage serial opts expinfo
      n ⟨w, Disk.start fs⟩).2.disk.calls =
      (List.range n).map (fun i => opts.filepath ++ "/" ++ auto_filename serial
        (auto_filenum serial (refStorage.list fs opts.filepath) + i) expinfo.imagetype) := by
    rw [h2]
    simp [Disk.start, created_files]
  refine ⟨h1, h3, ?_⟩
  rw [h3]
  apply List.Nodup.map _ (List.nodup_range n)
  intro i j hij
  have := auto_filename_injective serial expinfo.imagetype _ _
    (path_join_injective _ _ _ hij)
  omega

theorem sequence_numbers_witness :
    (mockOptions.filename = "" ∧ mockOptions.repeatdownload = false ∧
        (∀ w, ∃ im, (expose 5 mockReadyCamera w mockRequest).1 = .returned (.Ok im)) ∧
        ∀ j, auto_filenum "SN1" (refStorage.list [] mockOptions.filepath) ≤ j →
          j < auto_filenum "SN1" (refStorage.list [] mockOptions.filepath) + 3 →
          auto_filename "SN1" j mockRequest.imagetype ∉
            refStorage.list [] mockOptions.filepath) ∧
      (acquisition_loop 5 mockReadyCamera (fun _ => mockCooler) refStorage "SN1" mockOptions
          mockRequest 3 ⟨World.start (), Disk.start []⟩).1 = .returned ∧
      created_files (acquisition_loop 5 mockReadyCamera (fun _ => mockCooler) refStorage "SN1"
          mockOptions mockRequest 3 ⟨World.start (), Disk.start []⟩).2.disk.calls =
        ["/data/SN1_0_light.fits", "/data/SN1_1_light.fits", "/data/SN1_2_light.fits"] ∧
      (created_files (acquisition_loop 5 mockReadyCamera (fun _ => mockCooler) refStorage
          "SN1" mockOptions mockRequest 3
          ⟨World.start (), Disk.start []⟩).2.disk.calls).Nodup :=
  ⟨⟨rfl, rfl, mockReadyCamera_succeeds, fun _ _ _ h => by simp [refStorage] at h⟩,
    (sequence_numbers 5 mockReadyCamera (fun _ => mockCooler) "SN1" mockOptions mockRequest
      rfl rfl mockReadyCamera_succeeds 3 (World.start ()) []
      (fun _ _ _ h => by simp [refStorage] at h)).1,
    (sequence_numbers 5 mockReadyCamera (fun _ => mockCooler) "SN1" mockOptions mockRequest
      rfl rfl mockReadyCamera_succeeds 3 (World.start ()) []
      (fun _ _ _ h => by simp [refStorage] at h)).2.1.trans (by decide),
    (sequence_numbers 5 mockReadyCamera (fun _ => mockCooler) "SN1" mockOptions mockRequest
      rfl rfl mockReadyCamera_succeeds 3 (World.start ()) []
      (fun _ _ _ h => by simp [refStorage] at h)).2.2⟩

/-! ## The exposure-duration header -/

/-- An `Ok` of `expose` carries the metadata of an image that `getImage` handed out. -/
theorem expose_ok_metadata (fuel : Nat) (d : Device σ) (w : World σ) (exp_info : ExposureInfo)
    (res : ExposeResult) (h : (expose fuel d w exp_info).1 = .returned (.Ok res)) :
    ∃ image s1, (d.getImage s1).1 = some image ∧ res.metadata = image.metadata := by
  obtain ⟨evs, _, hr⟩ := expose_reaches fuel d w exp_info
  rcases hr with ⟨_, hno⟩ | ⟨w1, _, hres⟩
  · rw [h] at hno
    exact hno.elim
  · rw [hres] at h
    rcases expose_download_cases d w1 (make_exposure_options d.sensor_info exp_info) with
      ⟨what, h1, _⟩ | ⟨st, le, _, _, h1⟩ | ⟨st, le, image, _, hg, h1⟩
    · rw [h1] at h
      simp at h
    · rw [h1] at h
      simp at h
    · rw [h1] at h
      simp only [Run.returned.injEq, Result.Ok.injEq] at h
      exact ⟨image, _, hg, by rw [← h]; rfl⟩

/-- The only call of `save_image` that writes `EXPTIME` with the comment
"Total exposure time in seconds" carries the duration of the metadata. -/
theorem exptime_mem_calls (expres : ExposeResult) (ci : CoolerInfo) (serial filepath : String)
    (focus_pos : Int) (header_map : List (String × String)) (v : HeaderValue)
    (h : FileCall.update_key "EXPTIME" v "Total exposure time in seconds" ∈
      save_image_calls expres ci serial filepath focus_pos header_map) :
    v = .dbl expres.metadata.exposureDuration 6 := by
  simp [save_image_calls, egain_call, imagetyp_call] at h
  exact h

/-- The run of `expose` on `mockEchoCamera` for the bias request. -/
theorem mockEchoCamera_run :
    (expose 5 mockEchoCamera (World.start 0) mockBiasRequest).1 =
      .returned (.Ok (make_result mockEchoImage
        (make_exposure_options mockInfo mockBiasRequest))) := rfl

/-- The storage calls of `save_image` for the result of the bias request on
`mockCamera`, when every call succeeds. -/
theorem mockCamera_bias_save_run :
    (save_image mockStorageOk (Disk.start ())
        { make_result mockImage (make_exposure_options mockInfo mockBiasRequest) with
          coolerinfo := some mockCooler } "SN1" "/data/a.fits" (-1) []).2.calls.map
        CallRecord.call =
      save_image_calls (make_result mockImage (make_exposure_options mockInfo mockBiasRequest))
        mockCooler "SN1" "/data/a.fits" (-1) [] := rfl

/-- The storage calls of `save_image` for the result of the bias request on
`mockEchoCamera`, when every call succeeds. -/
theorem mockEchoCamera_save_run :
    (save_image mockStorageOk (Disk.start ())
        { make_result mockEchoImage (make_exposure_options mockInfo mockBiasRequest) with
          coolerinfo := some mockCooler } "SN1" "/data/a.fits" (-1) []).2.calls =
      (save_image_calls (make_result mockEchoImage
          (make_exposure_options mockInfo mockBiasRequest))
        mockCooler "SN1" "/data/a.fits" (-1) []).map (fun c => ⟨c, 0, 0⟩) := rfl

/-- C21, as stated, fails: for `--bias --duration 10` on a sensor with minimum 0.1 s,
`expose` configures 0.1 s, the camera delivers an image whose metadata reports 5 s, and
the `EXPTIME` that `save_image` writes is 5, not the sensor minimum. -/
theorem exptime_not_sensor_minimum :
    mockBiasRequest.imagetype = ImageType.Bias ∧
      mockCamera.sensor_info.exposure_duration_min = 1 / 10 ∧
      (expose 5 mockCamera (World.start 0) mockBiasRequest).1 =
        .returned (.Ok (make_result mockImage
          (make_exposure_options mockInfo mockBiasRequest))) ∧
      (make_result mockImage (make_exposure_options mockInfo mockBiasRequest)).expinfo.duration =
        1 / 10 ∧
      FileCall.update_key "EXPTIME" (.dbl 5 6) "Total exposure time in seconds" ∈
        (save_image mockStorageOk (Disk.start ())
          { make_result mockImage (make_exposure_options mockInfo mockBiasRequest) with
            coolerinfo := some mockCooler } "SN1" "/data/a.fits" (-1) []).2.calls.map
          CallRecord.call ∧
      FileCall.update_key "EXPTIME" (.dbl (1 / 10) 6) "Total exposure time in seconds" ∉
        (save_image mockStorageOk (Disk.start ())
          { make_result mockImage (make_exposure_options mockInfo mockBiasRequest) with
            coolerinfo := some mockCooler } "SN1" "/data/a.fits" (-1) []).2.calls.map
          CallRecord.call :=
  ⟨rfl, rfl, congrArg Prod.fst mockCamera_bias_run, by
    norm_num [make_result, make_exposure_options, mockBiasRequest, build_expinfo, std_max,
      mockInfo], by
    rw [mockCamera_bias_save_run]
    simp [save_image_calls, make_result, mockImage], by
    rw [mockCamera_bias_save_run]
    intro h
    have h2 := exptime_mem_calls _ _ _ _ _ _ _ h
    simp only [make_result, mockImage, HeaderValue.dbl.injEq] at h2
    norm_num at h2⟩

/-- C21, amended: for a Bias request built by `main` from any user duration, every
`EXPTIME` that `save_image` writes for the result of a successful `expose` (with the
cooler telemetry assigned) is the exposure duration of the metadata that the hardware
reported for the fetched image, written with 6 decimals; it is written when every step
other than the `EGAIN` write succeeds. It is the sensor minimum when the sensor minimum
is not negative and the hardware reports the duration that `expose` configured; the
requested duration is not used. -/
theorem exptime_is_reported_duration (fuel : Nat) (d : Device σ) (s : σ) (bin_x bin_y : Int)
    (duration : ℚ) (dark flat bias disable_overscan : Bool) (res : ExposeResult)
    (hbias : (build_expinfo bin_x bin_y duration dark flat bias disable_overscan).imagetype =
      ImageType.Bias)
    (hres : (expose fuel d (World.start s)
      (build_expinfo bin_x bin_y duration dark flat bias disable_overscan)).1 =
        .returned (.Ok res))
    (lib : Storage φ) (fs : φ) (ci : CoolerInfo) (serial filepath : String) (focus_pos : Int)
    (header_map : List (String × String)) :
    (∃ image s1, (d.getImage s1).1 = some image ∧ res.metadata = image.metadata) ∧
      (∀ r ∈ (save_image lib (Disk.start fs) { res with coolerinfo := some ci } serial
          filepath focus_pos header_map).2.calls,
        ∀ v, r.call = .update_key "EXPTIME" v "Total exposure time in seconds" →
          v = .dbl res.metadata.exposureDuration 6) ∧
      ((∀ c fs1, c ≠ egain_call { res with coolerinfo := some ci } →
          (lib.run c fs1).1 = 0) →
        FileCall.update_key "EXPTIME" (.dbl res.metadata.exposureDuration 6)
            "Total exposure time in seconds" ∈
          (save_image lib (Disk.start fs) { res with coolerinfo := some ci } serial
            filepath focus_pos header_map).2.calls.map CallRecord.call) ∧
      (0 ≤ d.sensor_info.exposure_duration_min →
        res.metadata.exposureDuration = res.expinfo.duration →
        res.metadata.exposureDuration = d.sensor_info.exposure_duration_min) := by
  refine ⟨expose_ok_metadata fuel d _ _ res hres, ?_, ?_, ?_⟩
  · intro r hr v hv
    have hm := save_image_calls_mem lib fs { res with coolerinfo := some ci } ci rfl serial
      filepath focus_pos header_map r hr
    rw [hv] at hm
    exact exptime_mem_calls _ ci serial filepath focus_pos header_map v hm
  · intro hothers
    rw [(save_image_all_steps lib fs { res with coolerinfo := some ci } ci serial
      filepath focus_pos header_map rfl hothers).2.1]
    simp [save_image_calls]
  · intro hmin hecho
    rw [hecho, expose_ok_expinfo fuel d _ _ res hres]
    have hd := build_expinfo_bias_duration bin_x bin_y duration dark flat bias disable_overscan
      hbias
    simp only [make_exposure_options, std_max, hd]
    split
    · rfl
    · exact le_antisymm hmin (not_lt.1 ‹_›)

theorem exptime_is_reported_duration_witness :
    ((build_expinfo 1 1 10 false false true true).imagetype = ImageType.Bias ∧
        (expose 5 mockEchoCamera (World.start 0) (build_expinfo 1 1 10 false false true true)).1 =
          .returned (.Ok (make_result mockEchoImage
            (make_exposure_options mockInfo mockBiasRequest)))) ∧
      ((⟨.update_key "EXPTIME" (.dbl (1 / 10) 6) "Total exposure time in seconds", 0, 0⟩ :
            CallRecord) ∈
          (save_image mockStorageOk (Disk.start ())
            { make_result mockEchoImage (make_exposure_options mockInfo mockBiasRequest) with
              coolerinfo := some mockCooler } "SN1" "/data/a.fits" (-1) []).2.calls ∧
        HeaderValue.dbl (1 / 10) 6 =
          .dbl (make_result mockEchoImage
            (make_exposure_options mockInfo mockBiasRequest)).metadata.exposureDuration 6) ∧
      FileCall.update_key "EXPTIME"
          (.dbl (make_result mockEchoImage
            (make_exposure_options mockInfo mockBiasRequest)).metadata.exposureDuration 6)
          "Total exposure time in seconds" ∈
        (save_image mockStorageOk (Disk.start ())
          { make_result mockEchoImage (make_exposure_options mockInfo mockBiasRequest) with
            coolerinfo := some mockCooler } "SN1" "/data/a.fits" (-1) []).2.calls.map
          CallRecord.call ∧
      (make_result mockEchoImage
        (make_exposure_options mockInfo mockBiasRequest)).metadata.exposureDuration =
        mockEchoCamera.sensor_info.exposure_duration_min :=
  ⟨⟨by decide, mockEchoCamera_run⟩,
    ⟨by rw [mockEchoCamera_save_run]; simp [save_image_calls, make_result, mockEchoImage],
      (exptime_is_reported_duration 5 mockEchoCamera 0 1 1 10 false false true true _
        (by decide) mockEchoCamera_run mockStorageOk () mockCooler "SN1" "/data/a.fits" (-1)
        []).2.1 ⟨.update_key "EXPTIME" (.dbl (1 / 10) 6) "Total exposure time in seconds", 0, 0⟩
        (by rw [mockEchoCamera_save_run]; simp [save_image_calls, make_result, mockEchoImage]) _ rfl⟩,
    (exptime_is_reported_duration 5 mockEchoCamera 0 1 1 10 false false true true _
      (by decide) mockEchoCamera_run mockStorageOk () mockCooler "SN1" "/data/a.fits" (-1)
      []).2.2.1 (fun c _ _ => rfl),
    (exptime_is_reported_duration 5 mockEchoCamera 0 1 1 10 false false true true _
      (by decide) mockEchoCamera_run mockStorageOk () mockCooler "SN1" "/data/a.fits" (-1)
      []).2.2.2 (by norm_num [mockEchoCamera, mockDevice, mockInfo])
      (by norm_num [make_result, make_exposure_options, mockBiasRequest, build_expinfo, std_max,
        mockInfo, mockEchoImage])⟩

/-! ## Every run of `expose` follows the plan -/

theorem FollowsBy.done {plan : List Command} {w : World σ}
    {res : Run (Result ExposeResult String) × World σ} (hlog : res.2.log = w.log) :
    FollowsBy [] plan w res :=
  ⟨by simp [hlog], by simp, fun pre e post h => by simp at h⟩

theorem FollowsBy.append {evs : List Event} {plan : List Command} {w : World σ}
    {res : Run (Result ExposeResult String) × World σ} (evs1 : List Event) (w1 : World σ)
    (hlog : w1.log = w.log ++ evs1) (hp : ∀ e ∈ evs1, e.passed = true)
    (h : FollowsBy evs plan w1 res) :
    FollowsBy (evs1 ++ evs) (evs1.map Event.command ++ plan) w res := by
  obtain ⟨h1, h2, h3⟩ := h
  refine ⟨by rw [h1, hlog, List.append_assoc], ?_, ?_⟩
  · rw [List.map_append]
    exact (List.prefix_append_right_inj _).2 h2
  · intro pre e post heq hpost
    rcases List.append_eq_append_iff.1 heq with ⟨a, _, hb⟩ | ⟨c, hc, hd⟩
    · exact h3 a e post hb hpost
    · cases c with
      | nil => exact h3 [] e post (by simpa using hd.symm) hpost
      | cons x c =>
        simp only [List.cons_append, List.cons.injEq] at hd
        exact hp e (by rw [hc, hd.1]; simp)

theorem FollowsBy.last {plan : List Command} {w : World σ}
    {res : Run (Result ExposeResult String) × World σ} (e : Event)
    (hlog : res.2.log = w.log ++ [e]) : FollowsBy [e] (e.command :: plan) w res := by
  refine ⟨hlog, by simp [List.prefix_cons_inj], ?_⟩
  intro pre x post heq hpost
  have hlen := congrArg List.length heq
  simp at hlen
  have : post.length = 0 := by omega
  exact absurd (List.length_eq_zero.1 this) hpost

/-- The two ways the readiness check ends, with the event it adds. -/
theorem image_is_ready_cases (d : Device σ) (w : World σ) :
    (∃ what, image_is_ready d w =
        (.error what, ⟨(d.queryStatus w.dev).2, w.log ++ [Event.queryStatus (.raised what)]⟩)) ∨
    (∃ st le b, image_is_ready d w =
        (.ok b, ⟨(d.queryStatus w.dev).2, w.log ++ [Event.queryStatus (.promise st le)]⟩)) := by
  cases hq : (d.queryStatus w.dev).1 with
  | raised what =>
    exact Or.inl ⟨what, by simp [image_is_ready, hw_queryStatus, World.emit, await, hq]⟩
  | promise st le =>
    exact Or.inr ⟨st, le, decide ((if d.sensorId ≠ 0 then
        (d.getStatus (d.queryStatus w.dev).2).extSensorState
      else (d.getStatus (d.queryStatus w.dev).2).mainSensorState) =
        SensorStatus.ReadyToDownload), by
      simp only [image_is_ready, hw_queryStatus, World.emit, await, hq]⟩

/-- The download phase follows `download_plan`. -/
theorem expose_download_follows (d : Device σ) (w : World σ) (opts : TExposureOptions) :
    ∃ evs, FollowsBy evs download_plan w (expose_download d w opts) := by
  rcases expose_download_cases d w opts with ⟨what, h, _⟩ | ⟨st, le, _, _, h⟩ |
    ⟨st, le, image, _, _, h⟩
  · exact ⟨_, FollowsBy.last (Event.startDownload (.raised what)) (by rw [h])⟩
  · exact ⟨_, FollowsBy.append [Event.startDownload (.promise st le)]
      ⟨w.dev, w.log ++ [Event.startDownload (.promise st le)]⟩ rfl (by simp [Event.passed])
      (FollowsBy.last (Event.getImage true) (by rw [h]; simp))⟩
  · exact ⟨_, FollowsBy.append [Event.startDownload (.promise st le), Event.getImage false,
        Event.getBufferData, Event.getBufferLength]
      ⟨w.dev, w.log ++ [Event.startDownload (.promise st le), Event.getImage false,
        Event.getBufferData, Event.getBufferLength]⟩ rfl (by simp [Event.passed])
      (FollowsBy.last Event.getMetadata (by rw [h]; simp))⟩

/-- The readiness loop issues at most `fuel` status queries and then follows
`download_plan`. -/
theorem expose_poll_follows (d : Device σ) (opts : TExposureOptions) (fuel : Nat)
    (w : World σ) :
    ∃ evs k, k ≤ fuel ∧
      FollowsBy evs (List.replicate k Command.queryStatus ++ download_plan) w
        (expose_poll d opts fuel w) := by
  induction fuel generalizing w with
  | zero => exact ⟨[], 0, le_refl _, FollowsBy.done rfl⟩
  | succ n ih =>
    rcases image_is_ready_cases d w with ⟨what, hr⟩ | ⟨st, le, b, hr⟩
    · refine ⟨[Event.queryStatus (.raised what)], 1, by omega, ?_⟩
      have h : expose_poll d opts (n + 1) w = (.returned (.Err what),
          ⟨(d.queryStatus w.dev).2, w.log ++ [Event.queryStatus (.raised what)]⟩) := by
        simp only [expose_poll, hr]
      rw [h]
      exact FollowsBy.last (Event.queryStatus (.raised what)) rfl
    · cases b with
      | true =>
        have h : expose_poll d opts (n + 1) w = expose_download d
            ⟨(d.queryStatus w.dev).2, w.log ++ [Event.queryStatus (.promise st le)]⟩ opts := by
          simp only [expose_poll, hr]
        obtain ⟨evs, hevs⟩ := expose_download_follows d
          ⟨(d.queryStatus w.dev).2, w.log ++ [Event.queryStatus (.promise st le)]⟩ opts
        rw [h]
        exact ⟨_, 1, by omega, FollowsBy.append [Event.queryStatus (.promise st le)] _ rfl
          (by simp [Event.passed]) hevs⟩
      | false =>
        have h : expose_poll d opts (n + 1) w = expose_poll d opts n
            ⟨(d.queryStatus w.dev).2, w.log ++ [Event.queryStatus (.promise st le)]⟩ := by
          simp only [expose_poll, hr]
        obtain ⟨evs, k, hk, hevs⟩ := ih
          ⟨(d.queryStatus w.dev).2, w.log ++ [Event.queryStatus (.promise st le)]⟩
        rw [h]
        exact ⟨_, k + 1, by omega, FollowsBy.append [Event.queryStatus (.promise st le)] _ rfl
          (by simp [Event.passed]) hevs⟩

/-- The ways `expose` ends or goes on from the abort, with the events it adds. -/
theorem expose_acquire_cases (fuel : Nat) (d : Device σ) (w : World σ)
    (exp_info : ExposureInfo) :
    ∃ ra, (∃ out evs, expose_acquire fuel d w exp_info =
          (out, ⟨(expose_acquire fuel d w exp_info).2.dev,
            w.log ++ Event.abortExposure ra :: evs⟩) ∧
        (evs = [] ∨
          (∃ what, evs =
            [Event.setSubframe (make_subframe d.sensor_info exp_info) (.raised what)]) ∨
          ∃ st le what, evs =
            [Event.setSubframe (make_subframe d.sensor_info exp_info) (.promise st le),
              Event.startExposure (make_exposure_options d.sensor_info exp_info)
                (.raised what)])) ∨
      ∃ st le st2 le2 s3, expose_acquire fuel d w exp_info =
        expose_poll d (make_exposure_options d.sensor_info exp_info) fuel
          ⟨s3, w.log ++ [Event.abortExposure ra,
            Event.setSubframe (make_subframe d.sensor_info exp_info) (.promise st le),
            Event.startExposure (make_exposure_options d.sensor_info exp_info)
              (.promise st2 le2)]⟩ := by
  refine ⟨(d.abortExposure w.dev).1, ?_⟩
  by_cases hz : to_unsigned exp_info.bin_x = 0 ∨ to_unsigned exp_info.bin_y = 0
  · exact Or.inl ⟨.undefined, [], by
      simp [expose_acquire, hz, hw_abortExposure, World.emit], Or.inl rfl⟩
  · cases h1 : (d.setSubframe (d.abortExposure w.dev).2
        (make_subframe d.sensor_info exp_info)).1 with
    | raised what =>
      exact Or.inl ⟨.returned (.Err what), _, by
        simp [expose_acquire, hz, hw_abortExposure, hw_setSubframe, World.emit, await, h1],
        Or.inr (Or.inl ⟨what, rfl⟩)⟩
    | promise st le =>
      cases h2 : (d.startExposure (d.setSubframe (d.abortExposure w.dev).2
          (make_subframe d.sensor_info exp_info)).2
          (make_exposure_options d.sensor_info exp_info)).1 with
      | raised what =>
        exact Or.inl ⟨.returned (.Err what), _, by
          simp [expose_acquire, hz, hw_abortExposure, hw_setSubframe, hw_startExposure,
            World.emit, await, h1, h2],
          Or.inr (Or.inr ⟨st, le, what, rfl⟩)⟩
      | promise st2 le2 =>
        exact Or.inr ⟨st, le, st2, le2,
          (d.startExposure (d.setSubframe (d.abortExposure w.dev).2
            (make_subframe d.sensor_info exp_info)).2
            (make_exposure_options d.sensor_info exp_info)).2, by
          simp [expose_acquire, hz, hw_abortExposure, hw_setSubframe, hw_startExposure,
            World.emit, await, h1, h2]⟩

/-- From the abort on, `expose` follows `acquire_plan` with at most `fuel` status
queries, and issues at least the abort. -/
theorem expose_acquire_follows (fuel : Nat) (d : Device σ) (w : World σ)
    (exp_info : ExposureInfo) :
    ∃ evs k, evs ≠ [] ∧ k ≤ fuel ∧
      FollowsBy evs (acquire_plan d.sensor_info exp_info k) w
        (expose_acquire fuel d w exp_info) := by
  obtain ⟨ra, h⟩ := expose_acquire_cases fuel d w exp_info
  rcases h with ⟨out, evs, h, hevs⟩ | ⟨st, le, st2, le2, s3, h⟩
  · rcases hevs with rfl | ⟨what, rfl⟩ | ⟨st, le, what, rfl⟩
    · exact ⟨[Event.abortExposure ra], 0, by simp, le_refl _ |>.trans (Nat.zero_le _),
        FollowsBy.last (Event.abortExposure ra) (by rw [h])⟩
    · exact ⟨_, 0, by simp, Nat.zero_le _,
        FollowsBy.append [Event.abortExposure ra] ⟨w.dev, w.log ++ [Event.abortExposure ra]⟩
          rfl (by simp [Event.passed])
          (FollowsBy.last (Event.setSubframe (make_subframe d.sensor_info exp_info)
            (.raised what)) (by rw [h]; simp))⟩
    · exact ⟨_, 0, by simp, Nat.zero_le _,
        FollowsBy.append [Event.abortExposure ra,
            Event.setSubframe (make_subframe d.sensor_info exp_info) (.promise st le)]
          ⟨w.dev, w.log ++ [Event.abortExposure ra,
            Event.setSubframe (make_subframe d.sensor_info exp_info) (.promise st le)]⟩
          rfl (by simp [Event.passed])
          (FollowsBy.last (Event.startExposure (make_exposure_options d.sensor_info exp_info)
            (.raised what)) (by rw [h]; simp))⟩
  · obtain ⟨evs, k, hk, hevs⟩ := expose_poll_follows d
      (make_exposure_options d.sensor_info exp_info) fuel
      ⟨s3, w.log ++ [Event.abortExposure ra,
        Event.setSubframe (make_subframe d.sensor_info exp_info) (.promise st le),
        Event.startExposure (make_exposure_options d.sensor_info exp_info)
          (.promise st2 le2)]⟩
    rw [h]
    exact ⟨_, k, by simp, hk,
      FollowsBy.append [Event.abortExposure ra,
        Event.setSubframe (make_subframe d.sensor_info exp_info) (.promise st le),
        Event.startExposure (make_exposure_options d.sensor_info exp_info)
          (.promise st2 le2)] _ rfl (by simp [Event.passed]) hevs⟩

/-- The ways the capability check and set-up of one feature ends or goes on, with the
events it adds. -/
theorem gate_cases (d : Device σ) (c : Capability) (st : Setting) (msg : String)
    (rest : World σ → Run (Result ExposeResult String) × World σ) (w : World σ) :
    (∃ out s1 rq, (match await (hw_queryCapability d c w).1 with
        | .error what => (.thrown what, (hw_queryCapability d c w).2)
        | .ok () =>
          if (hw_getCapability d c (hw_queryCapability d c w).2).1 = false then
            (.returned (.Err msg), (hw_getCapability d c (hw_queryCapability d c w).2).2)
          else
            match await (hw_setSetting d st 1
                (hw_getCapability d c (hw_queryCapability d c w).2).2).1 with
            | .error what => (.returned (.Err what),
                (hw_setSetting d st 1 (hw_getCapability d c (hw_queryCapability d c w).2).2).2)
            | .ok () => rest
                (hw_setSetting d st 1 (hw_getCapability d c (hw_queryCapability d c w).2).2).2) =
          (out, ⟨s1, w.log ++ Event.queryCapability c rq :: []⟩) ∧
        ∃ what, rq = .raised what) ∨
    (∃ out s1 s2 l2, (match await (hw_queryCapability d c w).1 with
        | .error what => (.thrown what, (hw_queryCapability d c w).2)
        | .ok () =>
          if (hw_getCapability d c (hw_queryCapability d c w).2).1 = false then
            (.returned (.Err msg), (hw_getCapability d c (hw_queryCapability d c w).2).2)
          else
            match await (hw_setSetting d st 1
                (hw_getCapability d c (hw_queryCapability d c w).2).2).1 with
            | .error what => (.returned (.Err what),
                (hw_setSetting d st 1 (hw_getCapability d c (hw_queryCapability d c w).2).2).2)
            | .ok () => rest
                (hw_setSetting d st 1 (hw_getCapability d c (hw_queryCapability d c w).2).2).2) =
          (out, ⟨s1, w.log ++ [Event.queryCapability c (.promise s2 l2),
            Event.getCapability c false]⟩)) ∨
    (∃ out s1 s2 l2 what, (match await (hw_queryCapability d c w).1 with
        | .error what => (.thrown what, (hw_queryCapability d c w).2)
        | .ok () =>
          if (hw_getCapability d c (hw_queryCapability d c w).2).1 = false then
            (.returned (.Err msg), (hw_getCapability d c (hw_queryCapability d c w).2).2)
          else
            match await (hw_setSetting d st 1
                (hw_getCapability d c (hw_queryCapability d c w).2).2).1 with
            | .error what => (.returned (.Err what),
                (hw_setSetting d st 1 (hw_getCapability d c (hw_queryCapability d c w).2).2).2)
            | .ok () => rest
                (hw_setSetting d st 1 (hw_getCapability d c (hw_queryCapability d c w).2).2).2) =
          (out, ⟨s1, w.log ++ [Event.queryCapability c (.promise s2 l2),
            Event.getCapability c true, Event.setSetting st 1 (.raised what)]⟩)) ∨
    ∃ s1 s2 l2 s3 l3, (match await (hw_queryCapability d c w).1 with
        | .error what => (.thrown what, (hw_queryCapability d c w).2)
        | .ok () =>
          if (hw_getCapability d c (hw_queryCapability d c w).2).1 = false then
            (.returned (.Err msg), (hw_getCapability d c (hw_queryCapability d c w).2).2)
          else
            match await (hw_setSetting d st 1
                (hw_getCapability d c (hw_queryCapability d c w).2).2).1 with
            | .error what => (.returned (.Err what),
                (hw_setSetting d st 1 (hw_getCapability d c (hw_queryCapability d c w).2).2).2)
            | .ok () => rest
                (hw_setSetting d st 1 (hw_getCapability d c (hw_queryCapability d c w).2).2).2) =
          rest ⟨s1, w.log ++ [Event.queryCapability c (.promise s2 l2),
            Event.getCapability c true, Event.setSetting st 1 (.promise s3 l3)]⟩ := by
  cases hq : (d.queryCapability w.dev c).1 with
  | raised what =>
    exact Or.inl ⟨.thrown what, (d.queryCapability w.dev c).2, .raised what, by
      simp [hw_queryCapability, World.emit, await, hq], what, rfl⟩
  | promise s2 l2 =>
    cases hc : d.getCapability (d.queryCapability w.dev c).2 c with
    | false =>
      exact Or.inr (Or.inl ⟨.returned (.Err msg), (d.queryCapability w.dev c).2, s2, l2, by
        simp [hw_queryCapability, hw_getCapability, World.emit, await, hq, hc]⟩)
    | true =>
      cases hs : (d.setSetting (d.queryCapability w.dev c).2 st 1).1 with
      | raised what =>
        exact Or.inr (Or.inr (Or.inl ⟨.returned (.Err what),
          (d.setSetting (d.queryCapability w.dev c).2 st 1).2, s2, l2, what, by
          simp [hw_queryCapability, hw_getCapability, hw_setSetting, World.emit, await, hq,
            hc, hs]⟩))
      | promise s3 l3 =>
        exact Or.inr (Or.inr (Or.inr ⟨(d.setSetting (d.queryCapability w.dev c).2 st 1).2,
          s2, l2, s3, l3, by
          simp [hw_queryCapability, hw_getCapability, hw_setSetting, World.emit, await, hq,
            hc, hs]⟩))

/-- The capability check and set-up of one feature follows `gate_plan`, then the plan
of what comes after it. -/
theorem gate_follows (fuel : Nat) (d : Device σ) (c : Capability) (st : Setting)
    (msg : String) (rest : World σ → Run (Result ExposeResult String) × World σ)
    (restplan : Nat → List Command)
    (hrest : ∀ w1, ∃ evs k, evs ≠ [] ∧ k ≤ fuel ∧ FollowsBy evs (restplan k) w1 (rest w1))
    (w : World σ) :
    ∃ evs k, evs ≠ [] ∧ k ≤ fuel ∧
      FollowsBy evs (gate_plan c st ++ restplan k) w
        (match await (hw_queryCapability d c w).1 with
        | .error what => (.thrown what, (hw_queryCapability d c w).2)
        | .ok () =>
          if (hw_getCapability d c (hw_queryCapability d c w).2).1 = false then
            (.returned (.Err msg), (hw_getCapability d c (hw_queryCapability d c w).2).2)
          else
            match await (hw_setSetting d st 1
                (hw_getCapability d c (hw_queryCapability d c w).2).2).1 with
            | .error what => (.returned (.Err what),
                (hw_setSetting d st 1 (hw_getCapability d c (hw_queryCapability d c w).2).2).2)
            | .ok () => rest
                (hw_setSetting d st 1
                  (hw_getCapability d c (hw_queryCapability d c w).2).2).2) := by
  rcases gate_cases d c st msg rest w with ⟨out, s1, rq, h, _⟩ | ⟨out, s1, s2, l2, h⟩ |
    ⟨out, s1, s2, l2, what, h⟩ | ⟨s1, s2, l2, s3, l3, h⟩
  · rw [h]
    exact ⟨[Event.queryCapability c rq], 0, by simp, Nat.zero_le _,
      FollowsBy.last (Event.queryCapability c rq) rfl⟩
  · rw [h]
    exact ⟨_, 0, by simp, Nat.zero_le _,
      FollowsBy.append [Event.queryCapability c (.promise s2 l2)]
        ⟨w.dev, w.log ++ [Event.queryCapability c (.promise s2 l2)]⟩ rfl
        (by simp [Event.passed])
        (FollowsBy.last (Event.getCapability c false) (by simp))⟩
  · rw [h]
    exact ⟨_, 0, by simp, Nat.zero_le _,
      FollowsBy.append [Event.queryCapability c (.promise s2 l2), Event.getCapability c true]
        ⟨w.dev, w.log ++ [Event.queryCapability c (.promise s2 l2),
          Event.getCapability c true]⟩ rfl
        (by simp [Event.passed])
        (FollowsBy.last (Event.setSetting st 1 (.raised what)) (by simp))⟩
  · rw [h]
    obtain ⟨evs, k, _, hk, hevs⟩ := hrest ⟨s1, w.log ++ [Event.queryCapability c (.promise s2 l2),
      Event.getCapability c true, Event.setSetting st 1 (.promise s3 l3)]⟩
    exact ⟨_, k, by simp, hk,
      FollowsBy.append [Event.queryCapability c (.promise s2 l2), Event.getCapability c true,
        Event.setSetting st 1 (.promise s3 l3)] _ rfl (by simp [Event.passed]) hevs⟩

theorem expose_overscan_follows (fuel : Nat) (d : Device σ) (w : World σ)
    (exp_info : ExposureInfo) :
    ∃ evs k, evs ≠ [] ∧ k ≤ fuel ∧
      FollowsBy evs (overscan_plan d.sensor_info exp_info k) w
        (expose_overscan fuel d w exp_info) := by
  unfold expose_overscan overscan_plan
  by_cases h : exp_info.overscan = 1
  · simp only [if_pos h]
    exact gate_follows fuel d _ _ _ (fun w1 => expose_acquire fuel d w1 exp_info)
      (acquire_plan d.sensor_info exp_info)
      (fun w1 => expose_acquire_follows fuel d w1 exp_info) w
  · simp only [if_neg h, List.nil_append]
    exact expose_acquire_follows fuel d w exp_info

/-- Every run of `expose` issues at least one hardware call, and its calls are the
first calls of `expose_plan`, in order, with at most `fuel` status queries; every
answer but the last one let the run go on. -/
theorem expose_follows_plan (fuel : Nat) (d : Device σ) (w : World σ)
    (exp_info : ExposureInfo) :
    ∃ evs k, evs ≠ [] ∧ k ≤ fuel ∧
      FollowsBy evs (expose_plan d.sensor_info exp_info k) w (expose fuel d w exp_info) := by
  unfold expose expose_plan
  by_cases h : exp_info.bin_x ≠ 1 ∨ exp_info.bin_y ≠ 1
  · simp only [if_pos h]
    exact gate_follows fuel d _ _ _ (fun w1 => expose_overscan fuel d w1 exp_info)
      (overscan_plan d.sensor_info exp_info)
      (fun w1 => expose_overscan_follows fuel d w1 exp_info) w
  · simp only [if_neg h, List.nil_append]
    exact expose_overscan_follows fuel d w exp_info

/-! ## What follows from the plan -/

/-- A setting command of the plan sets 1, and sets a feature that the request asks
for. -/
theorem setSetting_mem_expose_plan (sensor_info : SensorInfo) (exp_info : ExposureInfo)
    (k : Nat) (s : Setting) (v : Int)
    (h : Command.setSetting s v ∈ expose_plan sensor_info exp_info k) :
    v = 1 ∧ ((s = Setting.UseOnChipBinning ∧ (exp_info.bin_x ≠ 1 ∨ exp_info.bin_y ≠ 1)) ∨
      (s = Setting.UseOverscan ∧ exp_info.overscan = 1)) := by
  unfold expose_plan overscan_plan acquire_plan gate_plan download_plan at h
  split_ifs at h with h1 h2 h2 <;> simp [List.mem_replicate] at h <;> tauto

/-- A capability query of the plan asks for a feature that the request asks for. -/
theorem queryCapability_mem_expose_plan (sensor_info : SensorInfo) (exp_info : ExposureInfo)
    (k : Nat) (c : Capability)
    (h : Command.queryCapability c ∈ expose_plan sensor_info exp_info k) :
    (c = Capability.eSupportsOnChipBinning ∧ (exp_info.bin_x ≠ 1 ∨ exp_info.bin_y ≠ 1)) ∨
      (c = Capability.eSupportsOverscan ∧ exp_info.overscan = 1) := by
  unfold expose_plan overscan_plan acquire_plan gate_plan download_plan at h
  split_ifs at h with h1 h2 h2 <;> simp [List.mem_replicate] at h <;> tauto

/-- The plan holds at most one capability query for a feature, and none for a feature
that the request does not ask for. -/
theorem count_queryCapability_expose_plan (sensor_info : SensorInfo)
    (exp_info : ExposureInfo) (k : Nat) :
    (expose_plan sensor_info exp_info k).count (Command.queryCapability .eSupportsOnChipBinning) =
        (if exp_info.bin_x ≠ 1 ∨ exp_info.bin_y ≠ 1 then 1 else 0) ∧
      (expose_plan sensor_info exp_info k).count (Command.queryCapability .eSupportsOverscan) =
        (if exp_info.overscan = 1 then 1 else 0) := by
  unfold expose_plan overscan_plan acquire_plan gate_plan download_plan
  split_ifs <;> simp [List.count_cons, List.count_replicate]

theorem isQuery_eq_command (c : Capability) (e : Event) :
    e.isQuery c = decide (e.command = Command.queryCapability c) := by
  cases e <;> simp [Event.isQuery, Event.command]

theorem queryCount_eq_count (c : Capability) (evs : List Event) :
    queryCount c evs = (evs.map Event.command).count (Command.queryCapability c) := by
  unfold queryCount
  rw [List.count_eq_countP, List.countP_map]
  congr 1
  funext e
  rw [isQuery_eq_command]
  by_cases h : e.command = Command.queryCapability c <;> simp [h]

/-- The events that `expose` appends are calls of the plan. -/
theorem expose_commands_mem (fuel : Nat) (d : Device σ) (w : World σ)
    (exp_info : ExposureInfo) :
    ∃ evs k, (expose fuel d w exp_info).2.log = w.log ++ evs ∧
      ∀ e ∈ evs, e.command ∈ expose_plan d.sensor_info exp_info k := by
  obtain ⟨evs, k, _, _, hlog, hpre, _⟩ := expose_follows_plan fuel d w exp_info
  exact ⟨evs, k, hlog, fun e he => hpre.subset (List.mem_map_of_mem _ he)⟩

/-- One call of `expose` issues the capability query for on-chip binning once when the
request asks for binning, and not at all otherwise; it issues the one for overscan at
most once, and only when the request asks for overscan. -/
theorem expose_queryCount (fuel : Nat) (d : Device σ) (w : World σ)
    (exp_info : ExposureInfo) :
    queryCount .eSupportsOnChipBinning (expose fuel d w exp_info).2.log =
        queryCount .eSupportsOnChipBinning w.log +
          (if exp_info.bin_x ≠ 1 ∨ exp_info.bin_y ≠ 1 then 1 else 0) ∧
      queryCount .eSupportsOverscan (expose fuel d w exp_info).2.log ≤
        queryCount .eSupportsOverscan w.log + (if exp_info.overscan = 1 then 1 else 0) := by
  obtain ⟨evs, k, hne, _, hlog, hpre, _⟩ := expose_follows_plan fuel d w exp_info
  have hc := count_queryCapability_expose_plan d.sensor_info exp_info k
  have hle := fun c => hpre.sublist.count_le (Command.queryCapability c)
  rw [hlog]
  simp only [queryCount, List.countP_append]
  have e1 := queryCount_eq_count .eSupportsOnChipBinning evs
  have e2 := queryCount_eq_count .eSupportsOverscan evs
  simp only [queryCount] at e1 e2
  rw [e1, e2]
  refine ⟨?_, ?_⟩
  · have h1 := hle .eSupportsOnChipBinning
    rw [hc.1] at h1
    by_cases hb : exp_info.bin_x ≠ 1 ∨ exp_info.bin_y ≠ 1
    · rw [if_pos hb] at h1 ⊢
      have hpos : 0 < (evs.map Event.command).count
          (Command.queryCapability .eSupportsOnChipBinning) := by
        cases evs with
        | nil => exact absurd rfl hne
        | cons e evs =>
          simp only [expose_plan, gate_plan, if_pos hb, List.map_cons, List.cons_append] at hpre
          rw [List.cons_prefix_cons] at hpre
          rw [List.map_cons, hpre.1]
          simp
      omega
    · rw [if_neg hb] at h1 ⊢
      omega
  · have h2 := hle .eSupportsOverscan
    rw [hc.2] at h2
    omega

/-- In a session of `expose` calls the capability query for on-chip binning is issued
once per call whose request asks for binning. -/
theorem expose_session_queryCount (fuel : Nat) (d : Device σ) (reqs : List ExposureInfo)
    (w : World σ) :
    queryCount .eSupportsOnChipBinning (expose_session fuel d reqs w).log =
        queryCount .eSupportsOnChipBinning w.log +
          reqs.countP (fun r => decide (r.bin_x ≠ 1 ∨ r.bin_y ≠ 1)) ∧
      queryCount .eSupportsOverscan (expose_session fuel d reqs w).log ≤
        queryCount .eSupportsOverscan w.log +
          reqs.countP (fun r => decide (r.overscan = 1)) := by
  induction reqs generalizing w with
  | nil => simp [expose_session]
  | cons r rs ih =>
    obtain ⟨h1, h2⟩ := ih (expose fuel d w r).2
    obtain ⟨h3, h4⟩ := expose_queryCount fuel d w r
    simp only [expose_session, List.countP_cons]
    rw [h1, h3]
    refine ⟨?_, ?_⟩
    · by_cases hb : r.bin_x ≠ 1 ∨ r.bin_y ≠ 1
      · simp only [hb, if_true, decide_True]
        omega
      · simp only [hb, if_false, decide_False]
        simp
    · by_cases ho : r.overscan = 1
      · simp only [ho, if_true, decide_True] at h4 ⊢
        omega
      · simp only [ho, if_false, decide_False] at h4 ⊢
        simp at h4 ⊢
        omega

/-! ## Settings are only turned on -/

/-- C27: `expose` only ever turns features on. Every `setSetting` call of a run has
the value 1; for a request with `bin_x = bin_y = 1` the run issues no
`UseOnChipBinning` setting command, and for a request with overscan disabled it issues
no `UseOverscan` setting command and no overscan capability query: `expose` has no
call that resets a setting left on the device by an earlier cycle. -/
theorem expose_only_turns_on (fuel : Nat) (d : Device σ) (s : σ) (exp_info : ExposureInfo) :
    (∀ st v r, Event.setSetting st v r ∈ (expose fuel d (World.start s) exp_info).2.log →
        v = 1) ∧
      (exp_info.bin_x = 1 ∧ exp_info.bin_y = 1 →
        ∀ v r, Event.setSetting Setting.UseOnChipBinning v r ∉
          (expose fuel d (World.start s) exp_info).2.log) ∧
      (exp_info.overscan ≠ 1 →
        (∀ v r, Event.setSetting Setting.UseOverscan v r ∉
          (expose fuel d (World.start s) exp_info).2.log) ∧
        ∀ r, Event.queryCapability Capability.eSupportsOverscan r ∉
          (expose fuel d (World.start s) exp_info).2.log) := by
  obtain ⟨evs, k, hlog, hmem⟩ := expose_commands_mem fuel d (World.start s) exp_info
  rw [hlog]
  simp only [World.start, List.nil_append]
  refine ⟨?_, ?_, ?_⟩
  · intro st v r h
    exact (setSetting_mem_expose_plan _ _ _ _ _ (hmem _ h)).1
  · intro hb v r h
    rcases (setSetting_mem_expose_plan _ _ _ _ _ (hmem _ h)).2 with ⟨_, h1⟩ | ⟨h1, _⟩
    · rcases h1 with h1 | h1
      · exact h1 hb.1
      · exact h1 hb.2
    · exact absurd h1 (by decide)
  · intro ho
    refine ⟨?_, ?_⟩
    · intro v r h
      rcases (setSetting_mem_expose_plan _ _ _ _ _ (hmem _ h)).2 with ⟨h1, _⟩ | ⟨_, h1⟩
      · exact absurd h1 (by decide)
      · exact ho h1
    · intro r h
      rcases queryCapability_mem_expose_plan _ _ _ _ (hmem _ h) with ⟨h1, _⟩ | ⟨_, h1⟩
      · exact absurd h1 (by decide)
      · exact ho h1

theorem expose_only_turns_on_witness :
    (Event.setSetting Setting.UseOnChipBinning 1 completed ∈
          (expose 5 mockCamera (World.start 0) mockRequest).2.log ∧ (1 : Int) = 1) ∧
      ((mockBiasRequest.bin_x = 1 ∧ mockBiasRequest.bin_y = 1) ∧
        ∀ v r, Event.setSetting Setting.UseOnChipBinning v r ∉
          (expose 5 mockCamera (World.start 0) mockBiasRequest).2.log) ∧
      (mockBiasRequest.overscan ≠ 1 ∧
        (∀ v r, Event.setSetting Setting.UseOverscan v r ∉
          (expose 5 mockCamera (World.start 0) mockBiasRequest).2.log) ∧
        ∀ r, Event.queryCapability Capability.eSupportsOverscan r ∉
          (expose 5 mockCamera (World.start 0) mockBiasRequest).2.log) :=
  ⟨⟨by simp [mockCamera_run],
      (expose_only_turns_on 5 mockCamera 0 mockRequest).1 Setting.UseOnChipBinning 1 completed
        (by simp [mockCamera_run])⟩,
    ⟨⟨rfl, rfl⟩, (expose_only_turns_on 5 mockCamera 0 mockBiasRequest).2.1 ⟨rfl, rfl⟩⟩,
    ⟨by decide, (expose_only_turns_on 5 mockCamera 0 mockBiasRequest).2.2 (by decide)⟩⟩

/-! ## The order of the commands -/

/-- C24, as stated, fails: on `mockCamera` with `mockRequest` (binning 3 x 1) the run
reaches `startExposure`, and the setting `UseOnChipBinning` is applied before the
abort: it is the third call, `abortExposure` the fourth. -/
theorem setting_precedes_abort :
    (expose 5 mockCamera (World.start 0) mockRequest).2.log.take 6 =
      [Event.queryCapability .eSupportsOnChipBinning completed,
        Event.getCapability .eSupportsOnChipBinning true,
        Event.setSetting .UseOnChipBinning 1 completed,
        Event.abortExposure completed,
        Event.setSubframe ⟨0, 0, 33, 100, 3, 1⟩ completed,
        Event.startExposure (make_exposure_options mockInfo mockRequest) completed] ∧
      startExposureCount (expose 5 mockCamera (World.start 0) mockRequest).2.log = 1 := by
  rw [mockCamera_run]
  exact ⟨rfl, rfl⟩

/-- C24, amended: on every run of `expose` that reaches start-exposure, the hardware
calls are, in this order: for on-chip binning, if requested, the capability query, the
read of the flag and the setting; the same three for overscan, if requested; then
`abortExposure`, then `setSubframe`, then `startExposure`; after these only status
queries and calls of the download phase. Every capability flag read was true, so each
setting was applied only if requested and confirmed supported; every setting is
applied before the abort. -/
theorem expose_command_order (fuel : Nat) (d : Device σ) (s : σ) (exp_info : ExposureInfo)
    (h : ∃ o r, Event.startExposure o r ∈ (expose fuel d (World.start s) exp_info).2.log) :
    (∃ post, (expose fuel d (World.start s) exp_info).2.log.map Event.command =
        (if exp_info.bin_x ≠ 1 ∨ exp_info.bin_y ≠ 1 then
          [Command.queryCapability .eSupportsOnChipBinning,
            Command.getCapability .eSupportsOnChipBinning,
            Command.setSetting .UseOnChipBinning 1] else []) ++
        (if exp_info.overscan = 1 then
          [Command.queryCapability .eSupportsOverscan,
            Command.getCapability .eSupportsOverscan,
            Command.setSetting .UseOverscan 1] else []) ++
        [Command.abortExposure, Command.setSubframe (make_subframe d.sensor_info exp_info),
          Command.startExposure (make_exposure_options d.sensor_info exp_info)] ++ post ∧
        ∀ c ∈ post, c = Command.queryStatus ∨ c ∈ download_plan) ∧
      ∀ c, Event.getCapability c false ∉ (expose fuel d (World.start s) exp_info).2.log := by
  obtain ⟨o, r, h⟩ := h
  obtain ⟨evs, k, _, _, hlog, hpre, hpassed⟩ := expose_follows_plan fuel d (World.start s)
    exp_info
  rw [hlog] at h ⊢
  simp only [World.start, List.nil_append] at h ⊢
  have hplan : expose_plan d.sensor_info exp_info k =
      ((if exp_info.bin_x ≠ 1 ∨ exp_info.bin_y ≠ 1 then
          [Command.queryCapability .eSupportsOnChipBinning,
            Command.getCapability .eSupportsOnChipBinning,
            Command.setSetting .UseOnChipBinning 1] else []) ++
        (if exp_info.overscan = 1 then
          [Command.queryCapability .eSupportsOverscan,
            Command.getCapability .eSupportsOverscan,
            Command.setSetting .UseOverscan 1] else []) ++
        [Command.abortExposure, Command.setSubframe (make_subframe d.sensor_info exp_info)]) ++
      [Command.startExposure (make_exposure_options d.sensor_info exp_info)] ++
      (List.replicate k Command.queryStatus ++ download_plan) := by
    simp [expose_plan, overscan_plan, acquire_plan, gate_plan]
  rw [hplan] at hpre
  have hcmd : Command.startExposure o ∈ evs.map Event.command :=
    List.mem_map_of_mem Event.command h
  have hdecomp : ∃ post, evs.map Event.command =
      ((if exp_info.bin_x ≠ 1 ∨ exp_info.bin_y ≠ 1 then
          [Command.queryCapability .eSupportsOnChipBinning,
            Command.getCapability .eSupportsOnChipBinning,
            Command.setSetting .UseOnChipBinning 1] else []) ++
        (if exp_info.overscan = 1 then
          [Command.queryCapability .eSupportsOverscan,
            Command.getCapability .eSupportsOverscan,
            Command.setSetting .UseOverscan 1] else []) ++
        [Command.abortExposure, Command.setSubframe (make_subframe d.sensor_info exp_info)]) ++
      [Command.startExposure (make_exposure_options d.sensor_info exp_info)] ++ post ∧
      ∀ c ∈ post, c = Command.queryStatus ∨ c ∈ download_plan := by
    rcases List.prefix_or_prefix_of_prefix hpre (List.prefix_append _ _) with h1 | h1
    · rcases List.prefix_concat_iff.1 h1 with h2 | h2
      · exact ⟨[], by rw [h2, List.append_nil], by simp⟩
      · have h3 := h2.subset hcmd
        split_ifs at h3 <;> simp at h3
    · obtain ⟨post, hpost⟩ := h1
      refine ⟨post, hpost.symm, ?_⟩
      rw [← hpost] at hpre
      have h4 := ((List.prefix_append_right_inj _).1 hpre).subset
      intro c hc
      have h5 := h4 hc
      simp only [List.mem_append, List.mem_replicate] at h5
      rcases h5 with h5 | h5
      · exact Or.inl h5.2
      · exact Or.inr h5
  obtain ⟨post, hpost, hpostmem⟩ := hdecomp
  refine ⟨⟨post, by rw [hpost]; simp, hpostmem⟩, ?_⟩
  intro c hc
  obtain ⟨pre, tail, hsplit⟩ := List.append_of_mem hc
  have htail : tail = [] := by
    by_contra hne
    have := hpassed pre _ tail hsplit hne
    simp [Event.passed] at this
  subst htail
  rw [hsplit, List.map_append] at hpost
  simp only [List.map_cons, List.map_nil, Event.command] at hpost
  rcases List.eq_nil_or_concat post with rfl | ⟨L, b, rfl⟩
  · rw [List.append_nil] at hpost
    have := (List.append_inj' hpost rfl).2
    simp at this
  · rw [List.concat_eq_append] at hpost hpostmem
    rw [← List.append_assoc] at hpost
    have := (List.append_inj' hpost rfl).2
    simp only [List.cons.injEq, and_true] at this
    have hb := hpostmem b (by simp)
    rw [← this] at hb
    simp [download_plan] at hb

theorem expose_command_order_witness :
    (∃ o r, Event.startExposure o r ∈ (expose 5 mockCamera (World.start 0) mockRequest).2.log) ∧
      (∃ post, (expose 5 mockCamera (World.start 0) mockRequest).2.log.map Event.command =
        (if mockRequest.bin_x ≠ 1 ∨ mockRequest.bin_y ≠ 1 then
          [Command.queryCapability .eSupportsOnChipBinning,
            Command.getCapability .eSupportsOnChipBinning,
            Command.setSetting .UseOnChipBinning 1] else []) ++
        (if mockRequest.overscan = 1 then
          [Command.queryCapability .eSupportsOverscan,
            Command.getCapability .eSupportsOverscan,
            Command.setSetting .UseOverscan 1] else []) ++
        [Command.abortExposure,
          Command.setSubframe (make_subframe mockCamera.sensor_info mockRequest),
          Command.startExposure (make_exposure_options mockCamera.sensor_info mockRequest)] ++
          post ∧
        ∀ c ∈ post, c = Command.queryStatus ∨ c ∈ download_plan) ∧
      ∀ c, Event.getCapability c false ∉
        (expose 5 mockCamera (World.start 0) mockRequest).2.log :=
  ⟨⟨make_exposure_options mockInfo mockRequest, completed, by simp [mockCamera_run]⟩,
    expose_command_order 5 mockCamera 0 mockRequest
      ⟨make_exposure_options mockInfo mockRequest, completed, by simp [mockCamera_run]⟩⟩

/-! ## Capability queries are not cached -/

/-- C22, as stated, fails: two successive calls of `expose` on `mockCamera` with a
request for binning 3 x 1 both succeed, and the capability query for on-chip binning is
issued twice. -/
theorem capability_query_repeated :
    (expose 5 mockCamera (World.start 0) mockRequest).1 =
        .returned (.Ok (make_result mockImage (make_exposure_options mockInfo mockRequest))) ∧
      (expose 5 mockCamera (expose 5 mockCamera (World.start 0) mockRequest).2 mockRequest).1 =
        .returned (.Ok (make_result mockImage (make_exposure_options mockInfo mockRequest))) ∧
      queryCount .eSupportsOnChipBinning
        (expose_session 5 mockCamera [mockRequest, mockRequest] (World.start 0)).log = 2 :=
  ⟨rfl, rfl, rfl⟩

/-- C22, amended: the driver keeps no capability flag between calls. In a session of
`expose` calls on the same camera, the capability query for on-chip binning is issued
once for every call whose request has binning other than 1 x 1, so `n` such calls issue
it `n` times; the query for overscan is issued at most once for every call that
requests overscan; within one call each of the two queries is issued at most once. -/
theorem capability_query_per_call (fuel : Nat) (d : Device σ) (reqs : List ExposureInfo)
    (s : σ) :
    queryCount .eSupportsOnChipBinning (expose_session fuel d reqs (World.start s)).log =
        reqs.countP (fun r => decide (r.bin_x ≠ 1 ∨ r.bin_y ≠ 1)) ∧
      queryCount .eSupportsOverscan (expose_session fuel d reqs (World.start s)).log ≤
        reqs.countP (fun r => decide (r.overscan = 1)) ∧
      ∀ (w : World σ) (exp_info : ExposureInfo) (c : Capability),
        queryCount c (expose fuel d w exp_info).2.log ≤ queryCount c w.log + 1 := by
  obtain ⟨h1, h2⟩ := expose_session_queryCount fuel d reqs (World.start s)
  refine ⟨?_, ?_, ?_⟩
  · rw [h1]
    simp [World.start, queryCount]
  · refine le_trans h2 ?_
    simp [World.start, queryCount]
  · intro w exp_info c
    obtain ⟨h3, h4⟩ := expose_queryCount fuel d w exp_info
    cases c with
    | eSupportsOnChipBinning =>
      rw [h3]
      split_ifs <;> omega
    | eSupportsOverscan =>
      refine le_trans h4 ?_
      split_ifs <;> omega

/-! ## The readiness loop -/

theorem poll_state_succ (d : Device σ) (s : σ) (i : Nat) :
    poll_state d s (i + 1) = poll_state d (d.queryStatus s).2 i := by
  induction i with
  | zero => rfl
  | succ n ih =>
    show (d.queryStatus (poll_state d s (n + 1))).2 = _
    rw [ih]
    rfl

theorem poll_events_succ (d : Device σ) (s : σ) (k : Nat) :
    poll_events d s (k + 1) =
      Event.queryStatus (d.queryStatus s).1 :: poll_events d (d.queryStatus s).2 k := by
  unfold poll_events
  rw [List.range_succ_eq_map]
  simp only [List.map_cons, List.map_map]
  congr 1
  apply List.map_congr_left
  intro i _
  simp only [Function.comp]
  rw [poll_state_succ]

/-- The readiness check after a status query that did not raise. -/
theorem image_is_ready_promise (d : Device σ) (s : σ) (l : List Event)
    (h : ∃ st le, (d.queryStatus s).1 = .promise st le) :
    image_is_ready d ⟨s, l⟩ =
      (.ok (reports_ready d (d.queryStatus s).2),
        ⟨(d.queryStatus s).2, l ++ [Event.queryStatus (d.queryStatus s).1]⟩) := by
  obtain ⟨st, le, h⟩ := h
  simp only [image_is_ready, hw_queryStatus, World.emit, await, h, reports_ready]

/-- The loop over a device that is ready at the status query number `j + 1` and not
before. -/
theorem expose_poll_ready_at (d : Device σ) (opts : TExposureOptions) (j : Nat) :
    ∀ (s : σ) (l : List Event) (fuel : Nat), j + 1 ≤ fuel →
      (∀ i, i < j + 1 → ∃ st le, (d.queryStatus (poll_state d s i)).1 = .promise st le) →
      (∀ i, 1 ≤ i → i < j + 1 → reports_ready d (poll_state d s i) = false) →
      reports_ready d (poll_state d s (j + 1)) = true →
      expose_poll d opts fuel ⟨s, l⟩ =
        expose_download d ⟨poll_state d s (j + 1), l ++ poll_events d s (j + 1)⟩ opts := by
  induction j with
  | zero =>
    intro s l fuel hfuel hq _ hready
    obtain ⟨f, rfl⟩ : ∃ f, fuel = f + 1 := ⟨fuel - 1, by omega⟩
    have h0 := image_is_ready_promise d s l (hq 0 (by omega))
    have hr : reports_ready d (d.queryStatus s).2 = true := hready
    simp only [expose_poll, h0, hr]
    rfl
  | succ n ih =>
    intro s l fuel hfuel hq hnot hready
    obtain ⟨f, rfl⟩ : ∃ f, fuel = f + 1 := ⟨fuel - 1, by omega⟩
    have h0 := image_is_ready_promise d s l (hq 0 (by omega))
    have hr : reports_ready d (d.queryStatus s).2 = false := hnot 1 (by omega) (by omega)
    simp only [expose_poll, h0, hr]
    rw [ih (d.queryStatus s).2 _ f (by omega)
      (fun i hi => by rw [← poll_state_succ]; exact hq (i + 1) (by omega))
      (fun i h1 hi => by rw [← poll_state_succ]; exact hnot (i + 1) (by omega) (by omega))
      (by rw [← poll_state_succ]; exact hready)]
    rw [← poll_state_succ, poll_events_succ d s (n + 1), List.append_assoc]
    rfl

/-- The download phase starts with `startDownload`. -/
theorem expose_download_first (d : Device σ) (w : World σ) (opts : TExposureOptions) :
    ∃ r rest, (expose_download d w opts).2.log = w.log ++ Event.startDownload r :: rest := by
  rcases expose_download_cases d w opts with ⟨what, h, _⟩ | ⟨st, le, _, _, h⟩ |
    ⟨st, le, image, _, _, h⟩
  · exact ⟨_, [], by rw [h]⟩
  · exact ⟨_, _, by rw [h]⟩
  · exact ⟨_, _, by rw [h]⟩

/-- C25: when `image_is_ready` returns, it returns true exactly when the status field
selected by the sensor in use (`extSensorState` if the sensor id is not 0,
`mainSensorState` if it is 0), read after the status query, equals `ReadyToDownload`;
it returns whenever the query does not raise. And for every `k ≥ 1`, on a device whose
status queries complete and that reports not-ready after each of the first `k - 1`
status queries and ready after the `k`-th, the readiness loop of `expose` (with fuel
for at least `k` rounds) issues exactly `k` status queries and then runs the download
phase, whose first call is `startDownload`. -/
theorem readiness_polling (d : Device σ) (opts : TExposureOptions) (s : σ) (l : List Event)
    (k fuel : Nat) (hk : 1 ≤ k) (hfuel : k ≤ fuel)
    (hquery : ∀ i, i < k → ∃ st le, (d.queryStatus (poll_state d s i)).1 = .promise st le)
    (hnot : ∀ i, 1 ≤ i → i < k → reports_ready d (poll_state d s i) = false)
    (hready : reports_ready d (poll_state d s k) = true) :
    (∀ (w : World σ) (b : Bool), (image_is_ready d w).1 = .ok b →
        (b = true ↔
          (if d.sensorId ≠ 0 then (d.getStatus (d.queryStatus w.dev).2).extSensorState
            else (d.getStatus (d.queryStatus w.dev).2).mainSensorState) =
              SensorStatus.ReadyToDownload)) ∧
      (∀ (w : World σ), (∃ st le, (d.queryStatus w.dev).1 = .promise st le) →
        ∃ b, (image_is_ready d w).1 = .ok b) ∧
      expose_poll d opts fuel ⟨s, l⟩ =
        expose_download d ⟨poll_state d s k, l ++ poll_events d s k⟩ opts ∧
      (poll_events d s k).length = k ∧
      (∀ e ∈ poll_events d s k, ∃ r, e = Event.queryStatus r) ∧
      ∃ r rest, (expose_poll d opts fuel ⟨s, l⟩).2.log =
        l ++ poll_events d s k ++ Event.startDownload r :: rest := by
  obtain ⟨j, rfl⟩ : ∃ j, k = j + 1 := ⟨k - 1, by omega⟩
  have hrun := expose_poll_ready_at d opts j s l fuel hfuel hquery hnot hready
  refine ⟨?_, ?_, hrun, by simp [poll_events], ?_, ?_⟩
  · intro w b hb
    cases hq : (d.queryStatus w.dev).1 with
    | raised what =>
      simp [image_is_ready, hw_queryStatus, await, hq] at hb
    | promise st le =>
      have h0 := image_is_ready_promise d w.dev w.log ⟨st, le, hq⟩
      have hw : (⟨w.dev, w.log⟩ : World σ) = w := rfl
      rw [hw] at h0
      rw [h0] at hb
      simp only [Except.ok.injEq] at hb
      rw [← hb]
      simp [reports_ready]
  · intro w hq
    have h0 := image_is_ready_promise d w.dev w.log hq
    have hw : (⟨w.dev, w.log⟩ : World σ) = w := rfl
    rw [hw] at h0
    exact ⟨_, by rw [h0]⟩
  · intro e he
    simp only [poll_events, List.mem_map] at he
    obtain ⟨i, _, hi⟩ := he
    exact ⟨_, hi.symm⟩
  · rw [hrun]
    exact expose_download_first d _ opts

theorem readiness_polling_witness :
    ((1 ≤ 2 ∧ 2 ≤ 5) ∧
        (∀ i, i < 2 → ∃ st le, (mockCamera.queryStatus (poll_state mockCamera 0 i)).1 =
          .promise st le) ∧
        (∀ i, 1 ≤ i → i < 2 → reports_ready mockCamera (poll_state mockCamera 0 i) = false) ∧
        reports_ready mockCamera (poll_state mockCamera 0 2) = true) ∧
      expose_poll mockCamera (make_exposure_options mockInfo mockRequest) 5 ⟨0, []⟩ =
        expose_download mockCamera
          ⟨poll_state mockCamera 0 2, [] ++ poll_events mockCamera 0 2⟩
          (make_exposure_options mockInfo mockRequest) ∧
      (poll_events mockCamera 0 2).length = 2 :=
  ⟨⟨⟨by decide, by decide⟩, fun _ _ => ⟨_, _, rfl⟩,
      fun i h1 h2 => by
        have hi : i = 1 := by omega
        subst hi
        rfl,
      rfl⟩,
    (readiness_polling mockCamera (make_exposure_options mockInfo mockRequest) 0 [] 2 5
      (by decide) (by decide) (fun _ _ => ⟨_, _, rfl⟩)
      (fun i h1 h2 => by
        have hi : i = 1 := by omega
        subst hi
        rfl) rfl).2.2.1,
    (readiness_polling mockCamera (make_exposure_options mockInfo mockRequest) 0 [] 2 5
      (by decide) (by decide) (fun _ _ => ⟨_, _, rfl⟩)
      (fun i h1 h2 => by
        have hi : i = 1 := by omega
        subst hi
        rfl) rfl).2.2.2.1⟩

/-! ## Camera look-up -/

/-- C23: the index test of `initialize_camera` is `n - 1 > count`, not `n ≥ count`.
With one camera attached (`count = 1`), the documented case `n = 1` is not rejected:
`getUSBCamera(1)` is called and the error is "Could not get camera!". For every gateway
and index, the error "There aren't that many cameras available!" is returned exactly
when `count ≠ 0` and `n > count + 1`, `getUSBCamera(n)` is called exactly when
`count ≠ 0` and `n ≤ count + 1` (so also for `n = count`, `n = count + 1` and negative
`n`), and "No cameras found!" is returned exactly when `count = 0`. -/
theorem initialize_camera_index_test {κ : Type} :
    mockGateway.count = 1 ∧
      initialize_camera mockGateway 1 =
        (.Err msg_no_camera,
          [.queryUSBCameras, .getUSBCameraCount, .getUSBCamera 1]) ∧
      msg_no_camera ≠ msg_not_that_many ∧
      GatewayCall.getUSBCamera (-1) ∈ (initialize_camera mockGateway (-1)).2 ∧
      (∀ (g : Gateway κ) (n : Int),
        ((initialize_camera g n).1 = .Err msg_not_that_many ↔ g.count ≠ 0 ∧ g.count + 1 < n) ∧
        (GatewayCall.getUSBCamera n ∈ (initialize_camera g n).2 ↔
          g.count ≠ 0 ∧ n ≤ g.count + 1) ∧
        ((initialize_camera g n).1 = .Err msg_no_cameras ↔ g.count = 0)) := by
  refine ⟨rfl, by decide, by decide, by decide, ?_⟩
  intro g n
  have e1 : msg_no_cameras ≠ msg_not_that_many := by decide
  have e2 : msg_no_camera ≠ msg_not_that_many := by decide
  have e3 : msg_no_camera ≠ msg_no_cameras := by decide
  by_cases h0 : g.count = 0
  · simp [initialize_camera, h0, e1]
  · by_cases h1 : n - 1 > g.count
    · have h2 : g.count + 1 < n := by omega
      have h3 : ¬ n ≤ g.count + 1 := by omega
      simp [initialize_camera, h0, h1, h2, h3, e1.symm]
    · have h2 : ¬ g.count + 1 < n := by omega
      have h3 : n ≤ g.count + 1 := by omega
      cases hc : g.getUSBCamera n with
      | none => simp [initialize_camera, h0, h1, h2, h3, hc, e2, e3]
      | some c => simp [initialize_camera, h0, h1, h2, h3, hc]

/-! ## The `--header` callback -/

theorem map_find_assign_same (k v : String) (m : List (String × String)) :
    map_find k (map_assign k v m) = some v := by
  induction m with
  | nil => simp [map_assign, map_find]
  | cons kv rest ih =>
    obtain ⟨k1, v1⟩ := kv
    by_cases hk : k1 = k
    · simp [map_assign, map_find, hk]
    · simp [map_assign, map_find, hk, ih]

theorem map_find_assign_other (k k2 v : String) (m : List (String × String))
    (hne : k ≠ k2) : map_find k2 (map_assign k v m) = map_find k2 m := by
  induction m with
  | nil => simp [map_assign, map_find, hne]
  | cons kv rest ih =>
    obtain ⟨k1, v1⟩ := kv
    by_cases hk : k1 = k
    · subst hk
      simp [map_assign, map_find, hne]
    · simp only [map_assign, hk, if_false, map_find, ih]

/-- Reading a key after a sequence of assignments gives the value of the last
assignment to that key. -/
theorem map_find_foldl (k : String) (ps : List (String × String))
    (m : List (String × String)) :
    map_find k (ps.foldl (fun m kv => map_assign kv.1 kv.2 m) m) =
      ps.foldl (fun acc kv => if kv.1 = k then some kv.2 else acc) (map_find k m) := by
  induction ps generalizing m with
  | nil => rfl
  | cons kv rest ih =>
    simp only [List.foldl_cons]
    rw [ih]
    by_cases hk : kv.1 = k
    · subst hk
      simp [map_find_assign_same]
    · simp [map_find_assign_other _ _ _ _ hk, hk]

/-- The value of the last pair with the key `k`, by position. -/
theorem last_assignment_iff (k v : String) (ps : List (String × String)) :
    ps.foldl (fun acc kv => if kv.1 = k then some kv.2 else acc) none = some v ↔
      ∃ i, ps[i]? = some (k, v) ∧
        ∀ (j : Nat) (kv : String × String), i < j → ps[j]? = some kv → kv.1 ≠ k := by
  induction ps using List.reverseRecOn with
  | nil => simp
  | append_singleton ps kv ih =>
    rw [List.foldl_append]
    simp only [List.foldl_cons, List.foldl_nil]
    by_cases hk : kv.1 = k
    · rw [if_pos hk]
      constructor
      · intro h
        simp only [Option.some.injEq] at h
        refine ⟨ps.length, ?_, ?_⟩
        · simp [← hk, ← h]
        · intro j kv2 hj hget
          have hlt := (List.getElem?_eq_some_iff.1 hget).1
          simp at hlt
          omega
      · rintro ⟨i, hi, hlast⟩
        have hlt := (List.getElem?_eq_some_iff.1 hi).1
        simp only [List.length_append, List.length_singleton] at hlt
        by_cases hil : i = ps.length
        · subst hil
          simp at hi
          rw [hi]
        · exact absurd hk (hlast ps.length kv (by omega) (by simp))
    · rw [if_neg hk, ih]
      constructor
      · rintro ⟨i, hi, hlast⟩
        have hlt := (List.getElem?_eq_some_iff.1 hi).1
        refine ⟨i, by rw [List.getElem?_append_left hlt]; exact hi, ?_⟩
        intro j kv2 hj hget
        by_cases hjl : j < ps.length
        · rw [List.getElem?_append_left hjl] at hget
          exact hlast j kv2 hj hget
        · have hlt2 := (List.getElem?_eq_some_iff.1 hget).1
          simp only [List.length_append, List.length_singleton] at hlt2
          have hje : j = ps.length := by omega
          subst hje
          simp at hget
          rw [← hget]
          exact hk
      · rintro ⟨i, hi, hlast⟩
        have hlt := (List.getElem?_eq_some_iff.1 hi).1
        simp only [List.length_append, List.length_singleton] at hlt
        by_cases hil : i < ps.length
        · refine ⟨i, by rw [List.getElem?_append_left hil] at hi; exact hi, ?_⟩
          intro j kv2 hj hget
          have hjl := (List.getElem?_eq_some_iff.1 hget).1
          exact hlast j kv2 hj (by rw [List.getElem?_append_left hjl]; exact hget)
        · have hie : i = ps.length := by omega
          subst hie
          simp at hi
          rw [hi] at hk
          exact absurd rfl hk

/-- The pair number `i` of a flat list holds the strings at `2 i` and `2 i + 1`. -/
theorem header_pairs_getElem (vals : List String) :
    ∀ (i : Nat) (k v : String), (header_pairs vals)[i]? = some (k, v) ↔
      vals[2 * i]? = some k ∧ vals[2 * i + 1]? = some v := by
  induction vals using header_pairs.induct with
  | case1 k1 v1 rest ih =>
    intro i k v
    cases i with
    | zero => simp [header_pairs]
    | succ n =>
      have h1 : 2 * (n + 1) = 2 * n + 1 + 1 := by ring
      have h2 : 2 * (n + 1) + 1 = 2 * n + 1 + 1 + 1 := by ring
      simp only [header_pairs, List.getElem?_cons_succ, h1, h2]
      exact ih n k v
  | case2 vals hne =>
    intro i k v
    have hp : header_pairs vals = [] := by
      unfold header_pairs
      split
      · exact absurd rfl (hne _ _ _)
      · rfl
    rw [hp]
    simp only [List.getElem?_nil, reduceCtorEq, false_iff, not_and]
    intro h1 h2
    match vals, hne with
    | [], _ => simp at h1
    | [a], _ =>
      have hlt := (List.getElem?_eq_some_iff.1 h2).1
      simp at hlt
    | a :: b :: rest, hne => exact hne a b rest rfl

theorem header_pairs_length (vals : List String) :
    (header_pairs vals).length = vals.length / 2 := by
  induction vals using header_pairs.induct with
  | case1 k1 v1 rest ih =>
    simp only [header_pairs, List.length_cons, ih]
    omega
  | case2 vals hne =>
    match vals, hne with
    | [], _ => simp [header_pairs]
    | [a], _ => simp [header_pairs]
    | a :: b :: rest, hne => exact absurd rfl (hne a b rest)

/-- The rounds of the callback assign the pairs of the list in order; none of them
throws. -/
theorem header_callback_rounds (vals : List String) (n : Nat)
    (hn : n ≤ (header_pairs vals).length) (m : List (String × String)) :
    (List.range n).foldlM (header_callback_step vals) m =
      some (((header_pairs vals).take n).foldl (fun m kv => map_assign kv.1 kv.2 m) m) := by
  induction n with
  | zero => simp
  | succ n ih =>
    have hlt : n < (header_pairs vals).length := by omega
    rw [List.range_succ, List.foldlM_append, ih (by omega)]
    have hget : (header_pairs vals)[n]? = some ((header_pairs vals)[n]) :=
      List.getElem?_eq_getElem hlt
    have hkv := (header_pairs_getElem vals n _ _).1 hget
    have htake : (header_pairs vals).take (n + 1) =
        (header_pairs vals).take n ++ [(header_pairs vals)[n]] := by
      rw [List.take_succ, hget]
      rfl
    rw [htake, List.foldl_append]
    simp only [Option.bind_eq_bind, Option.some_bind, List.foldlM_cons, List.foldlM_nil,
      header_callback_step, Nat.mul_comm n 2, hkv.1, hkv.2, List.foldl_cons, List.foldl_nil]
    rfl

/-- C28: for every flat list `vals`, the `--header` callback, started on the empty
map, returns true without throwing, and the map it builds is the result of assigning
the pairs `(vals[2i], vals[2i+1])` for `i < floor(len / 2)` in order. So the keys of the
map are exactly the strings at the even positions `2i` with `i < floor(len / 2)`, each
key maps to the value paired with its last occurrence, and a trailing unpaired string
is ignored. -/
theorem header_callback_builds_map (vals : List String) :
    header_callback vals [] =
        some (true, (header_pairs vals).foldl (fun m kv => map_assign kv.1 kv.2 m) []) ∧
      (header_pairs vals).length = vals.length / 2 ∧
      (∀ i k v, (header_pairs vals)[i]? = some (k, v) ↔
        vals[2 * i]? = some k ∧ vals[2 * i + 1]? = some v) ∧
      (∀ k v, map_find k ((header_pairs vals).foldl (fun m kv => map_assign kv.1 kv.2 m) []) =
          some v ↔
        ∃ i, i < vals.length / 2 ∧ vals[2 * i]? = some k ∧ vals[2 * i + 1]? = some v ∧
          ∀ j, i < j → j < vals.length / 2 → vals[2 * j]? ≠ some k) ∧
      (∀ k, (∃ v, map_find k
          ((header_pairs vals).foldl (fun m kv => map_assign kv.1 kv.2 m) []) = some v) ↔
        ∃ i, i < vals.length / 2 ∧ vals[2 * i]? = some k) := by
  have hfind : ∀ k v,
      map_find k ((header_pairs vals).foldl (fun m kv => map_assign kv.1 kv.2 m) []) =
          some v ↔
        ∃ i, i < vals.length / 2 ∧ vals[2 * i]? = some k ∧ vals[2 * i + 1]? = some v ∧
          ∀ j, i < j → j < vals.length / 2 → vals[2 * j]? ≠ some k := by
    intro k v
    rw [map_find_foldl]
    simp only [map_find]
    rw [last_assignment_iff]
    constructor
    · rintro ⟨i, hi, hlast⟩
      have hlt := (List.getElem?_eq_some_iff.1 hi).1
      rw [header_pairs_length] at hlt
      have hkv := (header_pairs_getElem vals i k v).1 hi
      refine ⟨i, hlt, hkv.1, hkv.2, ?_⟩
      intro j hij hj hkj
      have hj2 : j < (header_pairs vals).length := by rw [header_pairs_length]; exact hj
      have hget : (header_pairs vals)[j]? = some ((header_pairs vals)[j]) :=
        List.getElem?_eq_getElem hj2
      have hkv2 := (header_pairs_getElem vals j _ _).1 hget
      rw [hkj] at hkv2
      exact hlast j _ hij hget (by simpa using hkv2.1.symm)
    · rintro ⟨i, _, hk, hv, hlast⟩
      refine ⟨i, (header_pairs_getElem vals i k v).2 ⟨hk, hv⟩, ?_⟩
      intro j kv hij hget hkk
      have hlt := (List.getElem?_eq_some_iff.1 hget).1
      rw [header_pairs_length] at hlt
      have hkv2 := (header_pairs_getElem vals j kv.1 kv.2).1 hget
      rw [hkk] at hkv2
      exact hlast j hij hlt hkv2.1
  refine ⟨?_, header_pairs_length vals, header_pairs_getElem vals, hfind, ?_⟩
  · unfold header_callback
    rw [header_callback_rounds vals _ (by rw [header_pairs_length])]
    rw [← header_pairs_length, List.take_length]
  · intro k
    constructor
    · rintro ⟨v, hv⟩
      obtain ⟨i, hi, hk, _⟩ := (hfind k v).1 hv
      exact ⟨i, hi, hk⟩
    · rintro ⟨i, hi, hk⟩
      classical
      have hex : ∃ i, i < vals.length / 2 ∧ vals[2 * i]? = some k := ⟨i, hi, hk⟩
      obtain ⟨hmax, hmaxle⟩ : ∃ j, (j < vals.length / 2 ∧ vals[2 * j]? = some k) ∧
          ∀ j2, j < j2 → ¬ (j2 < vals.length / 2 ∧ vals[2 * j2]? = some k) := by
        by_contra hcon
        push_neg at hcon
        have : ∀ n, ∃ j, n ≤ j ∧ j < vals.length / 2 ∧ vals[2 * j]? = some k := by
          intro n
          induction n with
          | zero => exact ⟨i, Nat.zero_le _, hi, hk⟩
          | succ n ih =>
            obtain ⟨j, hnj, hj⟩ := ih
            obtain ⟨j2, hj2, hj3⟩ := hcon j hj
            exact ⟨j2, by omega, hj3⟩
        obtain ⟨j, h1, h2, _⟩ := this (vals.length / 2)
        omega
      have hlt2 : 2 * hmax + 1 < vals.length := by omega
      refine ⟨vals[2 * hmax + 1], (hfind k _).2 ⟨hmax, hmaxle.1.1, hmaxle.1.2,
        List.getElem?_eq_getElem hlt2, ?_⟩⟩
      intro j hj1 hj2 hj3
      exact hmaxle.2 j hj1 ⟨hj2, hj3⟩

/-! ## The mount program in slew mode -/

/-- C26: in slew mode a time-out of the read after `:Sd` leaves in `buffer[0]` the '1'
that the mount sent in reply to `:Sr`, and the program takes it for the reply to `:Sd`.
With every write complete, the reply '1' to `:Sr`, no reply to `:Sd` and the reply '0'
to `:MS`, the program exits with status 0 in the first round, although the mount never
replied to `:Sd`. -/
theorem stale_reply_accepted :
    (position_slew mockPort "12:33:58.2" "-00*15:15.2" [some '1', none, some '0'] 'x').1 = 0 ∧
      (position_slew mockPort "12:33:58.2" "-00*15:15.2" [some '1', none, some '0'] 'x').2.log =
        [SerialEvent.write "#" 1, SerialEvent.write ":U#" 3,
          SerialEvent.write ":Sr 12:33:58.2#" 15, SerialEvent.read (some '1'),
          SerialEvent.write ":Sd -00*15:15.2#" 16, SerialEvent.read none,
          SerialEvent.write ":MS#\r" 5, SerialEvent.read (some '0')] ∧
      (position_slew mockPort "12:33:58.2" "-00*15:15.2" [some '1', none, some '0']
        'x').2.dec_requested = true := by
  decide

end Sensors
